import Mathlib

/-!
# Billify: invoice store, line-item store, invoice handlers and invoice document

A shallow embedding of `internal/store/invoice.go`, `internal/store/invoice_item.go`,
`internal/store/models.go`, the point lookups of the customer, business and product
stores, the invoice handlers of `cmd/api/invoices.go` and `internal/pdf/pdf_generator.go`.

The store methods are thin wrappers around SQL statements, so the embedding gives each
statement its meaning on a table held as a list of rows (insertion appends, a `WHERE`
clause is a filter, an `UPDATE` is a map over the matching rows).  Everything the
database answers that the rows do not determine is an explicit input of the method:

* `fault : Option Error` - the statement is refused for a reason outside the rows
  (connection loss, the five second timeout, a constraint of the schema that is not
  part of the sources); a refused statement changes nothing;
* `newID`, `now` - the values the server generates (`RETURNING id, created_at`, `NOW()`).

A method that writes through a pointer argument (`Create` scans the new id into
`invoice.ID`) returns the argument as it is after the call.  The table after a call is
returned next to the error.

A handler returns the database after the request and its response; the decoded request
and the validator are inputs.  `GenerateInvoicePDF` is embedded as the list of calls it
makes on the `gofpdf` document, the answers of the library (`GetStringWidth`, `GetY`,
`Output`) being inputs.  Amounts are carried as exact rationals; the arithmetic of the
document's rows, which the code does in `float64`, is stated only where it is exact.
-/

namespace Billify

/-! ## Data model (`models.go`) -/

/-- The type `uuid.UUID`: sixteen bytes, read as a number. -/
abbrev UUID := Nat

/-- The value `uuid.Nil`, the all-zero UUID. -/
def uuidNil : UUID := 0

/-- The type `time.Time`, an instant on a discrete time line. -/
abbrev Time := Int

/-- Amounts (`float64` in Go, a decimal column in the store), carried as exact values. -/
abbrev Amount := ℚ

/-- Largest `int64`, the bound of a `bigint` expression. -/
def maxInt64 : Int := 9223372036854775807

/-- The struct `store.Invoice`. -/
structure Invoice where
  ID : UUID
  InvNo : Int
  BusID : UUID
  CustID : UUID
  TotalAmount : Amount
  InvDate : Time
  DueDate : Time
  IsPaid : Bool
  PaidDate : Option Time
  CreatedAt : Time
deriving DecidableEq, Repr

/-- The struct `store.InvoiceItem`. -/
structure InvoiceItem where
  ID : UUID
  InvID : UUID
  ProdID : UUID
  Quantity : Int
  UnitPrice : Amount
deriving DecidableEq, Repr

/-- Error values: the package's sentinels, `*pq.Error` with its SQLSTATE code, errors made
on the spot with `errors.New` / `fmt.Errorf`, and any other error of the driver. -/
inductive Error where
  | ErrNotFound
  | ErrConflict
  | ErrDuplicateInvoice
  | ErrNoRows
  | pq (code : String)
  | new (text : String)
  | driver (text : String)
deriving DecidableEq, Repr

/-- The table `invoice`. -/
abbrev InvoiceTable := List Invoice

/-- The table `invoice_item`. -/
abbrev ItemTable := List InvoiceItem

/-! ## SQL helpers -/

/-- The aggregate `MAX(...)`: `NULL` over no rows. -/
def sqlMax : List Int → Option Int
  | [] => none
  | x :: xs =>
    match sqlMax xs with
    | none => some x
    | some m => some (max x m)

/-- The function `COALESCE(x, d)`. -/
def coalesce (x : Option Int) (d : Int) : Int :=
  match x with
  | some v => v
  | none => d

/-- Integer addition of the store: out of range is an error (SQLSTATE 22003), never a wrap.
The declaration of the column `inv_no` is not part of the sources; the specification gives
`invoice_number` as int64, so the range is that of `bigint`. -/
def sqlAdd (a b : Int) : Except Error Int :=
  if a + b ≤ maxInt64 ∧ -maxInt64 - 1 ≤ a + b then .ok (a + b) else .error (.pq "22003")

/-! ## `internal/store/invoice.go` -/

/-- The function `isUniqueViolation`: a `*pq.Error` whose code is 23505. -/
def isUniqueViolation (err : Error) : Bool :=
  match err with
  | .pq code => code == "23505"
  | _ => false

/-- The method `InvoiceStore.GetNextInvoiceNumber`:
`SELECT COALESCE(MAX(inv_no), 0) + 1 FROM invoice WHERE buss_id = $1`. -/
def InvoiceStore.GetNextInvoiceNumber (tbl : InvoiceTable) (fault : Option Error)
    (busID : UUID) : Int × Option Error :=
  match fault with
  | some err => (0, some err)
  | none =>
    match sqlAdd (coalesce (sqlMax ((tbl.filter (fun r => r.BusID = busID)).map
        (fun r => r.InvNo))) 0) 1 with
    | .error err => (0, some err)
    | .ok nextInvNo => (nextInvNo, none)

/-- Modelled from the spec: the declaration of the table `invoice` is not part of the
sources; section 6 of the specification gives the store "a uniqueness constraint over
`(business_id, invoice_number)`".  True when `row` would break that constraint. -/
def violatesUnique (tbl : InvoiceTable) (row : Invoice) : Bool :=
  tbl.any (fun r => decide (r.BusID = row.BusID ∧ r.InvNo = row.InvNo))

/-- The statement of `Create`,
`INSERT INTO invoice (inv_no, buss_id, cust_id, total_amount, inv_date, due_date, is_paid,
paid_date) VALUES (...) RETURNING id, created_at`: the row gets the id and the creation
time the server generates; a row that breaks the uniqueness constraint is refused with
SQLSTATE 23505. -/
def insertInvoice (tbl : InvoiceTable) (fault : Option Error) (newID : UUID) (now : Time)
    (row : Invoice) : Except Error (InvoiceTable × UUID × Time) :=
  match fault with
  | some err => .error err
  | none =>
    if violatesUnique tbl row then .error (.pq "23505")
    else .ok (tbl ++ [{ row with ID := newID, CreatedAt := now }], newID, now)

/-- The method `InvoiceStore.Create`.  Returns the table, the argument after the call and
the error. -/
def InvoiceStore.Create (tbl : InvoiceTable) (fault : Option Error) (newID : UUID)
    (now : Time) (invoice : Invoice) : InvoiceTable × Invoice × Option Error :=
  match insertInvoice tbl fault newID now invoice with
  | .error err =>
    if isUniqueViolation err then (tbl, invoice, some .ErrDuplicateInvoice)
    else (tbl, invoice, some err)
  | .ok (tbl', id, createdAt) =>
    (tbl', { invoice with ID := id, CreatedAt := createdAt }, none)

/-- What the store answers to one `ExecContext` followed by `RowsAffected`: the statement
may be refused (nothing changes), and reading the row count may fail (after the statement
has been applied). -/
structure ExecFaults where
  exec : Option Error
  rowsAffected : Option Error
deriving DecidableEq, Repr

/-- A store that answers every call. -/
def noFaults : ExecFaults := ⟨none, none⟩

/-- The method `InvoiceStore.Update`:
`UPDATE invoice SET cust_id = $2, total_amount = $3, inv_date = $4, due_date = $5,
is_paid = $6, paid_date = $7 WHERE id = $1`. -/
def InvoiceStore.Update (tbl : InvoiceTable) (f : ExecFaults) (invoice : Invoice) :
    InvoiceTable × Option Error :=
  match f.exec with
  | some err => (tbl, some err)
  | none =>
    let tbl' := tbl.map (fun r =>
      if r.ID = invoice.ID then
        { r with CustID := invoice.CustID, TotalAmount := invoice.TotalAmount,
                 InvDate := invoice.InvDate, DueDate := invoice.DueDate,
                 IsPaid := invoice.IsPaid, PaidDate := invoice.PaidDate }
      else r)
    let rowsAffected := (tbl.filter (fun r => r.ID = invoice.ID)).length
    match f.rowsAffected with
    | some err => (tbl', some err)
    | none =>
      if rowsAffected = 0 then (tbl', some (.new "failed to update invoice"))
      else (tbl', none)

/-- The assignment of `UpdateStatus` on one row,
`SET is_paid = NOT is_paid, paid_date = CASE WHEN NOT is_paid THEN NOW() ELSE NULL END`;
both right-hand sides read the row as it was. -/
def toggleStatus (now : Time) (r : Invoice) : Invoice :=
  { r with IsPaid := !r.IsPaid, PaidDate := if !r.IsPaid then some now else none }

/-- The method `InvoiceStore.UpdateStatus`. -/
def InvoiceStore.UpdateStatus (tbl : InvoiceTable) (f : ExecFaults) (now : Time)
    (invoiceID : UUID) : InvoiceTable × Option Error :=
  match f.exec with
  | some err => (tbl, some err)
  | none =>
    let tbl' := tbl.map (fun r => if r.ID = invoiceID then toggleStatus now r else r)
    let rowsAffected := (tbl.filter (fun r => r.ID = invoiceID)).length
    match f.rowsAffected with
    | some err => (tbl', some err)
    | none =>
      if rowsAffected = 0 then (tbl', some .ErrNotFound)
      else (tbl', none)

/-- The method `InvoiceStore.Delete`: `DELETE FROM invoice WHERE id = $1`. -/
def InvoiceStore.Delete (tbl : InvoiceTable) (f : ExecFaults) (invoiceID : UUID) :
    InvoiceTable × Option Error :=
  match f.exec with
  | some err => (tbl, some err)
  | none =>
    let tbl' := tbl.filter (fun r => r.ID ≠ invoiceID)
    let rowsAffected := (tbl.filter (fun r => r.ID = invoiceID)).length
    match f.rowsAffected with
    | some err => (tbl', some err)
    | none =>
      if rowsAffected = 0 then (tbl', some .ErrNotFound)
      else (tbl', none)

/-! ## `internal/store/invoice_item.go` -/

/-- The method `InvoiceItemStore.GetByInvoiceID`:
`SELECT id, inv_id, prod_id, quantity, unit_price FROM invoice_item WHERE inv_id = $1`. -/
def InvoiceItemStore.GetByInvoiceID (tbl : ItemTable) (fault : Option Error)
    (invID : UUID) : List InvoiceItem × Option Error :=
  match fault with
  | some err => ([], some err)
  | none => (tbl.filter (fun r => r.InvID = invID), none)

/-- The connection `UpdateAll` works on, over a store with "atomic multi-statement
transactions" (section 6 of the specification): the statements of a transaction act on its
own view, and readers get the committed table.  `committed` is the table every reader
gets; `tx` is the view of the open transaction (`*sql.Tx`), if one is open; `observable`
is a ghost record of the committed table after each call made on the connection. -/
structure Session where
  committed : ItemTable
  tx : Option ItemTable
  observable : List ItemTable
deriving DecidableEq, Repr

/-- A fresh connection on a table. -/
def Session.start (tbl : ItemTable) : Session := ⟨tbl, none, []⟩

/-- Ghost step: note what a reader gets now. -/
def Session.record (s : Session) : Session :=
  { s with observable := s.observable ++ [s.committed] }

/-- The error of `database/sql` for a statement on a transaction that is over. -/
def ErrTxDone : Error := .driver "sql: transaction has already been committed or rolled back"

/-- The call `db.BeginTx`: the transaction starts from the committed table. -/
def Session.BeginTx (s : Session) (fault : Option Error) : Session × Option Error :=
  match fault with
  | some err => (s.record, some err)
  | none => (Session.record { s with tx := some s.committed }, none)

/-- The call `tx.ExecContext` with `DELETE FROM invoice_item WHERE inv_id = $1`: it acts
on the view of the transaction only. -/
def Session.ExecDelete (s : Session) (fault : Option Error) (invoiceID : UUID) :
    Session × Option Error :=
  match fault, s.tx with
  | some err, _ => (s.record, some err)
  | none, none => (s.record, some ErrTxDone)
  | none, some view =>
    (Session.record { s with tx := some (view.filter (fun r => r.InvID ≠ invoiceID)) }, none)

/-- The call `tx.ExecContext` with
`INSERT INTO invoice_item (inv_id, prod_id, quantity, unit_price) VALUES ($1, $2, $3, $4)`:
the row gets the id the server generates and is added to the view of the transaction. -/
def Session.ExecInsert (s : Session) (fault : Option Error) (newID : UUID)
    (invID prodID : UUID) (quantity : Int) (unitPrice : Amount) : Session × Option Error :=
  match fault, s.tx with
  | some err, _ => (s.record, some err)
  | none, none => (s.record, some ErrTxDone)
  | none, some view =>
    (Session.record { s with tx := some (view ++ [⟨newID, invID, prodID, quantity, unitPrice⟩]) },
      none)

/-- The call `tx.Rollback`: the view of the transaction is dropped. -/
def Session.Rollback (s : Session) : Session :=
  Session.record { s with tx := none }

/-- The call `tx.Commit`: the view of the transaction becomes the committed table; a
commit that fails leaves the committed table as it was and ends the transaction. -/
def Session.Commit (s : Session) (fault : Option Error) : Session × Option Error :=
  match fault, s.tx with
  | some err, _ => (Session.record { s with tx := none }, some err)
  | none, none => (s.record, some ErrTxDone)
  | none, some view => (Session.record { s with committed := view, tx := none }, none)

/-- What the store answers during one `UpdateAll`: a fault for `BeginTx`, for the
`DELETE`, for the `INSERT` of the item at each position and for `Commit`, and the id it
generates for the row of the item at each position. -/
structure TxFaults where
  beginTx : Option Error
  deleteOld : Option Error
  insert : Nat → Option Error
  commit : Option Error
  newID : Nat → UUID

/-- A store that answers every call of `UpdateAll`, numbering the new rows with `ids`. -/
def noTxFaults (ids : Nat → UUID) : TxFaults := ⟨.none, .none, fun _ => .none, .none, ids⟩

/-- The loop `for _, item := range items` of `UpdateAll`, from position `k` on. -/
def InvoiceItemStore.insertItems (f : TxFaults) (invoiceID : UUID) :
    List InvoiceItem → Nat → Session → Session × Option Error
  | [], _, s => (s, none)
  | item :: rest, k, s =>
    if item.ProdID = uuidNil then
      (s.Rollback, some (.new "prod_id cannot be null"))
    else
      match s.ExecInsert (f.insert k) (f.newID k) invoiceID item.ProdID item.Quantity
          item.UnitPrice with
      | (s1, some err) => (s1.Rollback, some err)
      | (s1, none) => InvoiceItemStore.insertItems f invoiceID rest (k + 1) s1

/-- The method `InvoiceItemStore.UpdateAll`, run on a fresh connection on `tbl`.  The
table after the call is `committed` of the session returned. -/
def InvoiceItemStore.UpdateAll (tbl : ItemTable) (f : TxFaults) (invoiceID : UUID)
    (items : List InvoiceItem) : Session × Option Error :=
  if items.length = 0 then (Session.start tbl, none)
  else
    match (Session.start tbl).BeginTx f.beginTx with
    | (s0, some err) => (s0, some err)
    | (s0, none) =>
      match s0.ExecDelete f.deleteOld invoiceID with
      | (s1, some err) => (s1.Rollback, some err)
      | (s1, none) =>
        match InvoiceItemStore.insertItems f invoiceID items 0 s1 with
        | (s2, some err) => (s2, some err)
        | (s2, none) =>
          match s2.Commit f.commit with
          | (s3, some err) => (s3, some err)
          | (s3, none) => (s3, none)

/-! ## Descriptions used in the statements -/

/-- The rows `UpdateAll` inserts for `items` from position `k` on: one per item, in order,
with the invoice id of the call and the id the store generated. -/
def newRows (ids : Nat → UUID) (invoiceID : UUID) : List InvoiceItem → Nat → List InvoiceItem
  | [], _ => []
  | item :: rest, k =>
    ⟨ids k, invoiceID, item.ProdID, item.Quantity, item.UnitPrice⟩ ::
      newRows ids invoiceID rest (k + 1)

/-- The item table with the items of `invoiceID` replaced by the rows for `items`. -/
def replaced (tbl : ItemTable) (ids : Nat → UUID) (invoiceID : UUID)
    (items : List InvoiceItem) : ItemTable :=
  tbl.filter (fun r => r.InvID ≠ invoiceID) ++ newRows ids invoiceID items 0

/-- The invariant of the data model: `paid_date` is non-null iff `is_paid` is true. -/
def paidDateMatches (r : Invoice) : Prop := r.PaidDate.isSome = r.IsPaid

instance (r : Invoice) : Decidable (paidDateMatches r) := by
  unfold paidDateMatches; infer_instance

/-- One call of an invoice operation, with its arguments and what the store answers. -/
inductive InvoiceCall where
  | Create (fault : Option Error) (newID : UUID) (now : Time) (invoice : Invoice)
  | Update (f : ExecFaults) (invoice : Invoice)
  | UpdateStatus (f : ExecFaults) (now : Time) (invoiceID : UUID)
  | Delete (f : ExecFaults) (invoiceID : UUID)
deriving DecidableEq, Repr

/-- The table after one call. -/
def InvoiceCall.apply (tbl : InvoiceTable) : InvoiceCall → InvoiceTable
  | .Create fault newID now invoice => (InvoiceStore.Create tbl fault newID now invoice).1
  | .Update f invoice => (InvoiceStore.Update tbl f invoice).1
  | .UpdateStatus f now invoiceID => (InvoiceStore.UpdateStatus tbl f now invoiceID).1
  | .Delete f invoiceID => (InvoiceStore.Delete tbl f invoiceID).1

/-- The table after a sequence of calls. -/
def applyCalls (tbl : InvoiceTable) (calls : List InvoiceCall) : InvoiceTable :=
  calls.foldl InvoiceCall.apply tbl

/-- The caller of `Create` / `Update` supplies `is_paid` and `paid_date` that agree. -/
def InvoiceCall.suppliesMatching : InvoiceCall → Prop
  | .Create _ _ _ invoice => paidDateMatches invoice
  | .Update _ invoice => paidDateMatches invoice
  | .UpdateStatus _ _ _ => True
  | .Delete _ _ => True

instance (c : InvoiceCall) : Decidable c.suppliesMatching := by
  cases c <;> unfold InvoiceCall.suppliesMatching <;> infer_instance

/-- One step of a client of one business: create an invoice under the number
`GetNextInvoiceNumber` returns at that moment, or delete an invoice. -/
inductive AllocCall where
  | create (header : Invoice) (newID : UUID) (now : Time)
  | delete (invoiceID : UUID)
deriving DecidableEq, Repr

/-- The invoice table together with the numbers given to the invoices created so far,
oldest first. -/
structure AllocState where
  tbl : InvoiceTable
  given : List Int
deriving DecidableEq, Repr

/-- The state after one step of the client of business `busID`. -/
def AllocCall.apply (busID : UUID) (st : AllocState) : AllocCall → AllocState
  | .create header newID now =>
    match InvoiceStore.GetNextInvoiceNumber st.tbl none busID with
    | (_, some _) => st
    | (n, none) =>
      match InvoiceStore.Create st.tbl none newID now
          { header with InvNo := n, BusID := busID } with
      | (_, _, some _) => st
      | (tbl', _, none) => ⟨tbl', st.given ++ [n]⟩
  | .delete invoiceID => ⟨(InvoiceStore.Delete st.tbl noFaults invoiceID).1, st.given⟩

/-- The state after a sequence of steps. -/
def applyAllocCalls (busID : UUID) (st : AllocState) (calls : List AllocCall) : AllocState :=
  calls.foldl (AllocCall.apply busID) st

/-! ## `cmd/api/invoices.go`: the update and delete handlers -/

/-- The tables the invoice handlers work on. -/
structure DB where
  invoice : InvoiceTable
  invoice_item : ItemTable
deriving DecidableEq, Repr

/-- The struct `InvoiceItemPayload`. -/
structure InvoiceItemPayload where
  ID : UUID
  ProdID : UUID
  TaxRate : Amount
  Quantity : Int
  UnitPrice : Amount
deriving DecidableEq, Repr

/-- The struct `InvoicePayload`. -/
structure InvoicePayload where
  ID : UUID
  InvNo : Int
  BusID : UUID
  CustID : UUID
  TotalAmount : Amount
  InvDate : Time
  DueDate : Time
  IsPaid : Bool
  PaidDate : Option Time
  Items : List InvoiceItemPayload
deriving DecidableEq, Repr

/-- The zero value of `time.Time`. -/
def zeroTime : Time := 0

/-- The constant `http.StatusNoContent`. -/
def StatusNoContent : Nat := 204

/-- What a handler answers: a bare `w.WriteHeader(status)`, or a call of one of the
response helpers of `application` with the error it is given; `noWrite` when the handler
returns without writing anything, `Write` when it sets the content type, writes the status
and writes a body, `panic` when it does not return but panics. -/
inductive Response where
  | WriteHeader (status : Nat)
  | badRequestResponse (err : Error)
  | notFoundResponse (err : Error)
  | conflictResponse (err : Error)
  | internalServerError (err : Error)
  | noWrite
  | Write (contentType : String) (status : Nat) (body : List Nat)
  | panic
deriving DecidableEq, Repr

/-- Modelled from the spec: the response helpers `badRequestResponse`, `notFoundResponse`,
`conflictResponse` and `internalServerError` are called by the handlers but are not part of
the sources; section 7 of the specification gives their categories as the 400-, 404-, 409-
and 500-equivalent.  A handler that returns without writing is answered 200 by `net/http`;
a panic is answered 500 by the `Recoverer` middleware that `mount` installs. -/
def Response.status : Response → Nat
  | .WriteHeader status => status
  | .badRequestResponse _ => 400
  | .notFoundResponse _ => 404
  | .conflictResponse _ => 409
  | .internalServerError _ => 500
  | .noWrite => 200
  | .Write _ status _ => status
  | .panic => 500

/-- The body the handler itself writes with `w.Write`. -/
def Response.body : Response → Option (List Nat)
  | .Write _ _ body => some body
  | _ => none

/-- The struct literal `&store.Invoice{...}` the update handler builds from the payload
(`CreatedAt` is left at its zero value). -/
def InvoicePayload.invoice (payload : InvoicePayload) : Invoice :=
  { ID := payload.ID, InvNo := payload.InvNo, BusID := payload.BusID,
    CustID := payload.CustID, TotalAmount := payload.TotalAmount,
    InvDate := payload.InvDate, DueDate := payload.DueDate, IsPaid := payload.IsPaid,
    PaidDate := payload.PaidDate, CreatedAt := zeroTime }

/-- The loop of the update handler that builds `items` from `payload.Items`, each with
`InvID: invoice.ID`. -/
def InvoicePayload.items (payload : InvoicePayload) : List InvoiceItem :=
  payload.Items.map (fun itemPayload =>
    { ID := itemPayload.ID, InvID := payload.invoice.ID, ProdID := itemPayload.ProdID,
      Quantity := itemPayload.Quantity, UnitPrice := itemPayload.UnitPrice })

/-- The handler `updateInvoiceHandler`.  `readJSON` is the outcome of decoding the request
body and `Validate` the struct validator (neither is part of the sources); `fu` and `ft`
are what the store answers to `Update` and to `UpdateAll`. -/
def updateInvoiceHandler (db : DB) (readJSON : Except Error InvoicePayload)
    (Validate : InvoicePayload → Option Error) (fu : ExecFaults) (ft : TxFaults) :
    DB × Response :=
  match readJSON with
  | .error err => (db, .badRequestResponse err)
  | .ok payload =>
    match Validate payload with
    | some err => (db, .badRequestResponse err)
    | none =>
      match InvoiceStore.Update db.invoice fu payload.invoice with
      | (tbl, some err) =>
        if err = .ErrNotFound then (⟨tbl, db.invoice_item⟩, .notFoundResponse err)
        else (⟨tbl, db.invoice_item⟩, .internalServerError err)
      | (tbl, none) =>
        match InvoiceItemStore.UpdateAll db.invoice_item ft payload.invoice.ID
            payload.items with
        | (s, some err) => (⟨tbl, s.committed⟩, .internalServerError err)
        | (s, none) => (⟨tbl, s.committed⟩, .WriteHeader StatusNoContent)

/-- The call `app.store.Invoices.Delete` on the whole database.  The method issues
`DELETE FROM invoice WHERE id = $1` and nothing else.  The declaration of the table
`invoice_item` is not part of the sources: `cascade` says whether its reference to
`invoice` is declared `ON DELETE CASCADE`, in which case the store removes the items of a
deleted invoice with it.  (A reference that forbids the delete is a fault of the
statement.) -/
def DB.InvoicesDelete (cascade : Bool) (db : DB) (f : ExecFaults) (invoiceID : UUID) :
    DB × Option Error :=
  let r := InvoiceStore.Delete db.invoice f invoiceID
  let items :=
    if cascade = true ∧ f.exec = none ∧ (∃ row ∈ db.invoice, row.ID = invoiceID) then
      db.invoice_item.filter (fun it => it.InvID ≠ invoiceID)
    else db.invoice_item
  (⟨r.1, items⟩, r.2)

/-- The handler `deleteInvoiceHandler`.  `id` is the outcome of `uuid.Parse` on the URL
parameter. -/
def deleteInvoiceHandler (cascade : Bool) (db : DB) (id : Except Error UUID)
    (f : ExecFaults) : DB × Response :=
  match id with
  | .error err => (db, .badRequestResponse err)
  | .ok invoiceID =>
    match DB.InvoicesDelete cascade db f invoiceID with
    | (db', some err) =>
      if err = .ErrNotFound then (db', .notFoundResponse err)
      else (db', .internalServerError err)
    | (db', none) => (db', .WriteHeader StatusNoContent)

/-- Modelled from the spec: the declaration of the table `invoice_item` is not part of the
sources.  Section 3 of the specification has every item carry the id of its owning invoice
(`invoice_id`, "required non-null") and be "cascaded-deleted when invoice is deleted".
`ItemReference cascade db f invoiceID` says that the store keeps this reference of
`invoice_item` to `invoice` when it is asked to delete the invoice `invoiceID`: the
reference is declared `ON DELETE CASCADE`, as the specification has it, or else the store
refuses the statement as long as an item of that invoice is stored. -/
def ItemReference (cascade : Bool) (db : DB) (f : ExecFaults) (invoiceID : UUID) : Prop :=
  cascade = true ∨ ((∃ it ∈ db.invoice_item, it.InvID = invoiceID) → f.exec ≠ none)

instance (cascade : Bool) (db : DB) (f : ExecFaults) (invoiceID : UUID) :
    Decidable (ItemReference cascade db f invoiceID) := by
  unfold ItemReference
  infer_instance

/-! ## `internal/pdf/pdf_generator.go` -/

/-- The struct `store.Business`. -/
structure Business where
  ID : UUID
  UserID : UUID
  Name : String
  GSTNo : String
  CompanyEmail : String
  CompanyPhone : String
  Address : String
  City : String
  ZipCode : String
  State : String
  Country : String
  BankName : String
  AccountNo : String
  IFSC : String
  BankBranch : String
  CreatedAt : Time
  UpdatedAt : Time
deriving DecidableEq, Repr

/-- The struct `store.Customer`. -/
structure Customer where
  ID : UUID
  BusID : UUID
  Name : String
  GSTNo : String
  Email : String
  Phone : String
  BAddress : String
  SAddress : String
  CreatedAt : Time
deriving DecidableEq, Repr

/-- The struct `store.Product`. -/
structure Product where
  ID : UUID
  BusID : UUID
  Name : String
  Price : Amount
  TaxRate : Amount
  Unit : String
  HSNCode : String
  CreatedAt : Time
deriving DecidableEq, Repr

/-- An operand of `fmt.Sprintf`: a string (`%s`), an integer (`%d`), an amount (`%.2f`) or
the string `t.Format(layout)` of a time. -/
inductive Arg where
  | s (v : String)
  | d (v : Int)
  | f (v : Amount)
  | time (layout : String) (t : Time)
deriving DecidableEq, Repr

/-- A string handed to the PDF library, kept as the expression that builds it. -/
inductive Text where
  | str (v : String)
  | Sprintf (format : String) (args : List Arg)
  | Itoa (n : Int)
deriving DecidableEq, Repr

/-- The amount format of the table and of the totals block, `fmt.Sprintf("₹ %.2f", x)`. -/
def money (x : Amount) : Text := .Sprintf "₹ %.2f" [.f x]

/-- One call on the `gofpdf` document, with its arguments. -/
inductive Call where
  | New (orientation unit size fontDir : String)
  | AddUTF8Font (family style file : String)
  | AddPage
  | SetMargins (left top right : ℚ)
  | SetFont (family style : String) (size : ℚ)
  | SetTextColor (r g b : Int)
  | SetFillColor (r g b : Int)
  | CellFormat (w h : ℚ) (txt : Text) (border : String) (ln : Int) (align : String)
      (fill : Bool) (link : Int) (linkStr : String)
  | MultiCell (w h : ℚ) (txt : Text) (border align : String) (fill : Bool)
  | Ln (h : ℚ)
  | SetXY (x y : ℚ)
deriving DecidableEq, Repr

/-- What the `gofpdf` library answers: the width of a string and the vertical position of
the cursor after the calls made so far, and the bytes (or the error) `Output` gives for the
calls made on the document. -/
structure Gofpdf where
  GetStringWidth : List Call → String → ℚ
  GetY : List Call → ℚ
  Output : List Call → Except Error (List Nat)

/-- How a call of `GenerateInvoicePDF` ends: with the bytes of the document, with an
error, or with a run-time panic (a nil pointer dereference). -/
inductive RenderResult where
  | ok (bytes : List Nat)
  | error (err : Error)
  | panic
deriving DecidableEq, Repr

/-- The inner loop `for _, p := range products`: the first product with the id, or nil. -/
def findProduct (products : List Product) (prodID : UUID) : Option Product :=
  match products with
  | [] => none
  | p :: rest => if p.ID = prodID then some p else findProduct rest prodID

/-- The values one pass of the outer loop puts into the cells of a table row. -/
structure Row where
  serial : Int
  name : String
  rate : Amount
  quantity : Int
  taxableValue : Amount
  taxAmount : Amount
  totalAmount : Amount
deriving DecidableEq, Repr

/-- The row of the item at position `i` with its product: the locals `taxableValue`,
`taxAmount`, `totalAmount` and the other cell values.  The serial number, the name, the
unit price and the quantity are carried as they are.  The three computed amounts are the
code's expressions read over the rationals; the code evaluates them in `float64` and
rounds after every operation, so its values are these only where no operation rounds, as
with whole numbers below 2^53 (see `lineRow_whole_amounts`). -/
def lineRow (i : Nat) (item : InvoiceItem) (product : Product) : Row :=
  let taxableValue := item.UnitPrice * (item.Quantity : ℚ)
  let taxAmount := (taxableValue * product.TaxRate) / 100
  let totalAmount := taxableValue + taxAmount
  { serial := (i : Int) + 1, name := product.Name, rate := item.UnitPrice,
    quantity := item.Quantity, taxableValue := taxableValue, taxAmount := taxAmount,
    totalAmount := totalAmount }

/-- The calls one pass of the outer loop makes for its row. -/
def Row.calls (r : Row) : List Call :=
  [ .SetFillColor 238 238 238,
    .CellFormat 10 7 (.Itoa r.serial) "" 0 "C" true 0 "",
    .CellFormat 60 7 (.str r.name) "" 0 "" true 0 "",
    .CellFormat 25 7 (money r.rate) "" 0 "R" true 0 "",
    .CellFormat 15 7 (.Itoa r.quantity) "" 0 "R" true 0 "",
    .CellFormat 30 7 (money r.taxableValue) "" 0 "R" true 0 "",
    .CellFormat 30 7 (money r.taxAmount) "" 0 "R" true 0 "",
    .CellFormat 30 7 (money r.totalAmount) "" 1 "R" true 0 "" ]

/-- The loop `for i, item := range items` from position `i` on: the rows it lays out, or
`none` when it reads `product.TaxRate` of an item whose product was not found (`product`
is nil there and the read panics). -/
def tableRows (products : List Product) : List InvoiceItem → Nat → Option (List Row)
  | [], _ => some []
  | item :: rest, i =>
    match findProduct products item.ProdID with
    | none => none
    | some product =>
      match tableRows products rest (i + 1) with
      | none => none
      | some rows => some (lineRow i item product :: rows)

/-- The calls of `GenerateInvoicePDF` before the loop over the items: fonts, page, header,
dates, customer, the two address columns and the head of the table. -/
def headerCalls (lib : Gofpdf) (business : Business) (invoice : Invoice)
    (customer : Customer) : List Call :=
  let c1 : List Call :=
    [ .New "P" "mm" "A4" "./fonts",
      .AddUTF8Font "Poppins" "" "./Poppins-Regular.ttf",
      .AddUTF8Font "Poppins" "B" "./Poppins-Bold.ttf",
      .AddUTF8Font "Poppins" "I" "./Poppins-Italic.ttf",
      .AddPage,
      .SetMargins 5 5 5,
      .SetFont "Poppins" "B" 18,
      .SetTextColor 78 79 235,
      .CellFormat 190 10 (.Sprintf "Invoice #%d" [.d invoice.InvNo]) "" 1 "C" false 0 "",
      .Ln 10,
      .SetFont "Poppins" "B" 16,
      .SetTextColor 0 0 0,
      .CellFormat 190 7 (.str business.Name) "" 1 "" false 0 "",
      .SetFont "Poppins" "" 8,
      .MultiCell 190 5
        (.Sprintf "GSTIN: %s\n%s\n%s, %s, %s, %s\nPhone: %s\nEmail: %s"
          [.s business.GSTNo, .s business.Address, .s business.City, .s business.State,
            .s business.ZipCode, .s business.Country, .s business.CompanyPhone,
            .s business.CompanyEmail]) "" "" false,
      .Ln 4,
      .SetFont "Poppins" "B" 8,
      .CellFormat 95 6 (.Sprintf "Invoice Date: %s" [.time "02/01/2006" invoice.InvDate])
        "" 0 "" false 0 "",
      .CellFormat 95 6 (.Sprintf "Due Date: %s" [.time "02/01/2006" invoice.DueDate])
        "" 1 "" false 0 "",
      .Ln 5,
      .SetFont "Poppins" "B" 8,
      .CellFormat 95 6 (.str "Customer Detail:") "" 1 "" false 0 "",
      .SetFont "Poppins" "" 8,
      .CellFormat 95 5 (.Sprintf "Name: %s" [.s customer.Name]) "" 1 "" false 0 "",
      .CellFormat 95 5 (.Sprintf "GSTNo: %s" [.s customer.GSTNo]) "" 1 "" false 0 "",
      .Ln 2,
      .SetFont "Poppins" "B" 8,
      .CellFormat 100 6 (.str "Billing Address:") "" 0 "L" false 0 "",
      .CellFormat 95 6 (.str "Shipping Address:") "" 1 "L" false 0 "",
      .SetFont "Poppins" "" 8 ]
  let billingHeight : ℚ := (Int.ceil (lib.GetStringWidth c1 customer.BAddress / 95) : ℚ) * 6
  let shippingHeight : ℚ := (Int.ceil (lib.GetStringWidth c1 customer.SAddress / 95) : ℚ) * 6
  let c2 := c1 ++ [.MultiCell 95 6 (.str customer.BAddress) "" "L" false]
  let c3 := c2 ++ [.SetXY 105 (lib.GetY c2 - billingHeight)]
  let c4 := c3 ++ [.MultiCell 95 6 (.str customer.SAddress) "" "L" false]
  let c5 := c4 ++ [if billingHeight > shippingHeight then .Ln (billingHeight + 10) else .Ln 10]
  c5 ++
    [ .SetFont "Poppins" "B" 8,
      .SetFillColor 78 79 235,
      .SetTextColor 255 255 255,
      .CellFormat 10 7 (.str "#") "" 0 "C" true 0 "",
      .CellFormat 60 7 (.str "Item") "" 0 "C" true 0 "",
      .CellFormat 25 7 (.str "Rate / Item") "" 0 "C" true 0 "",
      .CellFormat 15 7 (.str "Qty") "" 0 "C" true 0 "",
      .CellFormat 30 7 (.str "Taxable Value") "" 0 "C" true 0 "",
      .CellFormat 30 7 (.str "Tax Amount") "" 0 "C" true 0 "",
      .CellFormat 30 7 (.str "Item Total") "" 1 "C" true 0 "",
      .SetFont "Poppins" "" 8,
      .SetTextColor 0 0 0 ]

/-- The calls of `GenerateInvoicePDF` after the loop: the rule under the table, the totals
block and the bank details. -/
def footerCalls (business : Business) (invoice : Invoice) : List Call :=
  [ .CellFormat 200 1 (.str "") "B" 0 "R" false 1 "",
    .SetFont "Poppins" "B" 8,
    .Ln 2,
    .CellFormat 160 7 (.str "Total Amount") "" 0 "R" false 0 "",
    .CellFormat 40 7 (money invoice.TotalAmount) "" 1 "R" false 0 "",
    .Ln 10,
    .SetFont "Poppins" "B" 8,
    .CellFormat 190 6 (.str "Bank Details:") "" 1 "" false 0 "",
    .SetFont "Poppins" "" 8,
    .MultiCell 190 5
      (.Sprintf "Bank: %s\nAccount No: %s\nIFSC Code: %s\nBranch: %s"
        [.s business.BankName, .s business.AccountNo, .s business.IFSC,
          .s business.BankBranch]) "" "" false ]

/-- The calls `GenerateInvoicePDF` has made on the document when it reaches `pdf.Output`,
or `none` when the loop over the items panics. -/
def GenerateInvoicePDF.calls (lib : Gofpdf) (business : Business) (invoice : Invoice)
    (customer : Customer) (items : List InvoiceItem) (products : List Product) :
    Option (List Call) :=
  match tableRows products items 0 with
  | none => none
  | some rows =>
    some (headerCalls lib business invoice customer ++ (rows.map Row.calls).flatten ++
      footerCalls business invoice)

/-- The method `PDFGenerator.GenerateInvoicePDF`. -/
def GenerateInvoicePDF (lib : Gofpdf) (business : Business) (invoice : Invoice)
    (customer : Customer) (items : List InvoiceItem) (products : List Product) :
    RenderResult :=
  match GenerateInvoicePDF.calls lib business invoice customer items products with
  | none => .panic
  | some calls =>
    match lib.Output calls with
    | .error err => .error err
    | .ok bytes => .ok bytes

/-- The text of the amount cell of the totals block: the sixth call from the end. -/
def printedTotal (calls : List Call) : Option Text :=
  match calls.reverse.drop 5 with
  | .CellFormat _ _ txt _ _ _ _ _ _ :: _ => some txt
  | _ => none

/-- The sum of the line totals of the rows. -/
def sumLineTotals (rows : List Row) : Amount := (rows.map (fun r => r.totalAmount)).sum

/-! ## The address block of the document -/

/-- The height the code computes for an address column from the width of its text:
`math.Ceil(width/95) * 6`. -/
def columnHeight (textWidth : ℚ) : ℚ := (Int.ceil (textWidth / 95) : ℚ) * 6

/-- The calls of `GenerateInvoicePDF` before the two address columns, up to the `SetFont`
that follows the column titles. -/
def callsBeforeAddresses (business : Business) (invoice : Invoice) (customer : Customer) :
    List Call :=
  [ .New "P" "mm" "A4" "./fonts",
    .AddUTF8Font "Poppins" "" "./Poppins-Regular.ttf",
    .AddUTF8Font "Poppins" "B" "./Poppins-Bold.ttf",
    .AddUTF8Font "Poppins" "I" "./Poppins-Italic.ttf",
    .AddPage,
    .SetMargins 5 5 5,
    .SetFont "Poppins" "B" 18,
    .SetTextColor 78 79 235,
    .CellFormat 190 10 (.Sprintf "Invoice #%d" [.d invoice.InvNo]) "" 1 "C" false 0 "",
    .Ln 10,
    .SetFont "Poppins" "B" 16,
    .SetTextColor 0 0 0,
    .CellFormat 190 7 (.str business.Name) "" 1 "" false 0 "",
    .SetFont "Poppins" "" 8,
    .MultiCell 190 5
      (.Sprintf "GSTIN: %s\n%s\n%s, %s, %s, %s\nPhone: %s\nEmail: %s"
        [.s business.GSTNo, .s business.Address, .s business.City, .s business.State,
          .s business.ZipCode, .s business.Country, .s business.CompanyPhone,
          .s business.CompanyEmail]) "" "" false,
    .Ln 4,
    .SetFont "Poppins" "B" 8,
    .CellFormat 95 6 (.Sprintf "Invoice Date: %s" [.time "02/01/2006" invoice.InvDate])
      "" 0 "" false 0 "",
    .CellFormat 95 6 (.Sprintf "Due Date: %s" [.time "02/01/2006" invoice.DueDate])
      "" 1 "" false 0 "",
    .Ln 5,
    .SetFont "Poppins" "B" 8,
    .CellFormat 95 6 (.str "Customer Detail:") "" 1 "" false 0 "",
    .SetFont "Poppins" "" 8,
    .CellFormat 95 5 (.Sprintf "Name: %s" [.s customer.Name]) "" 1 "" false 0 "",
    .CellFormat 95 5 (.Sprintf "GSTNo: %s" [.s customer.GSTNo]) "" 1 "" false 0 "",
    .Ln 2,
    .SetFont "Poppins" "B" 8,
    .CellFormat 100 6 (.str "Billing Address:") "" 0 "L" false 0 "",
    .CellFormat 95 6 (.str "Shipping Address:") "" 1 "L" false 0 "",
    .SetFont "Poppins" "" 8 ]

/-- The calls that lay out the head of the line-item table. -/
def tableHeadCalls : List Call :=
  [ .SetFont "Poppins" "B" 8,
    .SetFillColor 78 79 235,
    .SetTextColor 255 255 255,
    .CellFormat 10 7 (.str "#") "" 0 "C" true 0 "",
    .CellFormat 60 7 (.str "Item") "" 0 "C" true 0 "",
    .CellFormat 25 7 (.str "Rate / Item") "" 0 "C" true 0 "",
    .CellFormat 15 7 (.str "Qty") "" 0 "C" true 0 "",
    .CellFormat 30 7 (.str "Taxable Value") "" 0 "C" true 0 "",
    .CellFormat 30 7 (.str "Tax Amount") "" 0 "C" true 0 "",
    .CellFormat 30 7 (.str "Item Total") "" 1 "C" true 0 "",
    .SetFont "Poppins" "" 8,
    .SetTextColor 0 0 0 ]

/-- The calls of `GenerateInvoicePDF` up to the billing column: those before the address
block and the `MultiCell` of the billing address. -/
def callsToBilling (business : Business) (invoice : Invoice) (customer : Customer) :
    List Call :=
  callsBeforeAddresses business invoice customer ++
    [.MultiCell 95 6 (.str customer.BAddress) "" "L" false]

/-- The calls up to the start of the shipping column: the `SetXY` after the billing
column. -/
def callsToShippingStart (lib : Gofpdf) (business : Business) (invoice : Invoice)
    (customer : Customer) : List Call :=
  callsToBilling business invoice customer ++
    [.SetXY 105 (lib.GetY (callsToBilling business invoice customer) -
      columnHeight (lib.GetStringWidth (callsBeforeAddresses business invoice customer)
        customer.BAddress))]

/-- The calls up to the end of the shipping column. -/
def callsToShipping (lib : Gofpdf) (business : Business) (invoice : Invoice)
    (customer : Customer) : List Call :=
  callsToShippingStart lib business invoice customer ++
    [.MultiCell 95 6 (.str customer.SAddress) "" "L" false]

/-- The calls up to the end of the address block: the `Ln` after the two columns.  The
head of the table is laid out from the cursor these calls leave. -/
def callsToTable (lib : Gofpdf) (business : Business) (invoice : Invoice)
    (customer : Customer) : List Call :=
  callsToShipping lib business invoice customer ++
    [if columnHeight (lib.GetStringWidth (callsBeforeAddresses business invoice customer)
          customer.BAddress) >
        columnHeight (lib.GetStringWidth (callsBeforeAddresses business invoice customer)
          customer.SAddress) then
      .Ln (columnHeight (lib.GetStringWidth (callsBeforeAddresses business invoice customer)
        customer.BAddress) + 10)
    else .Ln 10]

/-- A cursor for the library, under the reading that a multi-cell of a plain string
advances the cursor by `ceil(width/w) * h`: the vertical position after one more call. -/
def cursorStep (width : String → ℚ) (y : ℚ) : Call → ℚ
  | .AddPage => 10
  | .CellFormat _ h _ _ ln _ _ _ _ => if ln = 0 then y else y + h
  | .MultiCell w h (.str v) _ _ _ => y + (Int.ceil (width v / w) : ℚ) * h
  | .MultiCell _ h _ _ _ _ => y + h
  | .Ln h => y + h
  | .SetXY _ y' => y'
  | _ => y

/-- The vertical position of that cursor after a list of calls. -/
def cursorY (width : String → ℚ) (calls : List Call) : ℚ :=
  calls.foldl (cursorStep width) 0

/-- A library with that cursor and the string widths `width`. -/
def cursorLib (width : String → ℚ) : Gofpdf :=
  ⟨fun _ v => width v, cursorY width, fun calls => .ok (calls.map (fun _ => 0))⟩

/-! ## Point lookups and single-item methods of the stores -/

/-- The call `QueryRowContext(...).Scan(dest...)` of `database/sql` on the rows a query
selects: a fault of the store, `sql.ErrNoRows` when there is no row, an error when the
number of destinations differs from the number of selected columns, the first row
otherwise. -/
def queryRowScan {α : Type} (columns destinations : Nat) (rows : List α)
    (fault : Option Error) : Except Error α :=
  match fault with
  | some err => .error err
  | none =>
    match rows with
    | [] => .error .ErrNoRows
    | row :: _ =>
      if columns = destinations then .ok row
      else .error (.driver ("sql: expected " ++ toString columns ++
        " destination arguments in Scan, not " ++ toString destinations))

/-- The tail of the `GetByID` methods: `sql.ErrNoRows` becomes `ErrNotFound`, any other
error is returned as it is. -/
def notFoundIfNoRows {α : Type} (r : Except Error α) : Option α × Option Error :=
  match r with
  | .error err => if err = .ErrNoRows then (none, some .ErrNotFound) else (none, some err)
  | .ok row => (some row, none)

/-- The method `InvoiceStore.GetByID`: ten columns selected, ten destinations. -/
def InvoiceStore.GetByID (tbl : InvoiceTable) (fault : Option Error) (invoiceID : UUID) :
    Option Invoice × Option Error :=
  notFoundIfNoRows (queryRowScan 10 10 (tbl.filter (fun r => r.ID = invoiceID)) fault)

/-- The method `CustomerStore.GetByID`: nine columns selected, nine destinations. -/
def CustomerStore.GetByID (tbl : List Customer) (fault : Option Error) (id : UUID) :
    Option Customer × Option Error :=
  notFoundIfNoRows (queryRowScan 9 9 (tbl.filter (fun r => r.ID = id)) fault)

/-- The method `BusinessStore.GetByID`: seventeen columns selected, seventeen
destinations. -/
def BusinessStore.GetByID (tbl : List Business) (fault : Option Error) (businessID : UUID) :
    Option Business × Option Error :=
  notFoundIfNoRows (queryRowScan 17 17 (tbl.filter (fun r => r.ID = businessID)) fault)

/-- The method `ProductStore.GetByBusID`:
`SELECT ... FROM product WHERE buss_id = $1`. -/
def ProductStore.GetByBusID (tbl : List Product) (fault : Option Error) (busID : UUID) :
    List Product × Option Error :=
  match fault with
  | some err => ([], some err)
  | none => (tbl.filter (fun r => r.BusID = busID), none)

/-- The method `InvoiceItemStore.GetByID`:
`SELECT id, inv_id, prod_id, quantity, unit_price, created_at FROM invoice_item
WHERE id = $1` selects six columns, and `Scan` is given the five destinations `&item.ID`,
`&item.InvID`, `&item.ProdID`, `&item.Quantity`, `&item.UnitPrice`. -/
def InvoiceItemStore.GetByID (tbl : ItemTable) (fault : Option Error) (itemID : UUID) :
    Option InvoiceItem × Option Error :=
  notFoundIfNoRows (queryRowScan 6 5 (tbl.filter (fun r => r.ID = itemID)) fault)

/-- The method `InvoiceItemStore.Create`:
`INSERT INTO invoice_item (inv_id, prod_id, quantity, unit_price) VALUES ($1, $2, $3, $4)
RETURNING id`.  Returns the table, the argument after the call and the error. -/
def InvoiceItemStore.Create (tbl : ItemTable) (fault : Option Error) (newID : UUID)
    (item : InvoiceItem) : ItemTable × InvoiceItem × Option Error :=
  match fault with
  | some err => (tbl, item, some err)
  | none => (tbl ++ [{ item with ID := newID }], { item with ID := newID }, none)

/-- The method `InvoiceItemStore.Update`:
`UPDATE invoice_item SET inv_id = $2, prod_id = $3, quantity = $4, unit_price = $5
WHERE id = $1`; the result of `ExecContext` is dropped. -/
def InvoiceItemStore.Update (tbl : ItemTable) (fault : Option Error) (item : InvoiceItem) :
    ItemTable × Option Error :=
  match fault with
  | some err => (tbl, some err)
  | none =>
    (tbl.map (fun r =>
      if r.ID = item.ID then
        { r with InvID := item.InvID, ProdID := item.ProdID, Quantity := item.Quantity,
                 UnitPrice := item.UnitPrice }
      else r), none)

/-- The method `InvoiceItemStore.Delete`: `DELETE FROM invoice_item WHERE id = $1`. -/
def InvoiceItemStore.Delete (tbl : ItemTable) (f : ExecFaults) (itemID : UUID) :
    ItemTable × Option Error :=
  match f.exec with
  | some err => (tbl, some err)
  | none =>
    let tbl' := tbl.filter (fun r => r.ID ≠ itemID)
    let rowsAffected := (tbl.filter (fun r => r.ID = itemID)).length
    match f.rowsAffected with
    | some err => (tbl', some err)
    | none =>
      if rowsAffected = 0 then (tbl', some .ErrNotFound)
      else (tbl', none)

/-! ## `cmd/api/invoices.go`: the create, status and document handlers -/

/-- The constant `http.StatusCreated`. -/
def StatusCreated : Nat := 201

/-- The constant `http.StatusOK`. -/
def StatusOK : Nat := 200

/-- What the store answers during one `createInvoiceHandler`: a fault, the id and the
creation time for the header `INSERT`, and a fault and the id for the `INSERT` of the item
at each position. -/
structure CreateAnswers where
  header : Option Error
  headerID : UUID
  now : Time
  item : Nat → Option Error
  itemID : Nat → UUID

/-- The struct literal `&store.Invoice{...}` the create handler builds from the payload
(`ID` and `CreatedAt` are left at their zero values). -/
def InvoicePayload.newInvoice (payload : InvoicePayload) : Invoice :=
  { ID := uuidNil, InvNo := payload.InvNo, BusID := payload.BusID,
    CustID := payload.CustID, TotalAmount := payload.TotalAmount,
    InvDate := payload.InvDate, DueDate := payload.DueDate, IsPaid := payload.IsPaid,
    PaidDate := payload.PaidDate, CreatedAt := zeroTime }

/-- The struct literal `store.InvoiceItem{...}` the create handler builds for one item of
the payload. -/
def InvoiceItemPayload.newItem (itemPayload : InvoiceItemPayload) (invoiceID : UUID) :
    InvoiceItem :=
  { ID := uuidNil, InvID := invoiceID, ProdID := itemPayload.ProdID,
    Quantity := itemPayload.Quantity, UnitPrice := itemPayload.UnitPrice }

/-- The loop `for _, itemPayload := range payload.Items` of the create handler, from
position `k` on: one `InvoiceItems.Create` per item, stopping at the first error. -/
def createItems (a : CreateAnswers) (invoiceID : UUID) :
    List InvoiceItemPayload → Nat → ItemTable → ItemTable × Option Error
  | [], _, tbl => (tbl, none)
  | itemPayload :: rest, k, tbl =>
    match InvoiceItemStore.Create tbl (a.item k) (a.itemID k)
        (itemPayload.newItem invoiceID) with
    | (tbl', _, some err) => (tbl', some err)
    | (tbl', _, none) => createItems a invoiceID rest (k + 1) tbl'

/-- The handler `createInvoiceHandler`. -/
def createInvoiceHandler (db : DB) (readJSON : Except Error InvoicePayload)
    (Validate : InvoicePayload → Option Error) (a : CreateAnswers) : DB × Response :=
  match readJSON with
  | .error err => (db, .badRequestResponse err)
  | .ok payload =>
    match Validate payload with
    | some err => (db, .badRequestResponse err)
    | none =>
      match InvoiceStore.Create db.invoice a.header a.headerID a.now payload.newInvoice with
      | (tbl, _, some err) =>
        if err = .ErrDuplicateInvoice then (⟨tbl, db.invoice_item⟩, .conflictResponse err)
        else (⟨tbl, db.invoice_item⟩, .internalServerError err)
      | (tbl, invoice, none) =>
        match createItems a invoice.ID payload.Items 0 db.invoice_item with
        | (items, some err) => (⟨tbl, items⟩, .internalServerError err)
        | (items, none) => (⟨tbl, items⟩, .WriteHeader StatusCreated)

/-- The handler `updateInvoiceStatusHandler`.  After a successful `UpdateStatus` the
handler returns without a call on the response writer. -/
def updateInvoiceStatusHandler (db : DB) (id : Except Error UUID) (f : ExecFaults)
    (now : Time) : DB × Response :=
  match id with
  | .error err => (db, .badRequestResponse err)
  | .ok invoiceID =>
    match InvoiceStore.UpdateStatus db.invoice f now invoiceID with
    | (tbl, some err) =>
      if err = .ErrNotFound then (⟨tbl, db.invoice_item⟩, .notFoundResponse err)
      else (⟨tbl, db.invoice_item⟩, .internalServerError err)
    | (tbl, none) => (⟨tbl, db.invoice_item⟩, .noWrite)

/-- The tables of the directories the document handler reads. -/
structure Directories where
  customer : List Customer
  business : List Business
  product : List Product
deriving DecidableEq, Repr

/-- What the store answers to the five lookups of the document handler. -/
structure LookupFaults where
  invoice : Option Error
  items : Option Error
  customer : Option Error
  business : Option Error
  products : Option Error
deriving DecidableEq, Repr

/-- A store that answers the five lookups. -/
def noLookupFaults : LookupFaults := ⟨none, none, none, none, none⟩

/-- The arguments of a call of `GenerateInvoicePDF`. -/
structure View where
  business : Business
  invoice : Invoice
  customer : Customer
  items : List InvoiceItem
  products : List Product
deriving DecidableEq, Repr

/-- The handler `getInvoiceAsPDFHandler`.  Next to the response it returns, as a ghost
value, the arguments it called `GenerateInvoicePDF` with, or `none` when it did not call
it.  (A lookup that returned neither a value nor an error would make the handler read
through a nil pointer; the `GetByID` methods never do so.) -/
def getInvoiceAsPDFHandler (lib : Gofpdf) (db : DB) (dirs : Directories)
    (id : Except Error UUID) (f : LookupFaults) : Response × Option View :=
  match id with
  | .error err => (.badRequestResponse err, none)
  | .ok invoiceID =>
    match InvoiceStore.GetByID db.invoice f.invoice invoiceID with
    | (_, some err) =>
      if err = .ErrNotFound then (.notFoundResponse err, none)
      else (.internalServerError err, none)
    | (none, none) => (.panic, none)
    | (some invoice, none) =>
      match InvoiceItemStore.GetByInvoiceID db.invoice_item f.items invoiceID with
      | (_, some err) => (.internalServerError err, none)
      | (items, none) =>
        match CustomerStore.GetByID dirs.customer f.customer invoice.CustID with
        | (_, some err) => (.internalServerError err, none)
        | (none, none) => (.panic, none)
        | (some customer, none) =>
          match BusinessStore.GetByID dirs.business f.business invoice.BusID with
          | (_, some err) => (.internalServerError err, none)
          | (none, none) => (.panic, none)
          | (some business, none) =>
            match ProductStore.GetByBusID dirs.product f.products invoice.BusID with
            | (_, some err) => (.internalServerError err, none)
            | (product, none) =>
              match GenerateInvoicePDF lib business invoice customer items product with
              | .error err =>
                (.internalServerError err, some ⟨business, invoice, customer, items, product⟩)
              | .panic => (.panic, some ⟨business, invoice, customer, items, product⟩)
              | .ok pdfData =>
                (.Write "application/pdf" StatusOK pdfData,
                  some ⟨business, invoice, customer, items, product⟩)

/-- The rows the create handler inserts for the items of a payload from position `k` on:
one per item, in order, with the id of the new invoice and the id the store generated. -/
def createdRows (a : CreateAnswers) (invoiceID : UUID) :
    List InvoiceItemPayload → Nat → List InvoiceItem
  | [], _ => []
  | itemPayload :: rest, k =>
    ⟨a.itemID k, invoiceID, itemPayload.ProdID, itemPayload.Quantity, itemPayload.UnitPrice⟩ ::
      createdRows a invoiceID rest (k + 1)

/-! ## Concrete inputs -/

/-- The invoice numbers 3, 7, 5 of one business, next to an invoice of another business. -/
def exampleInvoices : InvoiceTable :=
  [ { ID := 1, InvNo := 3, BusID := 10, CustID := 20, TotalAmount := 0, InvDate := 0,
      DueDate := 0, IsPaid := false, PaidDate := none, CreatedAt := 0 },
    { ID := 2, InvNo := 7, BusID := 10, CustID := 20, TotalAmount := 0, InvDate := 0,
      DueDate := 0, IsPaid := false, PaidDate := none, CreatedAt := 0 },
    { ID := 3, InvNo := 40, BusID := 11, CustID := 21, TotalAmount := 0, InvDate := 0,
      DueDate := 0, IsPaid := false, PaidDate := none, CreatedAt := 0 },
    { ID := 4, InvNo := 5, BusID := 10, CustID := 20, TotalAmount := 0, InvDate := 0,
      DueDate := 0, IsPaid := false, PaidDate := none, CreatedAt := 0 } ]

/-- Items A and B of invoice 1 and an item of invoice 2. -/
def exampleItems : ItemTable :=
  [ ⟨101, 1, 51, 2, 100⟩, ⟨102, 1, 52, 1, 30⟩, ⟨103, 2, 51, 4, 100⟩ ]

/-- Items C and D, where D has a nil product reference. -/
def itemsWithNil : List InvoiceItem :=
  [ ⟨0, 9, 53, 5, 20⟩, ⟨0, 9, uuidNil, 1, 10⟩ ]

/-- Items C and D with product references. -/
def itemsValid : List InvoiceItem :=
  [ ⟨0, 9, 53, 5, 20⟩, ⟨7, 0, 54, 1, 10⟩ ]

/-- Ids the store generates for new rows. -/
def exampleIDs : Nat → UUID := fun k => 200 + k

/-- The store refuses `BeginTx`. -/
def beginFails : TxFaults :=
  ⟨some (.driver "connection refused"), none, fun _ => none, none, exampleIDs⟩

/-- The store refuses the `DELETE`. -/
def deleteFails : TxFaults :=
  ⟨none, some (.driver "timeout"), fun _ => none, none, exampleIDs⟩

/-- The store refuses the `INSERT` of the item at position 1. -/
def insertFails : TxFaults :=
  ⟨none, none, fun k => if k = 1 then some (.pq "23503") else none, none, exampleIDs⟩

/-- The store refuses `Commit`. -/
def commitFails : TxFaults :=
  ⟨none, none, fun _ => none, some (.driver "timeout"), exampleIDs⟩

/-- An unpaid invoice without a payment date. -/
def unpaidInvoice : Invoice :=
  { ID := 1, InvNo := 1, BusID := 10, CustID := 20, TotalAmount := 236, InvDate := 5,
    DueDate := 9, IsPaid := false, PaidDate := none, CreatedAt := 4 }

/-- A create request marked paid that carries no payment date. -/
def paidWithoutDate : Invoice :=
  { ID := 0, InvNo := 1, BusID := 10, CustID := 20, TotalAmount := 236, InvDate := 5,
    DueDate := 9, IsPaid := true, PaidDate := none, CreatedAt := 0 }

/-- An update request marked unpaid that carries a payment date. -/
def unpaidWithDate : Invoice :=
  { ID := 1, InvNo := 1, BusID := 10, CustID := 20, TotalAmount := 236, InvDate := 5,
    DueDate := 9, IsPaid := false, PaidDate := some 7, CreatedAt := 0 }

/-- A header for the invoices a client creates (number and business are set on creation). -/
def exampleHeader : Invoice :=
  { ID := 0, InvNo := 0, BusID := 0, CustID := 20, TotalAmount := 236, InvDate := 5,
    DueDate := 9, IsPaid := false, PaidDate := none, CreatedAt := 0 }

/-- An update request for invoice 1 with two items. -/
def examplePayload : InvoicePayload :=
  { ID := 1, InvNo := 1, BusID := 10, CustID := 21, TotalAmount := 500, InvDate := 5,
    DueDate := 9, IsPaid := false, PaidDate := none,
    Items := [⟨0, 53, 18, 5, 20⟩, ⟨0, 54, 18, 1, 10⟩] }

/-- The database with invoice 1 and the items A, B of invoice 1 and one of invoice 2. -/
def exampleDB : DB := ⟨[unpaidInvoice], exampleItems⟩

/-- An update argument for invoice 1 that carries another number and business. -/
def updateArgument : Invoice :=
  { ID := 1, InvNo := 99, BusID := 77, CustID := 21, TotalAmount := 500, InvDate := 5,
    DueDate := 9, IsPaid := false, PaidDate := some 7, CreatedAt := 0 }

/-- Invoices 1 and 2 of business 10. -/
def twoInvoices : InvoiceTable := [unpaidInvoice, { unpaidInvoice with ID := 2, InvNo := 2 }]

/-- The database with invoices 1 and 2 and their items: A, B of invoice 1 and one of
invoice 2. -/
def twoInvoiceDB : DB := ⟨twoInvoices, exampleItems⟩

/-- A library that gives every character two units of width, counts the calls for the
vertical position and writes one byte per call. -/
def exampleLib : Gofpdf :=
  ⟨fun _ str => 2 * str.length, fun calls => calls.length,
    fun calls => .ok (calls.map (fun _ => 0))⟩

/-- A business. -/
def exampleBusiness : Business :=
  { ID := 10, UserID := 1, Name := "Acme", GSTNo := "G1", CompanyEmail := "a@acme.test",
    CompanyPhone := "100", Address := "1 Main Road", City := "Pune", ZipCode := "411001",
    State := "MH", Country := "IN", BankName := "Bank", AccountNo := "42", IFSC := "I1",
    BankBranch := "Main", CreatedAt := 0, UpdatedAt := 0 }

/-- A customer. -/
def exampleCustomer : Customer :=
  { ID := 20, BusID := 10, Name := "Buyer", GSTNo := "G2", Email := "b@buyer.test",
    Phone := "200", BAddress := "2 Side Road", SAddress := "3 Back Road", CreatedAt := 0 }

/-- A catalog of two products, taxed at 18 and at 5 percent. -/
def exampleProducts : List Product :=
  [ { ID := 51, BusID := 10, Name := "Widget", Price := 100, TaxRate := 18, Unit := "pc",
      HSNCode := "8471", CreatedAt := 0 },
    { ID := 52, BusID := 10, Name := "Gadget", Price := 30, TaxRate := 5, Unit := "pc",
      HSNCode := "8472", CreatedAt := 0 } ]

/-- One item: two widgets at 100. -/
def oneItem : List InvoiceItem := [⟨101, 1, 51, 2, 100⟩]

/-- An item whose product 99 is not in the catalog, after an item whose product is. -/
def itemsWithUnknownProduct : List InvoiceItem := [⟨101, 1, 51, 2, 100⟩, ⟨104, 1, 99, 1, 10⟩]

/-- An invoice header with a stored total of 500. -/
def invoiceTotal500 : Invoice :=
  { ID := 1, InvNo := 1, BusID := 10, CustID := 20, TotalAmount := 500, InvDate := 5,
    DueDate := 9, IsPaid := false, PaidDate := none, CreatedAt := 4 }

/-- String widths of twenty units per character. -/
def exampleWidth : String → ℚ := fun v => 20 * v.length

/-- A customer whose billing address is longer than the shipping address. -/
def longBillingCustomer : Customer :=
  { ID := 20, BusID := 10, Name := "Buyer", GSTNo := "G2", Email := "b@buyer.test",
    Phone := "200", BAddress := "221 Long Side Road, Pune", SAddress := "3 Back Road",
    CreatedAt := 0 }

/-- A catalog in which two products carry the id 51, after a product with another id. -/
def productsWithRepeat : List Product :=
  [ { ID := 52, BusID := 10, Name := "Gadget", Price := 30, TaxRate := 5, Unit := "pc",
      HSNCode := "8472", CreatedAt := 0 },
    { ID := 51, BusID := 10, Name := "Widget", Price := 100, TaxRate := 18, Unit := "pc",
      HSNCode := "8471", CreatedAt := 0 },
    { ID := 51, BusID := 10, Name := "Widget II", Price := 90, TaxRate := 12, Unit := "pc",
      HSNCode := "8471", CreatedAt := 0 } ]

/-- A store that answers every insert of a create request: header id 1 at time 4, item
ids 200, 201, ... -/
def createAnswers : CreateAnswers := ⟨none, 1, 4, fun _ => none, exampleIDs⟩

/-- A store that refuses the insert of the item at position 1 of a create request. -/
def secondItemRefused : CreateAnswers :=
  ⟨none, 1, 4, fun k => if k = 1 then some (.pq "23503") else none, exampleIDs⟩

/-- An update request for invoice 1 whose second item has no product reference. -/
def payloadWithNilProduct : InvoicePayload :=
  { ID := 1, InvNo := 1, BusID := 10, CustID := 21, TotalAmount := 500, InvDate := 5,
    DueDate := 9, IsPaid := false, PaidDate := none,
    Items := [⟨0, 53, 18, 5, 20⟩, ⟨0, uuidNil, 18, 1, 10⟩] }

/-- A validator that enforces the tag `required` of `ProdID` on every item. -/
def requireProduct : InvoicePayload → Option Error := fun payload =>
  if payload.Items.any (fun itemPayload => itemPayload.ProdID = uuidNil) then
    some (.new "Key: 'InvoicePayload.Items.ProdID' failed on the 'required' tag")
  else none

/-- The directories with the example customer, business and products. -/
def exampleDirs : Directories := ⟨[exampleCustomer], [exampleBusiness], exampleProducts⟩

/-- A database whose invoice 1 belongs to business 10 and customer 20. -/
def documentDB : DB := ⟨[invoiceTotal500], exampleItems⟩

/-! ## Lemmas on the SQL helpers -/

theorem sqlMax_eq_none_iff (xs : List Int) : sqlMax xs = none ↔ xs = [] := by
  cases xs with
  | nil => simp [sqlMax]
  | cons x xs =>
    simp only [sqlMax]
    cases sqlMax xs <;> simp

theorem sqlMax_mem (xs : List Int) (m : Int) (h : sqlMax xs = some m) : m ∈ xs := by
  induction xs generalizing m with
  | nil => simp [sqlMax] at h
  | cons x xs ih =>
    simp only [sqlMax] at h
    cases hxs : sqlMax xs with
    | none =>
      rw [hxs] at h
      simp only [Option.some.injEq] at h
      simp [h]
    | some m' =>
      rw [hxs] at h
      simp only [Option.some.injEq] at h
      rcases max_choice x m' with hc | hc
      · rw [hc] at h; simp [h]
      · rw [hc] at h; subst h; exact List.mem_cons_of_mem _ (ih m' hxs)

theorem sqlMax_ge (xs : List Int) (m : Int) (h : sqlMax xs = some m) :
    ∀ y ∈ xs, y ≤ m := by
  induction xs generalizing m with
  | nil => simp
  | cons x xs ih =>
    simp only [sqlMax] at h
    cases hxs : sqlMax xs with
    | none =>
      rw [hxs] at h
      simp only [Option.some.injEq] at h
      have hnil := (sqlMax_eq_none_iff xs).1 hxs
      subst hnil
      intro y hy
      simp only [List.mem_singleton] at hy
      omega
    | some m' =>
      rw [hxs] at h
      simp only [Option.some.injEq] at h
      intro y hy
      rcases List.mem_cons.1 hy with hy | hy
      · subst hy; rw [← h]; exact le_max_left _ _
      · have := ih m' hxs y hy
        rw [← h]; exact le_trans this (le_max_right _ _)

/-! ## The invoice number allocator -/

theorem GetNextInvoiceNumber_ok_iff (tbl : InvoiceTable) (fault : Option Error)
    (busID : UUID) (n : Int) :
    InvoiceStore.GetNextInvoiceNumber tbl fault busID = (n, none) ↔
      fault = none ∧
      n = coalesce (sqlMax ((tbl.filter (fun r => r.BusID = busID)).map
        (fun r => r.InvNo))) 0 + 1 ∧
      n ≤ maxInt64 ∧ -maxInt64 - 1 ≤ n := by
  unfold InvoiceStore.GetNextInvoiceNumber sqlAdd
  cases fault with
  | some err => simp
  | none =>
    simp only [true_and]
    split_ifs with hr
    · simp only [Prod.mk.injEq, and_true]
      constructor
      · intro h; subst h; exact ⟨rfl, hr.1, hr.2⟩
      · intro h; exact h.1.symm
    · simp only [Prod.mk.injEq, reduceCtorEq, and_false, false_iff, not_and]
      intro h1 h2 h3
      exact hr ⟨h1 ▸ h2, h1 ▸ h3⟩

/-- C1: when the query succeeds, `GetNextInvoiceNumber` returns 1 if no stored invoice has
the business id, and otherwise one more than the greatest `inv_no` among the invoices of
that business; the invoices of other businesses do not affect the result.  The query does
succeed when the store raises no fault and the numbers stay inside the `bigint` range. -/
theorem GetNextInvoiceNumber_max_plus_one (tbl : InvoiceTable) (fault : Option Error)
    (busID : UUID) :
    (fault = none →
      (∀ r ∈ tbl, r.BusID = busID → -maxInt64 - 1 ≤ r.InvNo ∧ r.InvNo < maxInt64) →
      (InvoiceStore.GetNextInvoiceNumber tbl fault busID).2 = none) ∧
    (∀ n, InvoiceStore.GetNextInvoiceNumber tbl fault busID = (n, none) →
      ((∀ r ∈ tbl, r.BusID ≠ busID) → n = 1) ∧
      ((∃ r ∈ tbl, r.BusID = busID) →
        ∃ r ∈ tbl, r.BusID = busID ∧ n = r.InvNo + 1 ∧
          ∀ r' ∈ tbl, r'.BusID = busID → r'.InvNo ≤ r.InvNo) ∧
      (∀ tbl' : InvoiceTable,
        tbl'.filter (fun r => r.BusID = busID) = tbl.filter (fun r => r.BusID = busID) →
        InvoiceStore.GetNextInvoiceNumber tbl' fault busID = (n, none))) := by
  refine ⟨?_, ?_⟩
  · intro hf hb
    subst hf
    unfold InvoiceStore.GetNextInvoiceNumber sqlAdd
    simp only
    cases hm : sqlMax ((tbl.filter (fun r => r.BusID = busID)).map (fun r => r.InvNo)) with
    | none => simp [coalesce, maxInt64]
    | some m =>
      have hmem := sqlMax_mem _ m hm
      obtain ⟨r, hr, hrm⟩ := List.mem_map.1 hmem
      have hr' := List.mem_filter.1 hr
      have hbus : r.BusID = busID := by simpa using hr'.2
      have := hb r hr'.1 hbus
      have h1 : m + 1 ≤ maxInt64 ∧ -maxInt64 - 1 ≤ m + 1 := by
        rw [← hrm]; constructor <;> omega
      simp [coalesce, h1]
  · intro n hn
    obtain ⟨hf, hval, hhi, hlo⟩ := (GetNextInvoiceNumber_ok_iff tbl fault busID n).1 hn
    refine ⟨?_, ?_, ?_⟩
    · intro hnone
      have hnil : tbl.filter (fun r => r.BusID = busID) = [] := by
        rw [List.filter_eq_nil_iff]
        intro r hr
        simpa using hnone r hr
      rw [hval, hnil]
      simp [sqlMax, coalesce]
    · rintro ⟨r0, hr0, hb0⟩
      cases hm : sqlMax ((tbl.filter (fun r => r.BusID = busID)).map (fun r => r.InvNo)) with
      | none =>
        have hnil := (sqlMax_eq_none_iff _).1 hm
        have : r0 ∈ tbl.filter (fun r => r.BusID = busID) :=
          List.mem_filter.2 ⟨hr0, by simpa using hb0⟩
        rw [List.map_eq_nil_iff] at hnil
        rw [hnil] at this
        simp at this
      | some m =>
        have hmem := sqlMax_mem _ m hm
        obtain ⟨r, hr, hrm⟩ := List.mem_map.1 hmem
        have hr' := List.mem_filter.1 hr
        refine ⟨r, hr'.1, by simpa using hr'.2, ?_, ?_⟩
        · rw [hval, hm, hrm]; simp [coalesce]
        · intro r' hr'mem hr'bus
          rw [hrm]
          apply sqlMax_ge _ m hm
          exact List.mem_map.2 ⟨r', List.mem_filter.2 ⟨hr'mem, by simpa using hr'bus⟩, rfl⟩
    · intro tbl' hsame
      rw [GetNextInvoiceNumber_ok_iff, hsame]
      exact ⟨hf, hval, hhi, hlo⟩

/-- Numbers 3, 7, 5 give 8; a business without invoices gets 1. -/
theorem GetNextInvoiceNumber_max_plus_one_witness :
    InvoiceStore.GetNextInvoiceNumber exampleInvoices none 10 = (8, none) ∧
    InvoiceStore.GetNextInvoiceNumber exampleInvoices none 12 = (1, none) ∧
    InvoiceStore.GetNextInvoiceNumber [] none 10 = (1, none) ∧
    (∃ r ∈ exampleInvoices, r.BusID = 10 ∧ (8 : Int) = r.InvNo + 1 ∧
      ∀ r' ∈ exampleInvoices, r'.BusID = 10 → r'.InvNo ≤ r.InvNo) :=
  ⟨by decide, by decide, by decide,
    ((GetNextInvoiceNumber_max_plus_one exampleInvoices none 10).2 8 (by decide)).2.1
      ⟨_, List.mem_cons_self _ _, rfl⟩⟩

/-! ## The replace-all operation of the line-item store -/

theorem ExecInsert_fault (s : Session) (err : Error) (newID invID prodID : UUID)
    (quantity : Int) (unitPrice : Amount) :
    s.ExecInsert (some err) newID invID prodID quantity unitPrice = (s.record, some err) := by
  unfold Session.ExecInsert
  cases s.tx <;> rfl

theorem ExecInsert_ok (s : Session) (view : ItemTable) (h : s.tx = some view)
    (newID invID prodID : UUID) (quantity : Int) (unitPrice : Amount) :
    s.ExecInsert none newID invID prodID quantity unitPrice =
      (Session.record
        { s with tx := some (view ++ [⟨newID, invID, prodID, quantity, unitPrice⟩]) }, none) := by
  unfold Session.ExecInsert
  rw [h]

/-- The loop leaves the committed table alone, adds only the committed table to what has
been observable, and ends either with every row added to the view of the transaction or
with the transaction rolled back. -/
theorem insertItems_spec (f : TxFaults) (invoiceID : UUID) (items : List InvoiceItem) :
    ∀ (k : Nat) (s : Session) (view : ItemTable), s.tx = some view →
      (InvoiceItemStore.insertItems f invoiceID items k s).1.committed = s.committed ∧
      (∃ n, (InvoiceItemStore.insertItems f invoiceID items k s).1.observable =
        s.observable ++ List.replicate n s.committed) ∧
      ((InvoiceItemStore.insertItems f invoiceID items k s).2 = none →
        (InvoiceItemStore.insertItems f invoiceID items k s).1.tx =
            some (view ++ newRows f.newID invoiceID items k) ∧
          ∀ it ∈ items, it.ProdID ≠ uuidNil) ∧
      ((InvoiceItemStore.insertItems f invoiceID items k s).2 ≠ none →
        (InvoiceItemStore.insertItems f invoiceID items k s).1.tx = none) := by
  induction items with
  | nil =>
    intro k s view h
    refine ⟨rfl, ⟨0, by simp [InvoiceItemStore.insertItems]⟩, ?_, ?_⟩
    · intro _; simp [InvoiceItemStore.insertItems, newRows, h]
    · intro hne; simp [InvoiceItemStore.insertItems] at hne
  | cons item rest ih =>
    intro k s view h
    by_cases hnil : item.ProdID = uuidNil
    · simp only [InvoiceItemStore.insertItems, hnil, if_true]
      refine ⟨rfl, ⟨1, by simp [Session.Rollback, Session.record]⟩, ?_, ?_⟩
      · intro hc; simp at hc
      · intro _; rfl
    · simp only [InvoiceItemStore.insertItems, hnil, if_false]
      cases hf : f.insert k with
      | some err =>
        rw [ExecInsert_fault]
        refine ⟨rfl, ⟨2, by simp [Session.Rollback, Session.record, List.replicate]⟩, ?_, ?_⟩
        · intro hc; simp at hc
        · intro _; rfl
      | none =>
        rw [ExecInsert_ok s view h]
        simp only
        obtain ⟨h1, ⟨n, h2⟩, h3, h4⟩ := ih (k + 1)
          (Session.record { s with tx := some (view ++
            [⟨f.newID k, invoiceID, item.ProdID, item.Quantity, item.UnitPrice⟩]) })
          (view ++ [InvoiceItem.mk (f.newID k) invoiceID item.ProdID item.Quantity
            item.UnitPrice]) (by rfl)
        refine ⟨h1, ⟨n + 1, ?_⟩, ?_, h4⟩
        · rw [h2]
          simp [Session.record, List.replicate_succ]
        · intro hok
          obtain ⟨h5, h6⟩ := h3 hok
          refine ⟨?_, ?_⟩
          · rw [h5]; simp [newRows]
          · intro it hit
            rcases List.mem_cons.1 hit with hit | hit
            · subst hit; exact hnil
            · exact h6 it hit

/-- With no `INSERT` refused and no nil product id, the loop runs to its end. -/
theorem insertItems_ok (f : TxFaults) (invoiceID : UUID) (items : List InvoiceItem) :
    ∀ (k : Nat) (s : Session) (view : ItemTable), s.tx = some view →
      (∀ it ∈ items, it.ProdID ≠ uuidNil) →
      (∀ i, i < items.length → f.insert (k + i) = none) →
      (InvoiceItemStore.insertItems f invoiceID items k s).2 = none := by
  induction items with
  | nil => intro k s view _ _ _; rfl
  | cons item rest ih =>
    intro k s view h hall hins
    have hnil : item.ProdID ≠ uuidNil := hall item (List.mem_cons_self _ _)
    have hk : f.insert k = none := by simpa using hins 0 (by simp)
    simp only [InvoiceItemStore.insertItems, hnil, if_false, hk]
    rw [ExecInsert_ok s view h]
    simp only
    apply ih (k + 1) _ _ rfl
    · intro it hit; exact hall it (List.mem_cons_of_mem _ hit)
    · intro i hi
      have := hins (i + 1) (by simpa using hi)
      rw [← this]; congr 1; omega

/-- With a nil product id in the list and no `INSERT` refused before it, the loop ends
with the validation error. -/
theorem insertItems_validation (f : TxFaults) (invoiceID : UUID) (items : List InvoiceItem) :
    ∀ (k : Nat) (s : Session) (view : ItemTable), s.tx = some view →
      (∃ it ∈ items, it.ProdID = uuidNil) →
      (∀ i, i < (items.takeWhile (fun it => decide (it.ProdID ≠ uuidNil))).length →
        f.insert (k + i) = none) →
      (InvoiceItemStore.insertItems f invoiceID items k s).2 =
        some (.new "prod_id cannot be null") := by
  induction items with
  | nil => intro k s view _ hex _; simp at hex
  | cons item rest ih =>
    intro k s view h hex hins
    by_cases hnil : item.ProdID = uuidNil
    · simp only [InvoiceItemStore.insertItems, hnil, if_true]
    · have hk : f.insert k = none := by
        have := hins 0 (by simp [List.takeWhile, hnil])
        simpa using this
      simp only [InvoiceItemStore.insertItems, hnil, if_false, hk]
      rw [ExecInsert_ok s view h]
      simp only
      apply ih (k + 1) _ _ rfl
      · obtain ⟨it, hit, hitnil⟩ := hex
        rcases List.mem_cons.1 hit with hit | hit
        · subst hit; exact absurd hitnil hnil
        · exact ⟨it, hit, hitnil⟩
      · intro i hi
        have := hins (i + 1) (by simpa [List.takeWhile, hnil] using hi)
        rw [← this]; congr 1; omega

/-- What one `UpdateAll` with a non-empty list leaves behind. -/
theorem UpdateAll_spec (tbl : ItemTable) (f : TxFaults) (invoiceID : UUID)
    (items : List InvoiceItem) (hne : items ≠ []) :
    ((InvoiceItemStore.UpdateAll tbl f invoiceID items).2 ≠ none →
      (InvoiceItemStore.UpdateAll tbl f invoiceID items).1.committed = tbl ∧
      ∀ t ∈ (InvoiceItemStore.UpdateAll tbl f invoiceID items).1.observable, t = tbl) ∧
    ((InvoiceItemStore.UpdateAll tbl f invoiceID items).2 = none →
      (InvoiceItemStore.UpdateAll tbl f invoiceID items).1.committed =
          replaced tbl f.newID invoiceID items ∧
        (∀ it ∈ items, it.ProdID ≠ uuidNil) ∧
        f.beginTx = none ∧ f.deleteOld = none ∧ f.commit = none) ∧
    (InvoiceItemStore.UpdateAll tbl f invoiceID items).1.tx = none ∧
    (∀ t ∈ (InvoiceItemStore.UpdateAll tbl f invoiceID items).1.observable,
      t = tbl ∨ t = replaced tbl f.newID invoiceID items) := by
  have hlen : ¬ items.length = 0 := by
    intro h; exact hne (List.length_eq_zero.1 h)
  unfold InvoiceItemStore.UpdateAll
  simp only [hlen, if_false]
  cases hb : f.beginTx with
  | some err => simp [Session.BeginTx, Session.start, Session.record]
  | none =>
    simp only [Session.BeginTx, Session.start]
    cases hd : f.deleteOld with
    | some err =>
      simp [Session.ExecDelete, Session.record, Session.Rollback]
    | none =>
      simp only [Session.ExecDelete, Session.record]
      obtain ⟨h1, ⟨n, h2⟩, h3, h4⟩ := insertItems_spec f invoiceID items 0
        { committed := tbl, tx := some (tbl.filter (fun r => r.InvID ≠ invoiceID)),
          observable := [] ++ [tbl] ++ [tbl] }
        (tbl.filter (fun r => r.InvID ≠ invoiceID)) rfl
      rcases hres : InvoiceItemStore.insertItems f invoiceID items 0
        { committed := tbl, tx := some (tbl.filter (fun r => r.InvID ≠ invoiceID)),
          observable := [] ++ [tbl] ++ [tbl] } with ⟨s2, e⟩
      rw [hres] at h1 h2 h3 h4
      simp only at h1 h2 h3 h4
      have hobs : ∀ t ∈ s2.observable, t = tbl := by
        intro t ht
        rw [h2] at ht
        simp only [List.nil_append, List.cons_append, List.mem_cons, List.mem_append,
          List.mem_replicate] at ht
        tauto
      cases e with
      | some err =>
        have htx := h4 (by simp)
        refine ⟨fun _ => ⟨h1, hobs⟩, fun hc => by simp at hc, htx, fun t ht => Or.inl (hobs t ht)⟩
      | none =>
        obtain ⟨htx, hall⟩ := h3 rfl
        cases hc : f.commit with
        | some err =>
          have hobs2 : ∀ t ∈ s2.observable ++ [s2.committed], t = tbl := by
            intro t ht
            simp only [List.mem_append, List.mem_singleton] at ht
            rcases ht with ht | ht
            · exact hobs t ht
            · rw [ht, h1]
          refine ⟨fun _ => ⟨h1, hobs2⟩, fun hc => by simp [Session.Commit] at hc, rfl,
            fun t ht => Or.inl (hobs2 t ht)⟩
        | none =>
          simp only [Session.Commit, htx, Session.record]
          refine ⟨fun hc => by simp at hc, fun _ => ⟨rfl, hall, trivial, trivial, trivial⟩,
            trivial, ?_⟩
          intro t ht
          simp only [List.mem_append, List.mem_singleton] at ht
          rcases ht with ht | ht
          · left; exact hobs t ht
          · right; rw [ht]; rfl

/-- With no call refused and no nil product id, `UpdateAll` returns no error. -/
theorem UpdateAll_ok (tbl : ItemTable) (f : TxFaults) (invoiceID : UUID)
    (items : List InvoiceItem) (hall : ∀ it ∈ items, it.ProdID ≠ uuidNil)
    (hb : f.beginTx = none) (hd : f.deleteOld = none)
    (hins : ∀ i, i < items.length → f.insert i = none) (hc : f.commit = none) :
    (InvoiceItemStore.UpdateAll tbl f invoiceID items).2 = none := by
  unfold InvoiceItemStore.UpdateAll
  split_ifs with hlen
  · rfl
  · simp only [hb, hd, Session.BeginTx, Session.start, Session.ExecDelete, Session.record]
    have hok := insertItems_ok f invoiceID items 0
      { committed := tbl, tx := some (tbl.filter (fun r => r.InvID ≠ invoiceID)),
        observable := [] ++ [tbl] ++ [tbl] }
      (tbl.filter (fun r => r.InvID ≠ invoiceID)) rfl hall (by simpa using hins)
    obtain ⟨-, -, h3, -⟩ := insertItems_spec f invoiceID items 0
      { committed := tbl, tx := some (tbl.filter (fun r => r.InvID ≠ invoiceID)),
        observable := [] ++ [tbl] ++ [tbl] }
      (tbl.filter (fun r => r.InvID ≠ invoiceID)) rfl
    rcases hres : InvoiceItemStore.insertItems f invoiceID items 0
      { committed := tbl, tx := some (tbl.filter (fun r => r.InvID ≠ invoiceID)),
        observable := [] ++ [tbl] ++ [tbl] } with ⟨s2, e⟩
    rw [hres] at hok h3
    simp only at hok h3
    subst hok
    simp [Session.Commit, hc, (h3 rfl).1]

/-- With a nil product id in a list and no call refused before it is reached, `UpdateAll`
returns the validation error. -/
theorem UpdateAll_validation (tbl : ItemTable) (f : TxFaults) (invoiceID : UUID)
    (items : List InvoiceItem) (hex : ∃ it ∈ items, it.ProdID = uuidNil)
    (hb : f.beginTx = none) (hd : f.deleteOld = none)
    (hins : ∀ i, i < (items.takeWhile (fun it => decide (it.ProdID ≠ uuidNil))).length →
      f.insert i = none) :
    (InvoiceItemStore.UpdateAll tbl f invoiceID items).2 =
      some (.new "prod_id cannot be null") := by
  have hlen : ¬ items.length = 0 := by
    intro h
    obtain ⟨it, hit, -⟩ := hex
    rw [List.length_eq_zero.1 h] at hit
    simp at hit
  unfold InvoiceItemStore.UpdateAll
  simp only [hlen, if_false, hb, hd, Session.BeginTx, Session.start, Session.ExecDelete,
    Session.record]
  have hv := insertItems_validation f invoiceID items 0
    { committed := tbl, tx := some (tbl.filter (fun r => r.InvID ≠ invoiceID)),
      observable := [] ++ [tbl] ++ [tbl] }
    (tbl.filter (fun r => r.InvID ≠ invoiceID)) rfl hex (by simpa using hins)
  rcases hres : InvoiceItemStore.insertItems f invoiceID items 0
    { committed := tbl, tx := some (tbl.filter (fun r => r.InvID ≠ invoiceID)),
      observable := [] ++ [tbl] ++ [tbl] } with ⟨s2, e⟩
  rw [hres] at hv
  simp only at hv
  subst hv
  rfl

theorem newRows_InvID (ids : Nat → UUID) (invoiceID : UUID) (items : List InvoiceItem) :
    ∀ k, ∀ r ∈ newRows ids invoiceID items k, r.InvID = invoiceID := by
  induction items with
  | nil => intro k r hr; simp [newRows] at hr
  | cons item rest ih =>
    intro k r hr
    simp only [newRows, List.mem_cons] at hr
    rcases hr with hr | hr
    · rw [hr]
    · exact ih (k + 1) r hr

theorem newRows_fields (ids : Nat → UUID) (invoiceID : UUID) (items : List InvoiceItem) :
    ∀ k, (newRows ids invoiceID items k).map
        (fun r => (r.InvID, r.ProdID, r.Quantity, r.UnitPrice)) =
      items.map (fun it => (invoiceID, it.ProdID, it.Quantity, it.UnitPrice)) := by
  induction items with
  | nil => intro k; rfl
  | cons item rest ih => intro k; simp [newRows, ih (k + 1)]

theorem newRows_ID (ids : Nat → UUID) (invoiceID : UUID) (items : List InvoiceItem) :
    ∀ k, ∀ r ∈ newRows ids invoiceID items k, ∃ i, r.ID = ids i := by
  induction items with
  | nil => intro k r hr; simp [newRows] at hr
  | cons item rest ih =>
    intro k r hr
    simp only [newRows, List.mem_cons] at hr
    rcases hr with hr | hr
    · exact ⟨k, by rw [hr]⟩
    · exact ih (k + 1) r hr

theorem replaced_filter_same (tbl : ItemTable) (ids : Nat → UUID) (invoiceID : UUID)
    (items : List InvoiceItem) :
    (replaced tbl ids invoiceID items).filter (fun r => r.InvID = invoiceID) =
      newRows ids invoiceID items 0 := by
  unfold replaced
  rw [List.filter_append, List.filter_filter]
  have h1 : tbl.filter (fun r => decide (r.InvID = invoiceID) && decide (r.InvID ≠ invoiceID))
      = [] := by
    rw [List.filter_eq_nil_iff]
    intro r _
    by_cases h : r.InvID = invoiceID <;> simp [h]
  have h2 : (newRows ids invoiceID items 0).filter (fun r => r.InvID = invoiceID) =
      newRows ids invoiceID items 0 := by
    rw [List.filter_eq_self]
    intro r hr
    simpa using newRows_InvID ids invoiceID items 0 r hr
  rw [h1, h2, List.nil_append]

theorem replaced_filter_other (tbl : ItemTable) (ids : Nat → UUID) (invoiceID : UUID)
    (items : List InvoiceItem) (p : InvoiceItem → Bool)
    (hp : ∀ r, p r = true → r.InvID ≠ invoiceID) :
    (replaced tbl ids invoiceID items).filter p = tbl.filter p := by
  unfold replaced
  rw [List.filter_append, List.filter_filter]
  have h1 : tbl.filter (fun r => p r && decide (r.InvID ≠ invoiceID)) = tbl.filter p := by
    apply List.filter_congr
    intro r _
    by_cases h : p r = true
    · simp [h, hp r h]
    · simp [h]
  have h2 : (newRows ids invoiceID items 0).filter p = [] := by
    rw [List.filter_eq_nil_iff]
    intro r hr hpr
    exact hp r hpr (newRows_InvID ids invoiceID items 0 r hr)
  rw [h1, h2, List.append_nil]

/-- C2: for every item list in which some item has a nil product id (such a list is
non-empty), `UpdateAll` returns an error and the item table, hence what `GetByInvoiceID`
returns for the invoice, is as before the call: nothing deleted, none of the valid items
before the bad one inserted.  The error is the validation error `prod_id cannot be null`
whenever the store refuses none of the calls made before the bad item is reached. -/
theorem UpdateAll_nil_product_rejected (tbl : ItemTable) (f : TxFaults) (invoiceID : UUID)
    (items : List InvoiceItem) (hex : ∃ it ∈ items, it.ProdID = uuidNil) :
    (InvoiceItemStore.UpdateAll tbl f invoiceID items).2 ≠ none ∧
    (InvoiceItemStore.UpdateAll tbl f invoiceID items).1.committed = tbl ∧
    (∀ fault, InvoiceItemStore.GetByInvoiceID
        (InvoiceItemStore.UpdateAll tbl f invoiceID items).1.committed fault invoiceID =
      InvoiceItemStore.GetByInvoiceID tbl fault invoiceID) ∧
    (f.beginTx = none → f.deleteOld = none →
      (∀ i, i < (items.takeWhile (fun it => decide (it.ProdID ≠ uuidNil))).length →
        f.insert i = none) →
      (InvoiceItemStore.UpdateAll tbl f invoiceID items).2 =
        some (.new "prod_id cannot be null")) := by
  have hne : items ≠ [] := by
    rintro rfl
    obtain ⟨it, hit, -⟩ := hex
    simp at hit
  obtain ⟨h1, h2, -, -⟩ := UpdateAll_spec tbl f invoiceID items hne
  have herr : (InvoiceItemStore.UpdateAll tbl f invoiceID items).2 ≠ none := by
    intro hnone
    obtain ⟨it, hit, hnil⟩ := hex
    exact (h2 hnone).2.1 it hit hnil
  have hsame := (h1 herr).1
  refine ⟨herr, hsame, ?_, ?_⟩
  · intro fault; rw [hsame]
  · intro hb hd hins
    exact UpdateAll_validation tbl f invoiceID items hex hb hd hins

/-- Items A, B; `UpdateAll` with C, D where D has a nil product: the validation error,
and the read of the invoice still returns A, B. -/
theorem UpdateAll_nil_product_rejected_witness :
    (∃ it ∈ itemsWithNil, it.ProdID = uuidNil) ∧
    (InvoiceItemStore.UpdateAll exampleItems (noTxFaults exampleIDs) 1 itemsWithNil).2 =
      some (.new "prod_id cannot be null") ∧
    InvoiceItemStore.GetByInvoiceID
      (InvoiceItemStore.UpdateAll exampleItems (noTxFaults exampleIDs) 1
        itemsWithNil).1.committed none 1 =
      ([⟨101, 1, 51, 2, 100⟩, ⟨102, 1, 52, 1, 30⟩], none) :=
  have hex : ∃ it ∈ itemsWithNil, it.ProdID = uuidNil :=
    ⟨⟨0, 9, uuidNil, 1, 10⟩, by simp [itemsWithNil], rfl⟩
  have h := UpdateAll_nil_product_rejected exampleItems (noTxFaults exampleIDs) 1
    itemsWithNil hex
  ⟨hex, h.2.2.2 rfl rfl (fun _ _ => rfl), by rw [h.2.2.1 none]; rfl⟩

/-- C3: `UpdateAll` is atomic.  Whenever it returns an error - `BeginTx`, the `DELETE`,
an `INSERT` or `Commit` failing, or a nil product id - the item table after the call is
the item table before the call, and so is every table that was observable while it ran.
In every run each observable table, and the table left, is either the old table or the
table with the complete replacement: never the old items deleted with only part of the new
ones inserted.  No transaction is left open. -/
theorem UpdateAll_atomic (tbl : ItemTable) (f : TxFaults) (invoiceID : UUID)
    (items : List InvoiceItem) :
    ((InvoiceItemStore.UpdateAll tbl f invoiceID items).2 ≠ none →
      (InvoiceItemStore.UpdateAll tbl f invoiceID items).1.committed = tbl ∧
      ∀ t ∈ (InvoiceItemStore.UpdateAll tbl f invoiceID items).1.observable, t = tbl) ∧
    (∀ t ∈ (InvoiceItemStore.UpdateAll tbl f invoiceID items).1.observable,
      t = tbl ∨ t = replaced tbl f.newID invoiceID items) ∧
    ((InvoiceItemStore.UpdateAll tbl f invoiceID items).1.committed = tbl ∨
      (InvoiceItemStore.UpdateAll tbl f invoiceID items).1.committed =
        replaced tbl f.newID invoiceID items) ∧
    (InvoiceItemStore.UpdateAll tbl f invoiceID items).1.tx = none := by
  by_cases hne : items = []
  · subst hne
    simp [InvoiceItemStore.UpdateAll, Session.start]
  · obtain ⟨h1, h2, h3, h4⟩ := UpdateAll_spec tbl f invoiceID items hne
    refine ⟨h1, h4, ?_, h3⟩
    by_cases herr : (InvoiceItemStore.UpdateAll tbl f invoiceID items).2 = none
    · exact Or.inr (h2 herr).1
    · exact Or.inl (h1 herr).1

/-- Each of the four store failures gives an error and leaves the table as it was. -/
theorem UpdateAll_atomic_witness :
    (InvoiceItemStore.UpdateAll exampleItems beginFails 1 itemsValid).2 =
      some (.driver "connection refused") ∧
    (InvoiceItemStore.UpdateAll exampleItems deleteFails 1 itemsValid).2 =
      some (.driver "timeout") ∧
    (InvoiceItemStore.UpdateAll exampleItems insertFails 1 itemsValid).2 =
      some (.pq "23503") ∧
    (InvoiceItemStore.UpdateAll exampleItems commitFails 1 itemsValid).2 =
      some (.driver "timeout") ∧
    (InvoiceItemStore.UpdateAll exampleItems beginFails 1 itemsValid).1.committed =
      exampleItems ∧
    (InvoiceItemStore.UpdateAll exampleItems deleteFails 1 itemsValid).1.committed =
      exampleItems ∧
    (InvoiceItemStore.UpdateAll exampleItems insertFails 1 itemsValid).1.committed =
      exampleItems ∧
    (InvoiceItemStore.UpdateAll exampleItems commitFails 1 itemsValid).1.committed =
      exampleItems :=
  ⟨rfl, rfl, rfl, rfl,
    ((UpdateAll_atomic exampleItems beginFails 1 itemsValid).1 (by decide)).1,
    ((UpdateAll_atomic exampleItems deleteFails 1 itemsValid).1 (by decide)).1,
    ((UpdateAll_atomic exampleItems insertFails 1 itemsValid).1 (by decide)).1,
    ((UpdateAll_atomic exampleItems commitFails 1 itemsValid).1 (by decide)).1⟩

/-- C4: `UpdateAll` with an empty item list returns no error, makes no call on the store
and leaves the whole item table unchanged, so `GetByInvoiceID` returns what it returned
before, for this and for every invoice. -/
theorem UpdateAll_empty_noop (tbl : ItemTable) (f : TxFaults) (invoiceID : UUID) :
    (InvoiceItemStore.UpdateAll tbl f invoiceID []).2 = none ∧
    (InvoiceItemStore.UpdateAll tbl f invoiceID []).1.committed = tbl ∧
    (InvoiceItemStore.UpdateAll tbl f invoiceID []).1.observable = [] ∧
    (∀ fault invID, InvoiceItemStore.GetByInvoiceID
        (InvoiceItemStore.UpdateAll tbl f invoiceID []).1.committed fault invID =
      InvoiceItemStore.GetByInvoiceID tbl fault invID) :=
  ⟨rfl, rfl, rfl, fun _ _ => rfl⟩

/-- Items A, B and an empty list: the read still returns A, B, whatever the store would
have answered. -/
theorem UpdateAll_empty_noop_witness :
    InvoiceItemStore.GetByInvoiceID
      (InvoiceItemStore.UpdateAll exampleItems beginFails 1 []).1.committed none 1 =
      ([⟨101, 1, 51, 2, 100⟩, ⟨102, 1, 52, 1, 30⟩], none) := by
  rw [(UpdateAll_empty_noop exampleItems beginFails 1).2.2.2 none 1]
  rfl

/-- C5: for a non-empty item list in which every item has a non-nil product id,
`UpdateAll` succeeds when the store refuses no call, and a successful `UpdateAll` leaves
the item table such that the rows of the invoice are exactly one row per supplied item, in
the supplied order, with that item's product id, quantity and unit price and the invoice
id of the call (whatever `InvID` or `ID` the supplied item carried); none of the previous
rows of the invoice remains (the store generating fresh ids); the rows of every other
invoice are unchanged. -/
theorem UpdateAll_replaces_items (tbl : ItemTable) (f : TxFaults) (invoiceID : UUID)
    (items : List InvoiceItem) (hne : items ≠ [])
    (hall : ∀ it ∈ items, it.ProdID ≠ uuidNil) :
    (f.beginTx = none → f.deleteOld = none → (∀ i, i < items.length → f.insert i = none) →
      f.commit = none → (InvoiceItemStore.UpdateAll tbl f invoiceID items).2 = none) ∧
    ((InvoiceItemStore.UpdateAll tbl f invoiceID items).2 = none →
      InvoiceItemStore.GetByInvoiceID
          (InvoiceItemStore.UpdateAll tbl f invoiceID items).1.committed none invoiceID =
        (newRows f.newID invoiceID items 0, none) ∧
      ((InvoiceItemStore.UpdateAll tbl f invoiceID items).1.committed.filter
          (fun r => r.InvID = invoiceID)).map
          (fun r => (r.InvID, r.ProdID, r.Quantity, r.UnitPrice)) =
        items.map (fun it => (invoiceID, it.ProdID, it.Quantity, it.UnitPrice)) ∧
      ((∀ r ∈ tbl, ∀ i, r.ID ≠ f.newID i) → ∀ r ∈ tbl, r.InvID = invoiceID →
        r ∉ (InvoiceItemStore.UpdateAll tbl f invoiceID items).1.committed) ∧
      (InvoiceItemStore.UpdateAll tbl f invoiceID items).1.committed.filter
          (fun r => r.InvID ≠ invoiceID) =
        tbl.filter (fun r => r.InvID ≠ invoiceID) ∧
      (∀ other, other ≠ invoiceID → ∀ fault,
        InvoiceItemStore.GetByInvoiceID
            (InvoiceItemStore.UpdateAll tbl f invoiceID items).1.committed fault other =
          InvoiceItemStore.GetByInvoiceID tbl fault other)) := by
  refine ⟨fun hb hd hins hc => UpdateAll_ok tbl f invoiceID items hall hb hd hins hc, ?_⟩
  intro hok
  obtain ⟨-, h2, -, -⟩ := UpdateAll_spec tbl f invoiceID items hne
  have hcom := (h2 hok).1
  rw [hcom]
  refine ⟨?_, ?_, ?_, ?_, ?_⟩
  · simp only [InvoiceItemStore.GetByInvoiceID]
    rw [replaced_filter_same]
  · rw [replaced_filter_same, newRows_fields]
  · intro hfresh r hr hinv hmem
    unfold replaced at hmem
    rcases List.mem_append.1 hmem with hm | hm
    · have := (List.mem_filter.1 hm).2
      simp [hinv] at this
    · obtain ⟨i, hi⟩ := newRows_ID f.newID invoiceID items 0 r hm
      exact hfresh r hr i hi
  · exact replaced_filter_other tbl f.newID invoiceID items _ (by intro r hr; simpa using hr)
  · intro other hother fault
    cases fault with
    | some err => rfl
    | none =>
      simp only [InvoiceItemStore.GetByInvoiceID]
      rw [replaced_filter_other tbl f.newID invoiceID items _
        (by intro r hr; simp only [decide_eq_true_eq] at hr; rw [hr]; exact hother)]

/-- Items A, B of invoice 1 replaced by C, D: the invoice has the two new rows, in order,
with the invoice id of the call; invoice 2 keeps its item. -/
theorem UpdateAll_replaces_items_witness :
    (InvoiceItemStore.UpdateAll exampleItems (noTxFaults exampleIDs) 1 itemsValid).2 = none ∧
    InvoiceItemStore.GetByInvoiceID
        (InvoiceItemStore.UpdateAll exampleItems (noTxFaults exampleIDs) 1
          itemsValid).1.committed none 1 =
      ([⟨200, 1, 53, 5, 20⟩, ⟨201, 1, 54, 1, 10⟩], none) ∧
    InvoiceItemStore.GetByInvoiceID
        (InvoiceItemStore.UpdateAll exampleItems (noTxFaults exampleIDs) 1
          itemsValid).1.committed none 2 =
      ([⟨103, 2, 51, 4, 100⟩], none) :=
  have h := UpdateAll_replaces_items exampleItems (noTxFaults exampleIDs) 1 itemsValid
    (by decide) (by decide)
  have hok := h.1 rfl rfl (fun _ _ => rfl) rfl
  ⟨hok, (h.2 hok).1, by rw [(h.2 hok).2.2.2.2 2 (by decide) none]; rfl⟩

/-! ## The status toggle -/

theorem UpdateStatus_ok_iff (tbl : InvoiceTable) (f : ExecFaults) (now : Time)
    (invoiceID : UUID) :
    (InvoiceStore.UpdateStatus tbl f now invoiceID).2 = none ↔
      f.exec = none ∧ f.rowsAffected = none ∧ ∃ r ∈ tbl, r.ID = invoiceID := by
  unfold InvoiceStore.UpdateStatus
  cases f.exec with
  | some err => simp
  | none =>
    cases f.rowsAffected with
    | some err => simp
    | none =>
      simp only [true_and]
      split_ifs with h0
      · simp only [reduceCtorEq, false_iff, not_exists, not_and]
        intro r hr hid
        have : r ∈ tbl.filter (fun r => r.ID = invoiceID) :=
          List.mem_filter.2 ⟨hr, by simpa using hid⟩
        rw [List.length_eq_zero.1 h0] at this
        simp at this
      · simp only [true_iff]
        obtain ⟨r, hr⟩ := List.exists_mem_of_length_pos (Nat.pos_of_ne_zero h0)
        have := List.mem_filter.1 hr
        exact ⟨r, this.1, by simpa using this.2⟩

theorem UpdateStatus_table (tbl : InvoiceTable) (f : ExecFaults) (now : Time)
    (invoiceID : UUID) (h : f.exec = none) :
    (InvoiceStore.UpdateStatus tbl f now invoiceID).1 =
      tbl.map (fun r => if r.ID = invoiceID then toggleStatus now r else r) := by
  unfold InvoiceStore.UpdateStatus
  rw [h]
  cases f.rowsAffected with
  | some err => rfl
  | none =>
    simp only
    split_ifs <;> rfl

/-- C6: for every stored invoice, whatever its `is_paid` and `paid_date`, a successful
`UpdateStatus` on its id sets `is_paid` to the negation of its previous value and sets
`paid_date` to a non-null timestamp (the `NOW()` of the store) when the previous `is_paid`
was false and to null when it was true; hence afterwards `paid_date` is non-null iff
`is_paid` is true.  The call succeeds when the store answers and an invoice has the id. -/
theorem UpdateStatus_toggles (tbl : InvoiceTable) (f : ExecFaults) (now : Time)
    (invoiceID : UUID) :
    (f = noFaults → (∃ r ∈ tbl, r.ID = invoiceID) →
      (InvoiceStore.UpdateStatus tbl f now invoiceID).2 = none) ∧
    ((InvoiceStore.UpdateStatus tbl f now invoiceID).2 = none →
      ∀ (i : Nat) (r : Invoice), tbl[i]? = some r → r.ID = invoiceID →
        ∃ r', (InvoiceStore.UpdateStatus tbl f now invoiceID).1[i]? = some r' ∧
          r'.ID = r.ID ∧
          r'.IsPaid = !r.IsPaid ∧
          (r.IsPaid = false → r'.PaidDate = some now) ∧
          (r.IsPaid = true → r'.PaidDate = none) ∧
          (r'.PaidDate ≠ none ↔ r'.IsPaid = true)) := by
  refine ⟨?_, ?_⟩
  · intro hf hex
    rw [UpdateStatus_ok_iff, hf]
    exact ⟨rfl, rfl, hex⟩
  · intro hok i r hi hid
    have hexec := ((UpdateStatus_ok_iff tbl f now invoiceID).1 hok).1
    rw [UpdateStatus_table tbl f now invoiceID hexec]
    refine ⟨toggleStatus now r, ?_, rfl, rfl, ?_, ?_, ?_⟩
    · rw [List.getElem?_map, hi]
      simp [hid]
    · intro hp; simp [toggleStatus, hp]
    · intro hp; simp [toggleStatus, hp]
    · cases hp : r.IsPaid <;> simp [toggleStatus, hp]

/-- An unpaid invoice becomes paid with a payment date, a paid one loses the date. -/
theorem UpdateStatus_toggles_witness :
    (InvoiceStore.UpdateStatus [unpaidInvoice] noFaults 50 1).2 = none ∧
    (∃ r', (InvoiceStore.UpdateStatus [unpaidInvoice] noFaults 50 1).1[0]? = some r' ∧
      r'.ID = 1 ∧ r'.IsPaid = true ∧ r'.PaidDate = some 50) ∧
    (InvoiceStore.UpdateStatus [paidWithoutDate] noFaults 50 0).1 =
      [{ paidWithoutDate with IsPaid := false, PaidDate := none }] :=
  have h := UpdateStatus_toggles [unpaidInvoice] noFaults 50 1
  have hok := h.1 rfl ⟨unpaidInvoice, by simp, rfl⟩
  ⟨hok,
    (h.2 hok 0 unpaidInvoice rfl rfl).elim
      (fun r' hr' => ⟨r', hr'.1, hr'.2.1, hr'.2.2.1, hr'.2.2.2.1 rfl⟩),
    by decide⟩

/-- C7: from `is_paid = false`, `paid_date = null`, one successful `UpdateStatus` gives
`is_paid = true` with a non-null `paid_date`, and a second one gives back
`is_paid = false`, `paid_date = null` (the row is as it was at the start); for every
starting invoice two consecutive toggles restore `is_paid`.  After a successful toggle the
second one succeeds whenever the store answers. -/
theorem UpdateStatus_twice (tbl : InvoiceTable) (f1 f2 : ExecFaults) (now1 now2 : Time)
    (invoiceID : UUID)
    (h1 : (InvoiceStore.UpdateStatus tbl f1 now1 invoiceID).2 = none) :
    (f2 = noFaults →
      (InvoiceStore.UpdateStatus (InvoiceStore.UpdateStatus tbl f1 now1 invoiceID).1
        f2 now2 invoiceID).2 = none) ∧
    ((InvoiceStore.UpdateStatus (InvoiceStore.UpdateStatus tbl f1 now1 invoiceID).1
        f2 now2 invoiceID).2 = none →
      ∀ (i : Nat) (r : Invoice), tbl[i]? = some r → r.ID = invoiceID →
        ∃ r1 r2, (InvoiceStore.UpdateStatus tbl f1 now1 invoiceID).1[i]? = some r1 ∧
          (InvoiceStore.UpdateStatus (InvoiceStore.UpdateStatus tbl f1 now1 invoiceID).1
            f2 now2 invoiceID).1[i]? = some r2 ∧
          r2.IsPaid = r.IsPaid ∧
          (r.IsPaid = false → r.PaidDate = none →
            r1.IsPaid = true ∧ r1.PaidDate = some now1 ∧
            r2.IsPaid = false ∧ r2.PaidDate = none ∧ r2 = r)) := by
  obtain ⟨he1, -, r0, hr0, hid0⟩ := (UpdateStatus_ok_iff tbl f1 now1 invoiceID).1 h1
  have ht1 := UpdateStatus_table tbl f1 now1 invoiceID he1
  refine ⟨?_, ?_⟩
  · intro hf
    rw [UpdateStatus_ok_iff, hf, ht1]
    refine ⟨rfl, rfl, toggleStatus now1 r0, ?_, ?_⟩
    · exact List.mem_map.2 ⟨r0, hr0, by simp [hid0]⟩
    · exact hid0
  · intro h2 i r hi hid
    have he2 := ((UpdateStatus_ok_iff _ f2 now2 invoiceID).1 h2).1
    rw [UpdateStatus_table _ f2 now2 invoiceID he2, ht1]
    refine ⟨toggleStatus now1 r, toggleStatus now2 (toggleStatus now1 r), ?_, ?_, ?_, ?_⟩
    · rw [List.getElem?_map, hi]; simp [hid]
    · rw [List.getElem?_map, List.getElem?_map, hi]
      have : (toggleStatus now1 r).ID = invoiceID := hid
      simp [hid, this]
    · simp [toggleStatus]
    · intro hp hd
      refine ⟨by simp [toggleStatus, hp], by simp [toggleStatus, hp],
        by simp [toggleStatus, hp], by simp [toggleStatus, hp], ?_⟩
      cases r
      simp only at hp hd
      subst hp hd
      rfl

/-- The two toggles on an unpaid invoice without a payment date. -/
theorem UpdateStatus_twice_witness :
    (InvoiceStore.UpdateStatus [unpaidInvoice] noFaults 50 1).1 =
      [{ unpaidInvoice with IsPaid := true, PaidDate := some 50 }] ∧
    (InvoiceStore.UpdateStatus (InvoiceStore.UpdateStatus [unpaidInvoice] noFaults 50 1).1
      noFaults 60 1).1 = [unpaidInvoice] ∧
    (InvoiceStore.UpdateStatus (InvoiceStore.UpdateStatus [unpaidInvoice] noFaults 50 1).1
      noFaults 60 1).2 = none :=
  ⟨by decide, by decide,
    (UpdateStatus_twice [unpaidInvoice] noFaults noFaults 50 60 1 (by decide)).1 rfl⟩

/-! ## The invariant on `paid_date` -/

theorem Create_table (tbl : InvoiceTable) (fault : Option Error) (newID : UUID) (now : Time)
    (invoice : Invoice) :
    (InvoiceStore.Create tbl fault newID now invoice).1 = tbl ∨
    (InvoiceStore.Create tbl fault newID now invoice).1 =
      tbl ++ [{ invoice with ID := newID, CreatedAt := now }] := by
  unfold InvoiceStore.Create insertInvoice
  cases fault with
  | some err =>
    left
    simp only
    split_ifs <;> rfl
  | none =>
    simp only
    by_cases hv : violatesUnique tbl invoice = true
    · left; simp [hv, isUniqueViolation]
    · right; simp [hv]

theorem Update_table (tbl : InvoiceTable) (f : ExecFaults) (invoice : Invoice) :
    (InvoiceStore.Update tbl f invoice).1 = tbl ∨
    (InvoiceStore.Update tbl f invoice).1 = tbl.map (fun r =>
      if r.ID = invoice.ID then
        { r with CustID := invoice.CustID, TotalAmount := invoice.TotalAmount,
                 InvDate := invoice.InvDate, DueDate := invoice.DueDate,
                 IsPaid := invoice.IsPaid, PaidDate := invoice.PaidDate }
      else r) := by
  unfold InvoiceStore.Update
  cases f.exec with
  | some err => left; rfl
  | none =>
    right
    cases f.rowsAffected with
    | some err => rfl
    | none =>
      simp only
      split_ifs <;> rfl

theorem UpdateStatus_table_cases (tbl : InvoiceTable) (f : ExecFaults) (now : Time)
    (invoiceID : UUID) :
    (InvoiceStore.UpdateStatus tbl f now invoiceID).1 = tbl ∨
    (InvoiceStore.UpdateStatus tbl f now invoiceID).1 =
      tbl.map (fun r => if r.ID = invoiceID then toggleStatus now r else r) := by
  cases h : f.exec with
  | some err => left; simp [InvoiceStore.UpdateStatus, h]
  | none => right; exact UpdateStatus_table tbl f now invoiceID h

theorem Delete_table (tbl : InvoiceTable) (f : ExecFaults) (invoiceID : UUID) :
    (InvoiceStore.Delete tbl f invoiceID).1 = tbl ∨
    (InvoiceStore.Delete tbl f invoiceID).1 = tbl.filter (fun r => r.ID ≠ invoiceID) := by
  unfold InvoiceStore.Delete
  cases f.exec with
  | some err => left; rfl
  | none =>
    right
    cases f.rowsAffected with
    | some err => rfl
    | none =>
      simp only
      split_ifs <;> rfl

theorem toggleStatus_matches (now : Time) (r : Invoice) :
    paidDateMatches (toggleStatus now r) := by
  unfold paidDateMatches toggleStatus
  cases r.IsPaid <;> simp

/-- A call whose `is_paid` and `paid_date` agree keeps the invariant. -/
theorem apply_keeps_matching (tbl : InvoiceTable) (c : InvoiceCall)
    (hc : c.suppliesMatching) (htbl : ∀ r ∈ tbl, paidDateMatches r) :
    ∀ r ∈ c.apply tbl, paidDateMatches r := by
  cases c with
  | Create fault newID now invoice =>
    simp only [InvoiceCall.apply]
    rcases Create_table tbl fault newID now invoice with h | h
    · rw [h]; exact htbl
    · rw [h]
      intro r hr
      rcases List.mem_append.1 hr with hr | hr
      · exact htbl r hr
      · simp only [List.mem_singleton] at hr
        rw [hr]
        exact hc
  | Update f invoice =>
    simp only [InvoiceCall.apply]
    rcases Update_table tbl f invoice with h | h
    · rw [h]; exact htbl
    · rw [h]
      intro r hr
      obtain ⟨r0, hr0, rfl⟩ := List.mem_map.1 hr
      split_ifs
      · exact hc
      · exact htbl r0 hr0
  | UpdateStatus f now invoiceID =>
    simp only [InvoiceCall.apply]
    rcases UpdateStatus_table_cases tbl f now invoiceID with h | h
    · rw [h]; exact htbl
    · rw [h]
      intro r hr
      obtain ⟨r0, hr0, rfl⟩ := List.mem_map.1 hr
      split_ifs
      · exact toggleStatus_matches now r0
      · exact htbl r0 hr0
  | Delete f invoiceID =>
    simp only [InvoiceCall.apply]
    rcases Delete_table tbl f invoiceID with h | h
    · rw [h]; exact htbl
    · rw [h]
      intro r hr
      exact htbl r (List.mem_filter.1 hr).1

theorem applyCalls_keeps_matching (calls : List InvoiceCall) :
    ∀ (tbl : InvoiceTable), (∀ c ∈ calls, c.suppliesMatching) →
      (∀ r ∈ tbl, paidDateMatches r) → ∀ r ∈ applyCalls tbl calls, paidDateMatches r := by
  induction calls with
  | nil => intro tbl _ htbl; exact htbl
  | cons c rest ih =>
    intro tbl hcalls htbl
    simp only [applyCalls, List.foldl_cons]
    exact ih (c.apply tbl) (fun c' hc' => hcalls c' (List.mem_cons_of_mem _ hc'))
      (apply_keeps_matching tbl c (hcalls c (List.mem_cons_self _ _)) htbl)

/-- C8, as stated, fails: `Create` stores a caller's `is_paid = true` with a null
`paid_date`, and `Update` stores a caller's `is_paid = false` with a `paid_date`. -/
theorem paid_date_invariant_broken_by_caller :
    (∃ r ∈ applyCalls [] [InvoiceCall.Create none 1 4 paidWithoutDate],
      r.IsPaid = true ∧ r.PaidDate = none) ∧
    (∃ r ∈ applyCalls [] [InvoiceCall.Create none 1 4 unpaidInvoice,
        InvoiceCall.Update noFaults unpaidWithDate],
      r.IsPaid = false ∧ r.PaidDate = some 7) :=
  ⟨⟨{ paidWithoutDate with ID := 1, CreatedAt := 4 }, by decide, rfl, rfl⟩,
   ⟨{ unpaidWithDate with ID := 1, CreatedAt := 4 }, by decide, rfl, rfl⟩⟩

/-- C8, amended: in every store state reached from the empty store by `Create`, `Update`,
`UpdateStatus` and `Delete` in which each `Create` and `Update` argument carries a
`paid_date` that is non-null iff its `is_paid` is true, every stored invoice has
`paid_date` non-null iff `is_paid` is true. -/
theorem paid_date_invariant_of_matching_calls (calls : List InvoiceCall)
    (hcalls : ∀ c ∈ calls, c.suppliesMatching) :
    ∀ r ∈ applyCalls [] calls, (r.PaidDate ≠ none ↔ r.IsPaid = true) := by
  intro r hr
  have h := applyCalls_keeps_matching calls [] hcalls (by simp) r hr
  unfold paidDateMatches at h
  rw [← h]
  cases r.PaidDate <;> simp

/-- A create, a toggle, a second create and a delete with matching arguments leave one
paid invoice with its payment date. -/
theorem paid_date_invariant_of_matching_calls_witness :
    applyCalls [] [InvoiceCall.Create none 1 4 unpaidInvoice,
        InvoiceCall.UpdateStatus noFaults 50 1,
        InvoiceCall.Create none 2 6 { unpaidInvoice with InvNo := 2 },
        InvoiceCall.Delete noFaults 2] =
      [{ unpaidInvoice with CreatedAt := 4, IsPaid := true, PaidDate := some 50 }] ∧
    ((some (50 : Time)) ≠ none ↔ true = true) :=
  ⟨by decide,
    paid_date_invariant_of_matching_calls
      [InvoiceCall.Create none 1 4 unpaidInvoice,
        InvoiceCall.UpdateStatus noFaults 50 1,
        InvoiceCall.Create none 2 6 { unpaidInvoice with InvNo := 2 },
        InvoiceCall.Delete noFaults 2] (by decide)
      { unpaidInvoice with CreatedAt := 4, IsPaid := true, PaidDate := some 50 } (by decide)⟩

/-! ## Duplicate invoice numbers -/

theorem isUniqueViolation_iff (err : Error) :
    isUniqueViolation err = true ↔ err = .pq "23505" := by
  cases err <;> simp [isUniqueViolation]

theorem violatesUnique_iff (tbl : InvoiceTable) (row : Invoice) :
    violatesUnique tbl row = true ↔
      ∃ r ∈ tbl, r.BusID = row.BusID ∧ r.InvNo = row.InvNo := by
  simp [violatesUnique]

/-- C9: when the store already holds an invoice with the `(business_id, invoice_number)`
of the argument, `Create` returns `ErrDuplicateInvoice` (the statement reaching the
store), assigns no id to the argument and leaves the stored invoices unchanged.  An error
of the store is mapped to `ErrDuplicateInvoice` exactly when it is the unique violation,
code 23505; every other error is returned unchanged. -/
theorem Create_duplicate_rejected (tbl : InvoiceTable) (fault : Option Error) (newID : UUID)
    (now : Time) (invoice : Invoice)
    (hdup : ∃ r ∈ tbl, r.BusID = invoice.BusID ∧ r.InvNo = invoice.InvNo) :
    (fault = none →
      (InvoiceStore.Create tbl fault newID now invoice).2.2 = some .ErrDuplicateInvoice) ∧
    (∀ err, fault = some err →
      (InvoiceStore.Create tbl fault newID now invoice).2.2 =
        some (if err = .pq "23505" then .ErrDuplicateInvoice else err)) ∧
    (∀ err, isUniqueViolation err = true ↔ err = .pq "23505") ∧
    (InvoiceStore.Create tbl fault newID now invoice).2.1 = invoice ∧
    (InvoiceStore.Create tbl fault newID now invoice).1 = tbl := by
  have hv := (violatesUnique_iff tbl invoice).2 hdup
  refine ⟨?_, ?_, isUniqueViolation_iff, ?_, ?_⟩
  · intro hf
    subst hf
    simp [InvoiceStore.Create, insertInvoice, hv, isUniqueViolation]
  · intro err hf
    subst hf
    simp only [InvoiceStore.Create, insertInvoice]
    by_cases he : err = .pq "23505"
    · simp [he, isUniqueViolation]
    · have : ¬ isUniqueViolation err = true := fun h => he ((isUniqueViolation_iff err).1 h)
      simp [he, this]
  · cases fault with
    | none => simp [InvoiceStore.Create, insertInvoice, hv, isUniqueViolation]
    | some err =>
      simp only [InvoiceStore.Create, insertInvoice]
      split_ifs <;> rfl
  · cases fault with
    | none => simp [InvoiceStore.Create, insertInvoice, hv, isUniqueViolation]
    | some err =>
      simp only [InvoiceStore.Create, insertInvoice]
      split_ifs <;> rfl

/-- Two creates with the same business and number: the first is stored with its new id,
the second fails with `ErrDuplicateInvoice`, gets no id, and the first stays as it was. -/
theorem Create_duplicate_rejected_witness :
    InvoiceStore.Create [] none 1 4 paidWithoutDate =
      ([{ paidWithoutDate with ID := 1, CreatedAt := 4 }],
        { paidWithoutDate with ID := 1, CreatedAt := 4 }, none) ∧
    InvoiceStore.Create [{ paidWithoutDate with ID := 1, CreatedAt := 4 }] none 2 6
        { unpaidInvoice with ID := 0 } =
      ([{ paidWithoutDate with ID := 1, CreatedAt := 4 }], { unpaidInvoice with ID := 0 },
        some .ErrDuplicateInvoice) ∧
    (InvoiceStore.Create [{ paidWithoutDate with ID := 1, CreatedAt := 4 }]
        (some (.pq "23503")) 2 6 { unpaidInvoice with ID := 0 }).2.2 =
      some (.pq "23503") :=
  have h := Create_duplicate_rejected [{ paidWithoutDate with ID := 1, CreatedAt := 4 }]
    none 2 6 { unpaidInvoice with ID := 0 } ⟨_, List.mem_cons_self _ _, rfl, rfl⟩
  ⟨by decide, Prod.ext h.2.2.2.2 (Prod.ext h.2.2.2.1 (h.1 rfl)), by decide⟩

/-! ## Reuse of invoice numbers -/

/-- A `create` step that gives a number gives the number `GetNextInvoiceNumber` returned
for the table of that moment. -/
theorem create_gives_next (busID : UUID) (st : AllocState) (header : Invoice) (newID : UUID)
    (now : Time) (n : Int)
    (h : (AllocCall.apply busID st (.create header newID now)).given = st.given ++ [n]) :
    InvoiceStore.GetNextInvoiceNumber st.tbl none busID = (n, none) := by
  simp only [AllocCall.apply] at h
  rcases hnext : InvoiceStore.GetNextInvoiceNumber st.tbl none busID with ⟨m, e⟩
  rw [hnext] at h
  cases e with
  | some err =>
    simp only at h
    have := congrArg List.length h
    simp at this
  | none =>
    simp only at h
    rcases hcr : InvoiceStore.Create st.tbl none newID now
      { header with InvNo := m, BusID := busID } with ⟨tbl', inv', e'⟩
    rw [hcr] at h
    cases e' with
    | some err =>
      simp only at h
      have := congrArg List.length h
      simp at this
    | none =>
      simp only at h
      have := List.append_cancel_left h
      simp only [List.cons.injEq, and_true] at this
      rw [this]

/-- C10, as stated, fails: create the first invoice of a business (number 1), delete it,
create again: the new invoice gets number 1 again. -/
theorem deleted_number_given_again :
    (applyAllocCalls 10 ⟨[], []⟩
      [AllocCall.create exampleHeader 1 4, AllocCall.delete 1,
        AllocCall.create exampleHeader 2 6]).given = [1, 1] ∧
    ¬ (applyAllocCalls 10 ⟨[], []⟩
      [AllocCall.create exampleHeader 1 4, AllocCall.delete 1,
        AllocCall.create exampleHeader 2 6]).given.Nodup := by
  refine ⟨by decide, ?_⟩
  have h : (applyAllocCalls 10 ⟨[], []⟩
      [AllocCall.create exampleHeader 1 4, AllocCall.delete 1,
        AllocCall.create exampleHeader 2 6]).given = [1, 1] := by decide
  rw [h]
  decide

/-- C10, amended: for every sequence of creations and deletions of invoices of one
business in which each creation uses the number `GetNextInvoiceNumber` returns at that
moment, the number given to a new invoice is greater than, hence differs from, the number
of every invoice of that business stored at that moment (created earlier and not
deleted since). -/
theorem next_number_exceeds_stored (busID : UUID) (calls : List AllocCall)
    (header : Invoice) (newID : UUID) (now : Time) (n : Int)
    (h : (AllocCall.apply busID (applyAllocCalls busID ⟨[], []⟩ calls)
        (.create header newID now)).given =
      (applyAllocCalls busID ⟨[], []⟩ calls).given ++ [n]) :
    ∀ r ∈ (applyAllocCalls busID ⟨[], []⟩ calls).tbl,
      r.BusID = busID → r.InvNo < n ∧ r.InvNo ≠ n := by
  intro r hr hbus
  have hnext := create_gives_next busID _ header newID now n h
  obtain ⟨-, hval, -, -⟩ := (GetNextInvoiceNumber_ok_iff _ none busID n).1 hnext
  have hmem : r.InvNo ∈ ((applyAllocCalls busID ⟨[], []⟩ calls).tbl.filter
      (fun r => r.BusID = busID)).map (fun r => r.InvNo) :=
    List.mem_map.2 ⟨r, List.mem_filter.2 ⟨hr, by simpa using hbus⟩, rfl⟩
  cases hm : sqlMax (((applyAllocCalls busID ⟨[], []⟩ calls).tbl.filter
      (fun r => r.BusID = busID)).map (fun r => r.InvNo)) with
  | none =>
    rw [(sqlMax_eq_none_iff _).1 hm] at hmem
    simp at hmem
  | some m =>
    have hle := sqlMax_ge _ m hm _ hmem
    rw [hm] at hval
    simp only [coalesce] at hval
    constructor <;> omega

/-- Invoices 1, 2, 3 created, invoice 2 deleted: the next invoice gets number 4, above the
stored numbers 1 and 3. -/
theorem next_number_exceeds_stored_witness :
    (applyAllocCalls 10 ⟨[], []⟩
      [AllocCall.create exampleHeader 1 4, AllocCall.create exampleHeader 2 5,
        AllocCall.create exampleHeader 3 6, AllocCall.delete 2,
        AllocCall.create exampleHeader 4 7]).given = [1, 2, 3, 4] ∧
    ∀ r ∈ (applyAllocCalls 10 ⟨[], []⟩
      [AllocCall.create exampleHeader 1 4, AllocCall.create exampleHeader 2 5,
        AllocCall.create exampleHeader 3 6, AllocCall.delete 2]).tbl,
      r.BusID = 10 → r.InvNo < 4 ∧ r.InvNo ≠ 4 :=
  ⟨by decide,
    next_number_exceeds_stored 10
      [AllocCall.create exampleHeader 1 4, AllocCall.create exampleHeader 2 5,
        AllocCall.create exampleHeader 3 6, AllocCall.delete 2]
      exampleHeader 4 7 4 (by decide)⟩

/-! ## Update and delete of an invoice header -/

theorem Update_ok_iff (tbl : InvoiceTable) (f : ExecFaults) (invoice : Invoice) :
    (InvoiceStore.Update tbl f invoice).2 = none ↔
      f.exec = none ∧ f.rowsAffected = none ∧ ∃ r ∈ tbl, r.ID = invoice.ID := by
  unfold InvoiceStore.Update
  cases f.exec with
  | some err => simp
  | none =>
    cases f.rowsAffected with
    | some err => simp
    | none =>
      simp only [true_and]
      split_ifs with h0
      · simp only [reduceCtorEq, false_iff, not_exists, not_and]
        intro r hr hid
        have : r ∈ tbl.filter (fun r => r.ID = invoice.ID) :=
          List.mem_filter.2 ⟨hr, by simpa using hid⟩
        rw [List.length_eq_zero.1 h0] at this
        simp at this
      · simp only [true_iff]
        obtain ⟨r, hr⟩ := List.exists_mem_of_length_pos (Nat.pos_of_ne_zero h0)
        have := List.mem_filter.1 hr
        exact ⟨r, this.1, by simpa using this.2⟩

theorem Update_table_of_exec (tbl : InvoiceTable) (f : ExecFaults) (invoice : Invoice)
    (h : f.exec = none) :
    (InvoiceStore.Update tbl f invoice).1 = tbl.map (fun r =>
      if r.ID = invoice.ID then
        { r with CustID := invoice.CustID, TotalAmount := invoice.TotalAmount,
                 InvDate := invoice.InvDate, DueDate := invoice.DueDate,
                 IsPaid := invoice.IsPaid, PaidDate := invoice.PaidDate }
      else r) := by
  unfold InvoiceStore.Update
  rw [h]
  cases f.rowsAffected with
  | some err => rfl
  | none =>
    simp only
    split_ifs <;> rfl

/-- An `Update` whose id matches no row, on a store that answers: the error is the one
made on the spot, and the table is as before. -/
theorem Update_missing (tbl : InvoiceTable) (invoice : Invoice)
    (h : ∀ r ∈ tbl, r.ID ≠ invoice.ID) :
    InvoiceStore.Update tbl noFaults invoice =
      (tbl, some (.new "failed to update invoice")) := by
  have h0 : (tbl.filter (fun r => r.ID = invoice.ID)).length = 0 := by
    rw [List.length_eq_zero, List.filter_eq_nil_iff]
    intro r hr
    simpa using h r hr
  have hmap : tbl.map (fun r =>
      if r.ID = invoice.ID then
        { r with CustID := invoice.CustID, TotalAmount := invoice.TotalAmount,
                 InvDate := invoice.InvDate, DueDate := invoice.DueDate,
                 IsPaid := invoice.IsPaid, PaidDate := invoice.PaidDate }
      else r) = tbl := by
    conv_rhs => rw [← List.map_id tbl]
    apply List.map_congr_left
    intro r hr
    simp [h r hr]
  simp only [InvoiceStore.Update, noFaults, h0, if_true, hmap]

/-- C11, what the code does: for an id that matches no stored invoice, on a store that
answers every call, `Update` leaves the table unchanged and returns the error
`failed to update invoice` made with `errors.New`, which is not `ErrNotFound`. -/
theorem Update_missing_not_ErrNotFound (tbl : InvoiceTable) (invoice : Invoice)
    (h : ∀ r ∈ tbl, r.ID ≠ invoice.ID) :
    (InvoiceStore.Update tbl noFaults invoice).1 = tbl ∧
    (InvoiceStore.Update tbl noFaults invoice).2 = some (.new "failed to update invoice") ∧
    (InvoiceStore.Update tbl noFaults invoice).2 ≠ some .ErrNotFound := by
  rw [Update_missing tbl invoice h]
  exact ⟨rfl, rfl, by simp⟩

/-- An update of invoice 7 in a store that holds invoice 1 only. -/
theorem Update_missing_not_ErrNotFound_witness :
    InvoiceStore.Update [unpaidInvoice] noFaults { unpaidInvoice with ID := 7 } =
      ([unpaidInvoice], some (.new "failed to update invoice")) ∧
    (InvoiceStore.Update [unpaidInvoice] noFaults { unpaidInvoice with ID := 7 }).2 ≠
      some .ErrNotFound :=
  ⟨by decide,
    (Update_missing_not_ErrNotFound [unpaidInvoice] { unpaidInvoice with ID := 7 }
      (by decide)).2.2⟩

/-- C13: for every stored invoice, a successful `Update` with its id sets exactly
`cust_id`, `total_amount`, `inv_date`, `due_date`, `is_paid` and `paid_date` to the supplied
values and leaves its `id`, `inv_no`, `buss_id` and `created_at`, and every other stored
invoice, unchanged, whatever `InvNo` or `BusID` the argument carries; so the pairs
`(buss_id, inv_no)` of the table are as before and stay unique.  The call succeeds when the
store answers and an invoice has the id. -/
theorem Update_sets_mutable_fields (tbl : InvoiceTable) (f : ExecFaults) (invoice : Invoice) :
    (f = noFaults → (∃ r ∈ tbl, r.ID = invoice.ID) →
      (InvoiceStore.Update tbl f invoice).2 = none) ∧
    ((InvoiceStore.Update tbl f invoice).2 = none →
      (∀ (i : Nat) (r : Invoice), tbl[i]? = some r →
        ∃ r', (InvoiceStore.Update tbl f invoice).1[i]? = some r' ∧
          r'.ID = r.ID ∧ r'.InvNo = r.InvNo ∧ r'.BusID = r.BusID ∧
          r'.CreatedAt = r.CreatedAt ∧
          (r.ID = invoice.ID →
            r'.CustID = invoice.CustID ∧ r'.TotalAmount = invoice.TotalAmount ∧
            r'.InvDate = invoice.InvDate ∧ r'.DueDate = invoice.DueDate ∧
            r'.IsPaid = invoice.IsPaid ∧ r'.PaidDate = invoice.PaidDate) ∧
          (r.ID ≠ invoice.ID → r' = r)) ∧
      (InvoiceStore.Update tbl f invoice).1.length = tbl.length ∧
      (InvoiceStore.Update tbl f invoice).1.map (fun r => (r.BusID, r.InvNo)) =
        tbl.map (fun r => (r.BusID, r.InvNo)) ∧
      ((tbl.map (fun r => (r.BusID, r.InvNo))).Nodup →
        ((InvoiceStore.Update tbl f invoice).1.map (fun r => (r.BusID, r.InvNo))).Nodup)) := by
  refine ⟨?_, ?_⟩
  · intro hf hex
    rw [Update_ok_iff, hf]
    exact ⟨rfl, rfl, hex⟩
  · intro hok
    have hexec := ((Update_ok_iff tbl f invoice).1 hok).1
    have hkeys : (InvoiceStore.Update tbl f invoice).1.map (fun r => (r.BusID, r.InvNo)) =
        tbl.map (fun r => (r.BusID, r.InvNo)) := by
      rw [Update_table_of_exec tbl f invoice hexec, List.map_map]
      apply List.map_congr_left
      intro r _
      simp only [Function.comp]
      split_ifs <;> rfl
    refine ⟨?_, ?_, hkeys, ?_⟩
    · intro i r hi
      rw [Update_table_of_exec tbl f invoice hexec, List.getElem?_map, hi]
      by_cases hid : r.ID = invoice.ID
      · refine ⟨{ r with CustID := invoice.CustID, TotalAmount := invoice.TotalAmount,
                         InvDate := invoice.InvDate, DueDate := invoice.DueDate,
                         IsPaid := invoice.IsPaid, PaidDate := invoice.PaidDate },
          by simp only [Option.map_some', hid, if_true], rfl, rfl, rfl, rfl, ?_, ?_⟩
        · intro _; exact ⟨rfl, rfl, rfl, rfl, rfl, rfl⟩
        · intro hne; exact absurd hid hne
      · refine ⟨r, by simp only [Option.map_some', hid, if_false], rfl, rfl, rfl, rfl, ?_, ?_⟩
        · intro h; exact absurd h hid
        · intro _; rfl
    · rw [Update_table_of_exec tbl f invoice hexec, List.length_map]
    · intro hnd; rw [hkeys]; exact hnd

/-- Invoice 1 updated with an argument that carries another number and business: the
mutable fields are replaced, number, business and creation time stay. -/
theorem Update_sets_mutable_fields_witness :
    InvoiceStore.Update twoInvoices noFaults updateArgument =
      ([{ unpaidInvoice with CustID := 21, TotalAmount := 500, PaidDate := some 7 },
        { unpaidInvoice with ID := 2, InvNo := 2 }], none) ∧
    (InvoiceStore.Update twoInvoices noFaults updateArgument).2 = none :=
  ⟨by decide,
    (Update_sets_mutable_fields twoInvoices noFaults updateArgument).1 rfl
      ⟨unpaidInvoice, by simp [twoInvoices], rfl⟩⟩

theorem Delete_ok_iff (tbl : InvoiceTable) (f : ExecFaults) (invoiceID : UUID) :
    (InvoiceStore.Delete tbl f invoiceID).2 = none ↔
      f.exec = none ∧ f.rowsAffected = none ∧ ∃ r ∈ tbl, r.ID = invoiceID := by
  unfold InvoiceStore.Delete
  cases f.exec with
  | some err => simp
  | none =>
    cases f.rowsAffected with
    | some err => simp
    | none =>
      simp only [true_and]
      split_ifs with h0
      · simp only [reduceCtorEq, false_iff, not_exists, not_and]
        intro r hr hid
        have : r ∈ tbl.filter (fun r => r.ID = invoiceID) :=
          List.mem_filter.2 ⟨hr, by simpa using hid⟩
        rw [List.length_eq_zero.1 h0] at this
        simp at this
      · simp only [true_iff]
        obtain ⟨r, hr⟩ := List.exists_mem_of_length_pos (Nat.pos_of_ne_zero h0)
        have := List.mem_filter.1 hr
        exact ⟨r, this.1, by simpa using this.2⟩

theorem Delete_found (tbl : InvoiceTable) (invoiceID : UUID)
    (h : ∃ r ∈ tbl, r.ID = invoiceID) :
    InvoiceStore.Delete tbl noFaults invoiceID =
      (tbl.filter (fun r => r.ID ≠ invoiceID), none) := by
  have h0 : ¬ (tbl.filter (fun r => r.ID = invoiceID)).length = 0 := by
    intro h0
    obtain ⟨r, hr, hid⟩ := h
    have : r ∈ tbl.filter (fun r => r.ID = invoiceID) :=
      List.mem_filter.2 ⟨hr, by simpa using hid⟩
    rw [List.length_eq_zero.1 h0] at this
    simp at this
  simp only [InvoiceStore.Delete, noFaults, h0, if_false]

theorem Delete_missing (tbl : InvoiceTable) (invoiceID : UUID)
    (h : ∀ r ∈ tbl, r.ID ≠ invoiceID) :
    InvoiceStore.Delete tbl noFaults invoiceID = (tbl, some .ErrNotFound) := by
  have h0 : (tbl.filter (fun r => r.ID = invoiceID)).length = 0 := by
    rw [List.length_eq_zero, List.filter_eq_nil_iff]
    intro r hr
    simpa using h r hr
  have hf : tbl.filter (fun r => r.ID ≠ invoiceID) = tbl := by
    rw [List.filter_eq_self]
    intro r hr
    simpa using h r hr
  simp only [InvoiceStore.Delete, noFaults, h0, if_true, hf]

/-- C14: on a store that answers every call, `Delete` removes exactly the invoice with
the id and leaves every other invoice unchanged when such an invoice exists, and returns
`ErrNotFound` leaving the table unchanged when none exists; `deleteInvoiceHandler` answers
204 in the first case and calls `notFoundResponse` (404) in the second. -/
theorem Delete_removes_exactly (cascade : Bool) (db : DB) (invoiceID : UUID) :
    ((∃ r ∈ db.invoice, r.ID = invoiceID) →
      InvoiceStore.Delete db.invoice noFaults invoiceID =
        (db.invoice.filter (fun r => r.ID ≠ invoiceID), none) ∧
      (∀ r, r ∈ (InvoiceStore.Delete db.invoice noFaults invoiceID).1 ↔
        r ∈ db.invoice ∧ r.ID ≠ invoiceID) ∧
      (deleteInvoiceHandler cascade db (.ok invoiceID) noFaults).2 = .WriteHeader 204 ∧
      (deleteInvoiceHandler cascade db (.ok invoiceID) noFaults).2.status = 204 ∧
      (deleteInvoiceHandler cascade db (.ok invoiceID) noFaults).1.invoice =
        db.invoice.filter (fun r => r.ID ≠ invoiceID)) ∧
    ((∀ r ∈ db.invoice, r.ID ≠ invoiceID) →
      InvoiceStore.Delete db.invoice noFaults invoiceID = (db.invoice, some .ErrNotFound) ∧
      deleteInvoiceHandler cascade db (.ok invoiceID) noFaults =
        (db, .notFoundResponse .ErrNotFound) ∧
      (deleteInvoiceHandler cascade db (.ok invoiceID) noFaults).2.status = 404) := by
  refine ⟨?_, ?_⟩
  · intro hex
    have hd := Delete_found db.invoice invoiceID hex
    refine ⟨hd, ?_, ?_, ?_, ?_⟩
    · intro r
      rw [hd]
      simp [List.mem_filter]
    · simp [deleteInvoiceHandler, DB.InvoicesDelete, hd, StatusNoContent]
    · simp [deleteInvoiceHandler, DB.InvoicesDelete, hd, StatusNoContent, Response.status]
    · simp [deleteInvoiceHandler, DB.InvoicesDelete, hd]
  · intro hnone
    have hd := Delete_missing db.invoice invoiceID hnone
    have hno : ¬ ∃ row ∈ db.invoice, row.ID = invoiceID := by
      rintro ⟨r, hr, hid⟩
      exact hnone r hr hid
    refine ⟨hd, ?_, ?_⟩
    · simp [deleteInvoiceHandler, DB.InvoicesDelete, hd, hno]
    · simp [deleteInvoiceHandler, DB.InvoicesDelete, hd, hno, Response.status]

/-- Deleting invoice 1 of two, and deleting an invoice that is not stored. -/
theorem Delete_removes_exactly_witness :
    deleteInvoiceHandler false ⟨twoInvoices, []⟩ (.ok 1) noFaults =
      (⟨[{ unpaidInvoice with ID := 2, InvNo := 2 }], []⟩, .WriteHeader 204) ∧
    deleteInvoiceHandler false ⟨[unpaidInvoice], []⟩ (.ok 7) noFaults =
      (⟨[unpaidInvoice], []⟩, .notFoundResponse .ErrNotFound) :=
  ⟨by decide,
    ((Delete_removes_exactly false ⟨[unpaidInvoice], []⟩ 7).2 (by decide)).2.1⟩

/-! ## The update and delete handlers -/

/-- C12, what the code does: for a payload that decodes and passes validation,
`updateInvoiceHandler` answers 204 when the header update and the item replace succeed
(the header update succeeds when an invoice has the payload's id and the store answers).
When no invoice has the payload's id, on a store that answers every call, it does not
answer 404: `Update` returns `failed to update invoice`, which is not `ErrNotFound`, so
the handler calls `internalServerError` (500); header and items are as before. -/
theorem updateInvoiceHandler_answers (db : DB) (payload : InvoicePayload)
    (Validate : InvoicePayload → Option Error) (fu : ExecFaults) (ft : TxFaults)
    (hvalid : Validate payload = none) :
    ((InvoiceStore.Update db.invoice fu payload.invoice).2 = none →
      (InvoiceItemStore.UpdateAll db.invoice_item ft payload.ID payload.items).2 = none →
      (updateInvoiceHandler db (.ok payload) Validate fu ft).2 = .WriteHeader 204 ∧
      (updateInvoiceHandler db (.ok payload) Validate fu ft).2.status = 204) ∧
    (fu = noFaults → (∃ r ∈ db.invoice, r.ID = payload.ID) →
      (InvoiceStore.Update db.invoice fu payload.invoice).2 = none) ∧
    (fu = noFaults → (∀ r ∈ db.invoice, r.ID ≠ payload.ID) →
      updateInvoiceHandler db (.ok payload) Validate fu ft =
        (db, .internalServerError (.new "failed to update invoice")) ∧
      (updateInvoiceHandler db (.ok payload) Validate fu ft).2.status = 500) := by
  refine ⟨?_, ?_, ?_⟩
  · intro hu hall
    have hid : payload.invoice.ID = payload.ID := rfl
    rcases hupd : InvoiceStore.Update db.invoice fu payload.invoice with ⟨tbl, e⟩
    rw [hupd] at hu
    simp only at hu
    subst hu
    rcases hua : InvoiceItemStore.UpdateAll db.invoice_item ft payload.ID payload.items
      with ⟨s, e⟩
    rw [hua] at hall
    simp only at hall
    subst hall
    simp only [updateInvoiceHandler, hvalid, hupd, hid, hua, StatusNoContent,
      Response.status, and_self]
  · intro hf hex
    rw [Update_ok_iff, hf]
    exact ⟨rfl, rfl, hex⟩
  · intro hf hnone
    subst hf
    have hupd := Update_missing db.invoice payload.invoice hnone
    simp [updateInvoiceHandler, hvalid, hupd, Response.status]

/-- An update of invoice 1 that is stored answers 204; the same update when only invoice 2
is stored answers through `internalServerError`. -/
theorem updateInvoiceHandler_answers_witness :
    (updateInvoiceHandler exampleDB (.ok examplePayload) (fun _ => none) noFaults
      (noTxFaults exampleIDs)).2 = .WriteHeader 204 ∧
    (updateInvoiceHandler ⟨[{ unpaidInvoice with ID := 2 }], exampleItems⟩ (.ok examplePayload)
      (fun _ => none) noFaults (noTxFaults exampleIDs)).2 =
        .internalServerError (.new "failed to update invoice") ∧
    (updateInvoiceHandler ⟨[{ unpaidInvoice with ID := 2 }], exampleItems⟩ (.ok examplePayload)
      (fun _ => none) noFaults (noTxFaults exampleIDs)).2.status = 500 :=
  ⟨((updateInvoiceHandler_answers exampleDB examplePayload (fun _ => none) noFaults
      (noTxFaults exampleIDs) rfl).1 (by decide) (by decide)).1,
    by decide, by decide⟩

/-- C15: with the reference of `invoice_item` to `invoice` kept by the store (declared to
cascade, as section 3 of the specification has it, or else refusing the delete of an
invoice that has items), after `deleteInvoiceHandler` has answered 204 for the invoice id
v: `GetByInvoiceID(v)` returns no items, no stored item carries the invoice id v, no
invoice with the id v is stored, the item table holds the items of the other invoices as
before, and if every item referred to a stored invoice before the call, every item does so
after it: no stored item is left referring to a deleted invoice. -/
theorem items_deleted_with_invoice (cascade : Bool) (db : DB) (invoiceID : UUID)
    (f : ExecFaults) (href : ItemReference cascade db f invoiceID)
    (hok : (deleteInvoiceHandler cascade db (.ok invoiceID) f).2 = .WriteHeader 204) :
    InvoiceItemStore.GetByInvoiceID
        (deleteInvoiceHandler cascade db (.ok invoiceID) f).1.invoice_item none invoiceID =
      ([], none) ∧
    (∀ it ∈ (deleteInvoiceHandler cascade db (.ok invoiceID) f).1.invoice_item,
      it.InvID ≠ invoiceID) ∧
    (∀ r ∈ (deleteInvoiceHandler cascade db (.ok invoiceID) f).1.invoice,
      r.ID ≠ invoiceID) ∧
    (deleteInvoiceHandler cascade db (.ok invoiceID) f).1.invoice_item =
      db.invoice_item.filter (fun it => it.InvID ≠ invoiceID) ∧
    ((∀ it ∈ db.invoice_item, ∃ r ∈ db.invoice, r.ID = it.InvID) →
      ∀ it ∈ (deleteInvoiceHandler cascade db (.ok invoiceID) f).1.invoice_item,
        ∃ r ∈ (deleteInvoiceHandler cascade db (.ok invoiceID) f).1.invoice,
          r.ID = it.InvID) := by
  have hdel : (InvoiceStore.Delete db.invoice f invoiceID).2 = none := by
    cases hd : (InvoiceStore.Delete db.invoice f invoiceID).2 with
    | none => rfl
    | some err =>
      simp only [deleteInvoiceHandler, DB.InvoicesDelete, hd] at hok
      split_ifs at hok
  obtain ⟨he, hra, hex⟩ := (Delete_ok_iff db.invoice f invoiceID).1 hdel
  have hinv : (deleteInvoiceHandler cascade db (.ok invoiceID) f).1.invoice =
      db.invoice.filter (fun r => r.ID ≠ invoiceID) := by
    simp only [deleteInvoiceHandler, DB.InvoicesDelete, hdel]
    simp only [InvoiceStore.Delete, he, hra]
    split_ifs <;> rfl
  have hitems : (deleteInvoiceHandler cascade db (.ok invoiceID) f).1.invoice_item =
      db.invoice_item.filter (fun it => it.InvID ≠ invoiceID) := by
    cases cascade with
    | true =>
      simp only [deleteInvoiceHandler, DB.InvoicesDelete, hdel, he, hex, and_self, if_true]
    | false =>
      have hnone : ∀ it ∈ db.invoice_item, it.InvID ≠ invoiceID := by
        intro it hit hid
        rcases href with hc | hr
        · exact absurd hc (by decide)
        · exact hr ⟨it, hit, hid⟩ he
      have hself : db.invoice_item.filter (fun it => it.InvID ≠ invoiceID) =
          db.invoice_item := by
        rw [List.filter_eq_self]
        intro it hit
        simpa using hnone it hit
      rw [hself]
      simp [deleteInvoiceHandler, DB.InvoicesDelete, hdel]
  have hgone : ∀ it ∈ (deleteInvoiceHandler cascade db (.ok invoiceID) f).1.invoice_item,
      it.InvID ≠ invoiceID := by
    rw [hitems]
    intro it hit
    simpa using (List.mem_filter.1 hit).2
  refine ⟨?_, hgone, ?_, hitems, ?_⟩
  · simp only [InvoiceItemStore.GetByInvoiceID]
    rw [Prod.mk.injEq]
    refine ⟨?_, rfl⟩
    rw [List.filter_eq_nil_iff]
    intro it hit
    simpa using hgone it hit
  · rw [hinv]
    intro r hr
    simpa using (List.mem_filter.1 hr).2
  · intro hall it hit
    have hne := hgone it hit
    rw [hitems] at hit
    obtain ⟨r, hr, hid⟩ := hall it (List.mem_filter.1 hit).1
    rw [hinv]
    refine ⟨r, List.mem_filter.2 ⟨hr, ?_⟩, hid⟩
    simpa [hid] using hne

/-- With invoices 1 and 2 stored and a cascading item table, the delete of invoice 1 takes
its items A and B with it; the item of invoice 2 stays and refers to a stored invoice. -/
theorem items_deleted_with_invoice_witness :
    ItemReference true twoInvoiceDB noFaults 1 ∧
    (deleteInvoiceHandler true twoInvoiceDB (.ok 1) noFaults).2 = .WriteHeader 204 ∧
    (deleteInvoiceHandler true twoInvoiceDB (.ok 1) noFaults).1.invoice_item =
      [⟨103, 2, 51, 4, 100⟩] ∧
    InvoiceItemStore.GetByInvoiceID
        (deleteInvoiceHandler true twoInvoiceDB (.ok 1) noFaults).1.invoice_item none 1 =
      ([], none) :=
  ⟨Or.inl rfl, by decide, by decide,
    (items_deleted_with_invoice true twoInvoiceDB 1 noFaults (Or.inl rfl) (by decide)).1⟩

/-- A store whose reference does not cascade refuses the delete of invoice 1 while its
items are stored: the handler answers through `internalServerError` and invoice and items
are as before. -/
theorem delete_refused_with_items :
    ItemReference false twoInvoiceDB ⟨some (.pq "23503"), none⟩ 1 ∧
    deleteInvoiceHandler false twoInvoiceDB (.ok 1) ⟨some (.pq "23503"), none⟩ =
      (twoInvoiceDB, .internalServerError (.pq "23503")) := by
  decide

/-! ## The line-item table of the invoice document -/

theorem findProduct_eq_none_iff (products : List Product) (prodID : UUID) :
    findProduct products prodID = none ↔ ∀ p ∈ products, p.ID ≠ prodID := by
  induction products with
  | nil => simp [findProduct]
  | cons p rest ih =>
    simp only [findProduct, List.mem_cons, forall_eq_or_imp]
    by_cases h : p.ID = prodID
    · simp [h]
    · simp [h, ih]

theorem findProduct_isSome_iff (products : List Product) (prodID : UUID) :
    (∃ product, findProduct products prodID = some product) ↔
      ∃ p ∈ products, p.ID = prodID := by
  constructor
  · rintro ⟨product, hp⟩
    by_contra hno
    have : findProduct products prodID = none :=
      (findProduct_eq_none_iff products prodID).2
        (fun p hp' hid => hno ⟨p, hp', hid⟩)
    rw [this] at hp
    simp at hp
  · rintro ⟨p, hp, hid⟩
    cases hf : findProduct products prodID with
    | some product => exact ⟨product, rfl⟩
    | none => exact absurd hid ((findProduct_eq_none_iff products prodID).1 hf p hp)

/-- The rows the loop lays out, position by position. -/
theorem tableRows_get (products : List Product) (items : List InvoiceItem) :
    ∀ (i : Nat) (rows : List Row), tableRows products items i = some rows →
      rows.length = items.length ∧
      ∀ (k : Nat) (item : InvoiceItem), items[k]? = some item →
        ∃ product, findProduct products item.ProdID = some product ∧
          rows[k]? = some (lineRow (i + k) item product) := by
  induction items with
  | nil =>
    intro i rows h
    simp only [tableRows, Option.some.injEq] at h
    subst h
    simp
  | cons item rest ih =>
    intro i rows h
    simp only [tableRows] at h
    cases hf : findProduct products item.ProdID with
    | none => rw [hf] at h; simp at h
    | some product =>
      rw [hf] at h
      simp only at h
      cases ht : tableRows products rest (i + 1) with
      | none => rw [ht] at h; simp at h
      | some more =>
        rw [ht] at h
        simp only [Option.some.injEq] at h
        subst h
        obtain ⟨hlen, hget⟩ := ih (i + 1) more ht
        refine ⟨by simp [hlen], ?_⟩
        intro k it hk
        cases k with
        | zero =>
          simp only [List.getElem?_cons_zero, Option.some.injEq] at hk
          subst hk
          exact ⟨product, hf, by simp⟩
        | succ k =>
          simp only [List.getElem?_cons_succ] at hk
          obtain ⟨product', hp', hr'⟩ := hget k it hk
          refine ⟨product', hp', ?_⟩
          simp only [List.getElem?_cons_succ, hr']
          congr 2
          omega

/-- With every product found the loop runs to its end. -/
theorem tableRows_isSome (products : List Product) (items : List InvoiceItem) :
    ∀ (i : Nat), (∀ item ∈ items, ∃ p ∈ products, p.ID = item.ProdID) →
      ∃ rows, tableRows products items i = some rows := by
  induction items with
  | nil => intro i _; exact ⟨[], rfl⟩
  | cons item rest ih =>
    intro i hall
    obtain ⟨product, hp⟩ := (findProduct_isSome_iff products item.ProdID).2
      (hall item (List.mem_cons_self _ _))
    obtain ⟨more, hm⟩ := ih (i + 1) (fun it hit => hall it (List.mem_cons_of_mem _ hit))
    exact ⟨lineRow i item product :: more, by simp [tableRows, hp, hm]⟩

/-- With a product missing the loop panics. -/
theorem tableRows_none (products : List Product) (items : List InvoiceItem) :
    ∀ (i : Nat), (∃ item ∈ items, ∀ p ∈ products, p.ID ≠ item.ProdID) →
      tableRows products items i = none := by
  induction items with
  | nil => intro i h; simp at h
  | cons item rest ih =>
    intro i h
    simp only [tableRows]
    cases hf : findProduct products item.ProdID with
    | none => rfl
    | some product =>
      simp only
      obtain ⟨it, hit, hmiss⟩ := h
      rcases List.mem_cons.1 hit with hit | hit
      · subst hit
        rw [(findProduct_eq_none_iff products it.ProdID).2 hmiss] at hf
        simp at hf
      · rw [ih (i + 1) ⟨it, hit, hmiss⟩]

theorem calls_eq_some (lib : Gofpdf) (business : Business) (invoice : Invoice)
    (customer : Customer) (items : List InvoiceItem) (products : List Product)
    (calls : List Call)
    (h : GenerateInvoicePDF.calls lib business invoice customer items products = some calls) :
    ∃ rows, tableRows products items 0 = some rows ∧
      calls = headerCalls lib business invoice customer ++ (rows.map Row.calls).flatten ++
        footerCalls business invoice := by
  unfold GenerateInvoicePDF.calls at h
  cases ht : tableRows products items 0 with
  | none => rw [ht] at h; simp at h
  | some rows =>
    rw [ht] at h
    simp only [Option.some.injEq] at h
    exact ⟨rows, rfl, h.symm⟩

/-- The computed amounts of a row in whole numbers: for a unit price p, a quantity q and a
tax rate t that are natural numbers with a whole tax `p * q * t / 100`, the row carries
`p * q`, `p * q * t / 100` and their sum.  (With `p * q`, `p * q * t` and the sum at most
2^53 no `float64` operation of the code rounds, and these are the code's values.) -/
theorem lineRow_whole_amounts (i : Nat) (item : InvoiceItem) (product : Product)
    (p q t : ℕ) (hp : item.UnitPrice = (p : ℚ)) (hq : item.Quantity = (q : Int))
    (ht : product.TaxRate = (t : ℚ)) (hdiv : 100 ∣ p * q * t) :
    (lineRow i item product).taxableValue = ((p * q : ℕ) : ℚ) ∧
    (lineRow i item product).taxAmount = ((p * q * t / 100 : ℕ) : ℚ) ∧
    (lineRow i item product).totalAmount = ((p * q + p * q * t / 100 : ℕ) : ℚ) := by
  obtain ⟨c, hc⟩ := hdiv
  have hc' : (p : ℚ) * q * t = 100 * c := by exact_mod_cast hc
  have htax : (p : ℚ) * q * t / 100 = c := by
    rw [hc']
    field_simp
  have hquot : p * q * t / 100 = c := by
    rw [hc]
    exact Nat.mul_div_cancel_left c (by norm_num)
  simp only [lineRow, hp, hq, ht, hquot, Int.cast_natCast, Nat.cast_mul, Nat.cast_add, htax,
    and_self]

/-- C17: when the product of every item is in the list, `GenerateInvoicePDF` reaches
`pdf.Output` having laid out, between the head of the table and the totals, exactly one row
per item, in the order the items are supplied; the row at position k (from 0) carries the
serial number k + 1 and the unit price and quantity of the item at position k. -/
theorem table_rows_in_order (lib : Gofpdf) (business : Business) (invoice : Invoice)
    (customer : Customer) (items : List InvoiceItem) (products : List Product)
    (hall : ∀ item ∈ items, ∃ p ∈ products, p.ID = item.ProdID) :
    ∃ rows : List Row, GenerateInvoicePDF.calls lib business invoice customer items products =
        some (headerCalls lib business invoice customer ++ (rows.map Row.calls).flatten ++
          footerCalls business invoice) ∧
      rows.length = items.length ∧
      ∀ (k : Nat) (item : InvoiceItem), items[k]? = some item →
        ∃ r : Row, rows[k]? = some r ∧ r.serial = (k : Int) + 1 ∧ r.rate = item.UnitPrice ∧
          r.quantity = item.Quantity ∧
          r.calls.take 2 = [.SetFillColor 238 238 238,
            .CellFormat 10 7 (.Itoa ((k : Int) + 1)) "" 0 "C" true 0 ""] := by
  obtain ⟨rows, ht⟩ := tableRows_isSome products items 0 hall
  obtain ⟨hlen, hget⟩ := tableRows_get products items 0 rows ht
  refine ⟨rows, by simp [GenerateInvoicePDF.calls, ht], hlen, ?_⟩
  intro k item hk
  obtain ⟨product, -, hr⟩ := hget k item hk
  refine ⟨_, hr, ?_, rfl, rfl, ?_⟩
  · simp [lineRow]
  · simp [Row.calls, lineRow]

/-- Two items that share a product give two rows, numbered 1 and 2, in the given order. -/
theorem table_rows_in_order_witness :
    (tableRows exampleProducts [⟨101, 1, 51, 2, 100⟩, ⟨102, 1, 51, 7, 90⟩] 0).map
        (fun rows => rows.map (fun r => (r.serial, r.rate, r.quantity))) =
      some [(1, 100, 2), (2, 90, 7)] ∧
    ∃ rows : List Row, GenerateInvoicePDF.calls exampleLib exampleBusiness invoiceTotal500
        exampleCustomer [⟨101, 1, 51, 2, 100⟩, ⟨102, 1, 51, 7, 90⟩] exampleProducts =
        some (headerCalls exampleLib exampleBusiness invoiceTotal500 exampleCustomer ++
          (rows.map Row.calls).flatten ++ footerCalls exampleBusiness invoiceTotal500) ∧
      rows.length = 2 :=
  ⟨by
      simp only [tableRows, exampleProducts, findProduct, lineRow, if_true, Option.map_some',
        List.map_cons, List.map_nil]
      norm_num,
    (table_rows_in_order exampleLib exampleBusiness invoiceTotal500 exampleCustomer
      [⟨101, 1, 51, 2, 100⟩, ⟨102, 1, 51, 7, 90⟩] exampleProducts (by
        intro item hitem
        simp only [List.mem_cons, List.mem_singleton, List.not_mem_nil, or_false] at hitem
        rcases hitem with rfl | rfl <;>
          exact ⟨_, List.mem_cons_self _ _, rfl⟩)).imp
      (fun _ hrows => ⟨hrows.1, hrows.2.1⟩)⟩

/-- C18, what the code does: when some item's product id is the id of no product in the
list, `GenerateInvoicePDF` returns neither an error nor bytes: the loop reads
`product.TaxRate` with `product` nil and the call ends in a run-time panic. -/
theorem missing_product_panics (lib : Gofpdf) (business : Business) (invoice : Invoice)
    (customer : Customer) (items : List InvoiceItem) (products : List Product)
    (hmiss : ∃ item ∈ items, ∀ p ∈ products, p.ID ≠ item.ProdID) :
    GenerateInvoicePDF lib business invoice customer items products = .panic ∧
    (∀ err, GenerateInvoicePDF lib business invoice customer items products ≠ .error err) ∧
    (∀ bytes, GenerateInvoicePDF lib business invoice customer items products ≠ .ok bytes) := by
  have h : GenerateInvoicePDF lib business invoice customer items products = .panic := by
    simp [GenerateInvoicePDF, GenerateInvoicePDF.calls, tableRows_none products items 0 hmiss]
  rw [h]
  exact ⟨rfl, by simp, by simp⟩

/-- An item of product 99 with a catalog that holds products 51 and 52. -/
theorem missing_product_panics_witness :
    GenerateInvoicePDF exampleLib exampleBusiness invoiceTotal500 exampleCustomer
      itemsWithUnknownProduct exampleProducts = .panic :=
  (missing_product_panics exampleLib exampleBusiness invoiceTotal500 exampleCustomer
    itemsWithUnknownProduct exampleProducts
    ⟨⟨104, 1, 99, 1, 10⟩, by simp [itemsWithUnknownProduct], by
      intro p hp
      simp only [exampleProducts, List.mem_cons, List.mem_singleton, List.not_mem_nil,
        or_false] at hp
      rcases hp with rfl | rfl <;> decide⟩).1

theorem printedTotal_append_footer (front : List Call) (business : Business)
    (invoice : Invoice) :
    printedTotal (front ++ footerCalls business invoice) =
      some (money invoice.TotalAmount) := by
  simp [printedTotal, footerCalls, List.reverse_append]

/-- C19: in every call of `GenerateInvoicePDF` that reaches `pdf.Output`, the amount cell
of the totals block holds the invoice's stored `total_amount` in the amount format, so two
calls with the same stored total print the same total whatever their items, products,
customer and business; it is not computed from the rows. -/
theorem printed_total_is_stored_total (lib : Gofpdf) (business : Business)
    (invoice : Invoice) (customer : Customer) (items : List InvoiceItem)
    (products : List Product) (calls : List Call)
    (h : GenerateInvoicePDF.calls lib business invoice customer items products = some calls) :
    printedTotal calls = some (money invoice.TotalAmount) ∧
    ∀ (lib' : Gofpdf) (business' : Business) (invoice' : Invoice) (customer' : Customer)
      (items' : List InvoiceItem) (products' : List Product) (calls' : List Call),
      invoice'.TotalAmount = invoice.TotalAmount →
      GenerateInvoicePDF.calls lib' business' invoice' customer' items' products' =
        some calls' →
      printedTotal calls' = printedTotal calls := by
  obtain ⟨rows, -, hcalls⟩ := calls_eq_some lib business invoice customer items products
    calls h
  have h1 : printedTotal calls = some (money invoice.TotalAmount) := by
    rw [hcalls]; exact printedTotal_append_footer _ business invoice
  refine ⟨h1, ?_⟩
  intro lib' business' invoice' customer' items' products' calls' htot h'
  obtain ⟨rows', -, hcalls'⟩ := calls_eq_some lib' business' invoice' customer' items'
    products' calls' h'
  rw [h1, hcalls', printedTotal_append_footer, htot]

/-- A stored total of 500 over one row whose line total is 236: 500 is printed. -/
theorem printed_total_is_stored_total_witness :
    printedTotal (headerCalls exampleLib exampleBusiness invoiceTotal500 exampleCustomer ++
        ([lineRow 0 ⟨101, 1, 51, 2, 100⟩
          { ID := 51, BusID := 10, Name := "Widget", Price := 100, TaxRate := 18,
            Unit := "pc", HSNCode := "8471", CreatedAt := 0 }].map Row.calls).flatten ++
        footerCalls exampleBusiness invoiceTotal500) = some (money 500) ∧
    (tableRows exampleProducts oneItem 0).map sumLineTotals = some 236 ∧
    money 500 ≠ money 236 :=
  ⟨(printed_total_is_stored_total exampleLib exampleBusiness invoiceTotal500 exampleCustomer
      oneItem exampleProducts _ rfl).1,
    by
      simp only [tableRows, oneItem, exampleProducts, findProduct, lineRow, if_true,
        Option.map_some', sumLineTotals, List.map_cons, List.map_nil, List.sum_cons,
        List.sum_nil]
      norm_num,
    by
      simp only [money, ne_eq, Text.Sprintf.injEq, List.cons.injEq, Arg.f.injEq, true_and,
        and_true]
      norm_num⟩

/-! ## The address block -/

theorem headerCalls_eq (lib : Gofpdf) (business : Business) (invoice : Invoice)
    (customer : Customer) :
    headerCalls lib business invoice customer =
      callsToTable lib business invoice customer ++ tableHeadCalls := rfl

theorem columnHeight_nonneg (w : ℚ) (h : 0 ≤ w) : 0 ≤ columnHeight w := by
  unfold columnHeight
  have h1 : (0 : ℚ) ≤ w / 95 := div_nonneg h (by norm_num)
  have h2 : (0 : ℤ) ≤ Int.ceil (w / 95) := Int.ceil_nonneg h1
  have h3 : (0 : ℚ) ≤ (Int.ceil (w / 95) : ℚ) := by exact_mod_cast h2
  positivity

theorem cursorY_append (width : String → ℚ) (calls : List Call) (c : Call) :
    cursorY width (calls ++ [c]) = cursorStep width (cursorY width calls) c := by
  simp [cursorY, List.foldl_append]

/-- C21: in the address block each column's height is `ceil(textWidth / 95) * 6` for its
address text, and the calls before the loop are those up to the end of the block followed
by the head of the table.  With each column advancing the cursor by its computed height
(`SetXY` placing the cursor and `Ln` moving it down as asked), the shipping column starts
at the vertical position at which the billing column started, and the cursor from which
the table is laid out is at least the top of the block plus the greater of the two
heights. -/
theorem address_block_layout (lib : Gofpdf) (business : Business) (invoice : Invoice)
    (customer : Customer)
    (hwB : 0 ≤ lib.GetStringWidth (callsBeforeAddresses business invoice customer)
      customer.BAddress)
    (hwS : 0 ≤ lib.GetStringWidth (callsBeforeAddresses business invoice customer)
      customer.SAddress)
    (hbilling : lib.GetY (callsToBilling business invoice customer) =
      lib.GetY (callsBeforeAddresses business invoice customer) +
        columnHeight (lib.GetStringWidth (callsBeforeAddresses business invoice customer)
          customer.BAddress))
    (hsetxy : ∀ (calls : List Call) (x y : ℚ), lib.GetY (calls ++ [.SetXY x y]) = y)
    (hshipping : lib.GetY (callsToShipping lib business invoice customer) =
      lib.GetY (callsToShippingStart lib business invoice customer) +
        columnHeight (lib.GetStringWidth (callsBeforeAddresses business invoice customer)
          customer.SAddress))
    (hln : ∀ (calls : List Call) (h : ℚ), 0 ≤ h →
      lib.GetY (calls ++ [.Ln h]) = lib.GetY calls + h) :
    headerCalls lib business invoice customer =
      callsToTable lib business invoice customer ++ tableHeadCalls ∧
    (∀ w : ℚ, columnHeight w = (Int.ceil (w / 95) : ℚ) * 6) ∧
    lib.GetY (callsToShippingStart lib business invoice customer) =
      lib.GetY (callsBeforeAddresses business invoice customer) ∧
    lib.GetY (callsBeforeAddresses business invoice customer) +
        max (columnHeight (lib.GetStringWidth
              (callsBeforeAddresses business invoice customer) customer.BAddress))
            (columnHeight (lib.GetStringWidth
              (callsBeforeAddresses business invoice customer) customer.SAddress)) ≤
      lib.GetY (callsToTable lib business invoice customer) := by
  have hB := columnHeight_nonneg _ hwB
  have hS := columnHeight_nonneg _ hwS
  have hstart : lib.GetY (callsToShippingStart lib business invoice customer) =
      lib.GetY (callsBeforeAddresses business invoice customer) := by
    unfold callsToShippingStart
    rw [hsetxy, hbilling]
    ring
  refine ⟨rfl, fun _ => rfl, hstart, ?_⟩
  unfold callsToTable
  split_ifs with hgt
  · rw [hln _ _ (by linarith), hshipping, hstart, max_eq_left (le_of_lt hgt)]
    linarith
  · rw [hln _ _ (by norm_num), hshipping, hstart, max_eq_right (not_lt.1 hgt)]
    linarith

/-- A library whose cursor advances as read, with a billing address longer than the
shipping address. -/
theorem address_block_layout_witness :
    cursorY exampleWidth
        (callsToShippingStart (cursorLib exampleWidth) exampleBusiness invoiceTotal500
          longBillingCustomer) =
      cursorY exampleWidth
        (callsBeforeAddresses exampleBusiness invoiceTotal500 longBillingCustomer) ∧
    cursorY exampleWidth
        (callsBeforeAddresses exampleBusiness invoiceTotal500 longBillingCustomer) +
        max (columnHeight (exampleWidth "221 Long Side Road, Pune"))
          (columnHeight (exampleWidth "3 Back Road")) ≤
      cursorY exampleWidth
        (callsToTable (cursorLib exampleWidth) exampleBusiness invoiceTotal500
          longBillingCustomer) :=
  (address_block_layout (cursorLib exampleWidth) exampleBusiness invoiceTotal500
    longBillingCustomer
    (by simp only [cursorLib, exampleWidth]; positivity)
    (by simp only [cursorLib, exampleWidth]; positivity)
    (by
      simp only [cursorLib, callsToBilling, cursorY_append, cursorStep, columnHeight])
    (by intro calls x y; simp only [cursorLib, cursorY_append, cursorStep])
    (by
      simp only [cursorLib, callsToShipping, cursorY_append, cursorStep, columnHeight])
    (by intro calls h _; simp only [cursorLib, cursorY_append, cursorStep])).2.2

/-! ## Single-item methods of the line-item store -/

theorem ItemDelete_missing (tbl : ItemTable) (itemID : UUID)
    (h : ∀ r ∈ tbl, r.ID ≠ itemID) :
    InvoiceItemStore.Delete tbl noFaults itemID = (tbl, some .ErrNotFound) := by
  have h0 : (tbl.filter (fun r => r.ID = itemID)).length = 0 := by
    rw [List.length_eq_zero, List.filter_eq_nil_iff]
    intro r hr
    simpa using h r hr
  have hf : tbl.filter (fun r => r.ID ≠ itemID) = tbl := by
    rw [List.filter_eq_self]
    intro r hr
    simpa using h r hr
  simp only [InvoiceItemStore.Delete, noFaults, h0, if_true, hf]

/-- C30: for an item argument whose id matches no stored item, `InvoiceItemStore.Update`
returns no error of its own - nil when the store answers, and only ever the error of the
store - and leaves the item table unchanged, whereas `InvoiceItemStore.Delete` with the
same id returns `ErrNotFound`. -/
theorem ItemUpdate_missing_silent (tbl : ItemTable) (item : InvoiceItem)
    (h : ∀ r ∈ tbl, r.ID ≠ item.ID) :
    InvoiceItemStore.Update tbl none item = (tbl, none) ∧
    (∀ fault, InvoiceItemStore.Update tbl fault item = (tbl, fault)) ∧
    InvoiceItemStore.Delete tbl noFaults item.ID = (tbl, some .ErrNotFound) := by
  have hmap : tbl.map (fun r =>
      if r.ID = item.ID then
        { r with InvID := item.InvID, ProdID := item.ProdID, Quantity := item.Quantity,
                 UnitPrice := item.UnitPrice }
      else r) = tbl := by
    conv_rhs => rw [← List.map_id tbl]
    apply List.map_congr_left
    intro r hr
    simp [h r hr]
  have h1 : InvoiceItemStore.Update tbl none item = (tbl, none) := by
    simp only [InvoiceItemStore.Update, hmap]
  refine ⟨h1, ?_, ItemDelete_missing tbl item.ID h⟩
  intro fault
  cases fault with
  | none => exact h1
  | some err => rfl

/-- An update and a delete of item 999 in a table that holds items 101, 102 and 103. -/
theorem ItemUpdate_missing_silent_witness :
    InvoiceItemStore.Update exampleItems none ⟨999, 1, 51, 3, 40⟩ = (exampleItems, none) ∧
    InvoiceItemStore.Delete exampleItems noFaults 999 = (exampleItems, some .ErrNotFound) :=
  have h := ItemUpdate_missing_silent exampleItems ⟨999, 1, 51, 3, 40⟩ (by decide)
  ⟨h.1, h.2.2⟩

theorem queryRowScan_arity (row : InvoiceItem) (rest : List InvoiceItem) :
    queryRowScan 6 5 (row :: rest) none =
      .error (.driver "sql: expected 6 destination arguments in Scan, not 5") := by
  simp only [queryRowScan]
  rfl

/-- C27, what the code does: for every item stored in the item table, `GetByID` with its
id returns no item but an error, on a store that answers the error of `Scan` for five
destinations against six selected columns; for an id with no stored row it returns
`ErrNotFound`. -/
theorem ItemGetByID_stored_fails (tbl : ItemTable) (item : InvoiceItem) (hmem : item ∈ tbl) :
    (∀ fault, (InvoiceItemStore.GetByID tbl fault item.ID).1 = none ∧
      (InvoiceItemStore.GetByID tbl fault item.ID).2 ≠ none) ∧
    InvoiceItemStore.GetByID tbl none item.ID =
      (none, some (.driver "sql: expected 6 destination arguments in Scan, not 5")) ∧
    (∀ itemID, (∀ r ∈ tbl, r.ID ≠ itemID) →
      InvoiceItemStore.GetByID tbl none itemID = (none, some .ErrNotFound)) := by
  have hne : tbl.filter (fun r => r.ID = item.ID) ≠ [] := by
    intro hnil
    have : item ∈ tbl.filter (fun r => r.ID = item.ID) :=
      List.mem_filter.2 ⟨hmem, by simp⟩
    rw [hnil] at this
    simp at this
  obtain ⟨row, rest, hrows⟩ := List.exists_cons_of_ne_nil hne
  have hnone : InvoiceItemStore.GetByID tbl none item.ID =
      (none, some (.driver "sql: expected 6 destination arguments in Scan, not 5")) := by
    simp only [InvoiceItemStore.GetByID, hrows, queryRowScan_arity, notFoundIfNoRows]
    simp
  refine ⟨?_, hnone, ?_⟩
  · intro fault
    cases fault with
    | none => rw [hnone]; simp
    | some err =>
      simp only [InvoiceItemStore.GetByID, queryRowScan, notFoundIfNoRows]
      split_ifs <;> simp
  · intro itemID hmiss
    have hnil : tbl.filter (fun r => r.ID = itemID) = [] := by
      rw [List.filter_eq_nil_iff]
      intro r hr
      simpa using hmiss r hr
    simp [InvoiceItemStore.GetByID, hnil, queryRowScan, notFoundIfNoRows]

/-- Item 101 is stored, and `GetByID` with 101 returns the error of `Scan`; `GetByID` with
999 returns `ErrNotFound`. -/
theorem ItemGetByID_stored_fails_witness :
    InvoiceItemStore.GetByID exampleItems none 101 =
      (none, some (.driver "sql: expected 6 destination arguments in Scan, not 5")) ∧
    InvoiceItemStore.GetByID exampleItems none 999 = (none, some .ErrNotFound) :=
  have h := ItemGetByID_stored_fails exampleItems ⟨101, 1, 51, 2, 100⟩ (by decide)
  ⟨h.2.1, h.2.2 999 (by decide)⟩

/-! ## The product of a row -/

theorem findProduct_some_iff (products : List Product) (prodID : UUID) (product : Product) :
    findProduct products prodID = some product ↔
      ∃ pre post, products = pre ++ product :: post ∧ product.ID = prodID ∧
        ∀ q ∈ pre, q.ID ≠ prodID := by
  induction products with
  | nil => simp [findProduct]
  | cons p rest ih =>
    simp only [findProduct]
    by_cases h : p.ID = prodID
    · simp only [h, if_true, Option.some.injEq]
      constructor
      · intro hp
        subst hp
        exact ⟨[], rest, rfl, h, by simp⟩
      · rintro ⟨pre, post, heq, hid, hpre⟩
        cases pre with
        | nil =>
          simp only [List.nil_append, List.cons.injEq] at heq
          exact heq.1
        | cons q pre =>
          simp only [List.cons_append, List.cons.injEq] at heq
          exact absurd (heq.1 ▸ h) (hpre q (List.mem_cons_self _ _))
    · simp only [h, if_false, ih]
      constructor
      · rintro ⟨pre, post, heq, hid, hpre⟩
        refine ⟨p :: pre, post, by simp [heq], hid, ?_⟩
        intro q hq
        rcases List.mem_cons.1 hq with hq | hq
        · subst hq; exact h
        · exact hpre q hq
      · rintro ⟨pre, post, heq, hid, hpre⟩
        cases pre with
        | nil =>
          simp only [List.nil_append, List.cons.injEq] at heq
          exact absurd (heq.1 ▸ hid) h
        | cons q pre =>
          simp only [List.cons_append, List.cons.injEq] at heq
          exact ⟨pre, post, heq.2, hid, fun q' hq' => hpre q' (List.mem_cons_of_mem _ hq')⟩

theorem findProduct_filter (products : List Product) (prodID : UUID) :
    findProduct (products.filter (fun p => p.ID = prodID)) prodID =
      findProduct products prodID := by
  induction products with
  | nil => rfl
  | cons p rest ih =>
    by_cases h : p.ID = prodID
    · simp [List.filter, findProduct, h]
    · simp [List.filter, findProduct, h, ih]

/-- C28: in a call of `GenerateInvoicePDF` that reaches `pdf.Output`, the product used for
the row of an item is the first product in list order whose id equals the item's product
id.  The name of the row is its name, and the tax of the row is taken at its rate: for a
unit price, a quantity and a tax rate of that product in whole numbers, within the range
in which `float64` is exact, the tax cell carries `unit price * quantity * rate / 100`.
Nothing else of the product list enters the row: every product list in which the same
product is the first one of that id gives the same row, and so does every list with the
same products of that id in the same order, whatever products of other ids it holds. -/
theorem row_uses_first_matching_product (lib : Gofpdf) (business : Business)
    (invoice : Invoice) (customer : Customer) (items : List InvoiceItem)
    (products : List Product) (calls : List Call)
    (h : GenerateInvoicePDF.calls lib business invoice customer items products = some calls) :
    ∃ rows : List Row, calls = headerCalls lib business invoice customer ++
        (rows.map Row.calls).flatten ++ footerCalls business invoice ∧
      ∀ (k : Nat) (item : InvoiceItem), items[k]? = some item →
        (∃ (pre : List Product) (product : Product) (post : List Product) (r : Row),
          products = pre ++ product :: post ∧ product.ID = item.ProdID ∧
          (∀ q ∈ pre, q.ID ≠ item.ProdID) ∧
          rows[k]? = some r ∧ r.name = product.Name ∧
          (∀ p q t : ℕ, item.UnitPrice = (p : ℚ) → item.Quantity = (q : Int) →
            product.TaxRate = (t : ℚ) → p * q ≤ 2 ^ 53 → p * q * t ≤ 2 ^ 53 →
            100 ∣ p * q * t → r.taxAmount = ((p * q * t / 100 : ℕ) : ℚ)) ∧
          (∀ (products' pre' post' : List Product) (rows' : List Row),
            tableRows products' items 0 = some rows' →
            products' = pre' ++ product :: post' → (∀ q ∈ pre', q.ID ≠ item.ProdID) →
            rows'[k]? = some r)) ∧
        (∀ (products' : List Product) (rows' : List Row),
          tableRows products' items 0 = some rows' →
          products'.filter (fun p => p.ID = item.ProdID) =
            products.filter (fun p => p.ID = item.ProdID) →
          rows'[k]? = rows[k]?) := by
  obtain ⟨rows, ht, hcalls⟩ := calls_eq_some lib business invoice customer items products
    calls h
  refine ⟨rows, hcalls, ?_⟩
  intro k item hk
  obtain ⟨product, hp, hr⟩ := (tableRows_get products items 0 rows ht).2 k item hk
  obtain ⟨pre, post, heq, hid, hpre⟩ := (findProduct_some_iff products item.ProdID product).1 hp
  refine ⟨⟨pre, product, post, _, heq, hid, hpre, hr, rfl, ?_, ?_⟩, ?_⟩
  · intro p q t hup hq htr _ _ hdiv
    exact (lineRow_whole_amounts (0 + k) item product p q t hup hq htr hdiv).2.1
  · intro products' pre' post' rows' ht' heq' hpre'
    obtain ⟨product', hp', hr'⟩ := (tableRows_get products' items 0 rows' ht').2 k item hk
    have hfirst : findProduct products' item.ProdID = some product :=
      (findProduct_some_iff products' item.ProdID product).2 ⟨pre', post', heq', hid, hpre'⟩
    rw [hfirst, Option.some.injEq] at hp'
    rw [hr', hp']
  · intro products' rows' ht' hsame
    obtain ⟨product', hp', hr'⟩ := (tableRows_get products' items 0 rows' ht').2 k item hk
    have hfind : findProduct products' item.ProdID = findProduct products item.ProdID := by
      rw [← findProduct_filter products', hsame, findProduct_filter]
    rw [hfind, hp, Option.some.injEq] at hp'
    rw [hr', hr, hp']

/-- With two products of id 51 in the catalog, after a product of another id, the row of
an item of product 51 carries the name of the earlier one and the tax at its rate of 18
percent: 100 * 2 * 18 / 100 = 36. -/
theorem row_uses_first_matching_product_witness :
    (tableRows productsWithRepeat oneItem 0).map
        (fun rows => rows.map (fun r => (r.name, r.taxAmount))) = some [("Widget", 36)] ∧
    ∃ rows : List Row,
      (headerCalls exampleLib exampleBusiness invoiceTotal500 exampleCustomer ++
          ([lineRow 0 ⟨101, 1, 51, 2, 100⟩
            { ID := 51, BusID := 10, Name := "Widget", Price := 100, TaxRate := 18,
              Unit := "pc", HSNCode := "8471", CreatedAt := 0 }].map Row.calls).flatten ++
          footerCalls exampleBusiness invoiceTotal500) =
        headerCalls exampleLib exampleBusiness invoiceTotal500 exampleCustomer ++
          (rows.map Row.calls).flatten ++ footerCalls exampleBusiness invoiceTotal500 :=
  ⟨by
      simp only [tableRows, oneItem, productsWithRepeat, findProduct, lineRow,
        Option.map_some', List.map_cons, List.map_nil]
      norm_num,
    (row_uses_first_matching_product exampleLib exampleBusiness invoiceTotal500
      exampleCustomer oneItem productsWithRepeat _ rfl).imp (fun _ hrows => hrows.1)⟩

/-! ## The create handler -/

theorem Create_new (tbl : InvoiceTable) (newID : UUID) (now : Time) (invoice : Invoice)
    (h : violatesUnique tbl invoice = false) :
    InvoiceStore.Create tbl none newID now invoice =
      (tbl ++ [{ invoice with ID := newID, CreatedAt := now }],
        { invoice with ID := newID, CreatedAt := now }, none) := by
  simp [InvoiceStore.Create, insertInvoice, h]

theorem Create_duplicate (tbl : InvoiceTable) (newID : UUID) (now : Time) (invoice : Invoice)
    (h : violatesUnique tbl invoice = true) :
    InvoiceStore.Create tbl none newID now invoice =
      (tbl, invoice, some .ErrDuplicateInvoice) := by
  simp [InvoiceStore.Create, insertInvoice, h, isUniqueViolation]

/-- The loop of the create handler: with no insert refused every row is added; with the
insert at position `j` the first one refused, the rows of the `j` items before it are. -/
theorem createItems_spec (a : CreateAnswers) (invoiceID : UUID)
    (items : List InvoiceItemPayload) :
    ∀ (k : Nat) (tbl : ItemTable),
      ((∀ i, i < items.length → a.item (k + i) = none) →
        createItems a invoiceID items k tbl =
          (tbl ++ createdRows a invoiceID items k, none)) ∧
      (∀ (j : Nat) (err : Error), j < items.length →
        (∀ i, i < j → a.item (k + i) = none) → a.item (k + j) = some err →
        createItems a invoiceID items k tbl =
          (tbl ++ createdRows a invoiceID (items.take j) k, some err)) := by
  induction items with
  | nil =>
    intro k tbl
    refine ⟨fun _ => by simp [createItems, createdRows], ?_⟩
    intro j err hj
    simp at hj
  | cons itemPayload rest ih =>
    intro k tbl
    refine ⟨?_, ?_⟩
    · intro hall
      have hk : a.item k = none := by simpa using hall 0 (by simp)
      have hrest := (ih (k + 1) (tbl ++ [⟨a.itemID k, invoiceID, itemPayload.ProdID,
        itemPayload.Quantity, itemPayload.UnitPrice⟩])).1 (by
          intro i hi
          have := hall (i + 1) (by simpa using hi)
          rw [← this]; congr 1; omega)
      simp only [createItems, InvoiceItemStore.Create, hk, InvoiceItemPayload.newItem]
      rw [hrest]
      simp [createdRows]
    · intro j err hj hbefore hat
      cases j with
      | zero =>
        have hk : a.item k = some err := by simpa using hat
        simp [createItems, InvoiceItemStore.Create, hk, createdRows]
      | succ j =>
        have hk : a.item k = none := by simpa using hbefore 0 (by omega)
        have hrest := (ih (k + 1) (tbl ++ [⟨a.itemID k, invoiceID, itemPayload.ProdID,
          itemPayload.Quantity, itemPayload.UnitPrice⟩])).2 j err
          (by simpa using hj)
          (by
            intro i hi
            have := hbefore (i + 1) (by omega)
            rw [← this]; congr 1; omega)
          (by rw [← hat]; congr 1; omega)
        simp only [createItems, InvoiceItemStore.Create, hk, InvoiceItemPayload.newItem]
        rw [hrest]
        simp [createdRows]

theorem createdRows_length (a : CreateAnswers) (invoiceID : UUID)
    (items : List InvoiceItemPayload) :
    ∀ k, (createdRows a invoiceID items k).length = items.length := by
  induction items with
  | nil => intro k; rfl
  | cons itemPayload rest ih => intro k; simp [createdRows, ih (k + 1)]

/-- C23, as stated, fails: a valid create request whose header and two items are
persisted is answered with the bare status 201; the handler writes no body, so the created
header, stored with its id 1 and creation time 4, is not in the response. -/
theorem create_answers_without_body :
    (createInvoiceHandler ⟨[], []⟩ (.ok examplePayload) (fun _ => none) createAnswers).2 =
      .WriteHeader 201 ∧
    (createInvoiceHandler ⟨[], []⟩ (.ok examplePayload) (fun _ => none)
      createAnswers).2.body = none ∧
    (createInvoiceHandler ⟨[], []⟩ (.ok examplePayload) (fun _ => none)
      createAnswers).1.invoice =
      [{ examplePayload.newInvoice with ID := 1, CreatedAt := 4 }] ∧
    (createInvoiceHandler ⟨[], []⟩ (.ok examplePayload) (fun _ => none)
      createAnswers).1.invoice_item = [⟨200, 1, 53, 5, 20⟩, ⟨201, 1, 54, 1, 10⟩] := by
  decide

/-- C23, amended: for a payload that decodes and passes validation, `createInvoiceHandler`
answers with the bare status 201 and no body when the header and all items are persisted
(the header is stored with the id and the creation time the store assigns, each item with
the id of the new invoice), and calls `conflictResponse` (409), leaving the tables
unchanged, when `Create` reports a duplicate invoice number. -/
theorem createInvoiceHandler_answers (db : DB) (payload : InvoicePayload)
    (Validate : InvoicePayload → Option Error) (a : CreateAnswers)
    (hvalid : Validate payload = none) (hstore : a.header = none) :
    (violatesUnique db.invoice payload.newInvoice = false →
      (∀ i, i < payload.Items.length → a.item i = none) →
      createInvoiceHandler db (.ok payload) Validate a =
        (⟨db.invoice ++ [{ payload.newInvoice with ID := a.headerID, CreatedAt := a.now }],
          db.invoice_item ++ createdRows a a.headerID payload.Items 0⟩,
          .WriteHeader 201) ∧
      (Response.WriteHeader 201).status = 201 ∧ (Response.WriteHeader 201).body = none) ∧
    (violatesUnique db.invoice payload.newInvoice = true →
      createInvoiceHandler db (.ok payload) Validate a =
        (db, .conflictResponse .ErrDuplicateInvoice) ∧
      (Response.conflictResponse .ErrDuplicateInvoice).status = 409) := by
  refine ⟨?_, ?_⟩
  · intro hnew hitems
    have hc := Create_new db.invoice a.headerID a.now payload.newInvoice hnew
    have hi := (createItems_spec a a.headerID payload.Items 0 db.invoice_item).1
      (by simpa using hitems)
    refine ⟨?_, rfl, rfl⟩
    simp only [createInvoiceHandler, hvalid, hstore, hc, hi, StatusCreated]
  · intro hdup
    have hc := Create_duplicate db.invoice a.headerID a.now payload.newInvoice hdup
    refine ⟨?_, rfl⟩
    simp only [createInvoiceHandler, hvalid, hstore, hc, if_true]

/-- A first create request is answered 201; the same request again is answered through
`conflictResponse`. -/
theorem createInvoiceHandler_answers_witness :
    (createInvoiceHandler ⟨[], []⟩ (.ok examplePayload) (fun _ => none) createAnswers).2 =
      .WriteHeader 201 ∧
    createInvoiceHandler exampleDB (.ok examplePayload) (fun _ => none) createAnswers =
      (exampleDB, .conflictResponse .ErrDuplicateInvoice) :=
  ⟨by decide,
    ((createInvoiceHandler_answers exampleDB examplePayload (fun _ => none) createAnswers
      rfl rfl).2 (by decide)).1⟩

/-- C25: invoice creation with items is not atomic.  For a valid payload, if the header
insert succeeds and the insert of the item at position j is the first one that fails, the
handler calls `internalServerError` (500), the new header stays in the invoice table and
exactly the rows of the j items before the failing one stay in the item table; a failure
at the first item leaves the item table as it was, the new invoice having no item. -/
theorem create_not_atomic (db : DB) (payload : InvoicePayload)
    (Validate : InvoicePayload → Option Error) (a : CreateAnswers) (j : Nat) (err : Error)
    (hvalid : Validate payload = none) (hstore : a.header = none)
    (hnew : violatesUnique db.invoice payload.newInvoice = false)
    (hj : j < payload.Items.length) (hbefore : ∀ i, i < j → a.item i = none)
    (hat : a.item j = some err) :
    createInvoiceHandler db (.ok payload) Validate a =
      (⟨db.invoice ++ [{ payload.newInvoice with ID := a.headerID, CreatedAt := a.now }],
        db.invoice_item ++ createdRows a a.headerID (payload.Items.take j) 0⟩,
        .internalServerError err) ∧
    (Response.internalServerError err).status = 500 ∧
    (createdRows a a.headerID (payload.Items.take j) 0).length = j ∧
    (j = 0 → (createInvoiceHandler db (.ok payload) Validate a).1.invoice_item =
      db.invoice_item) := by
  have hc := Create_new db.invoice a.headerID a.now payload.newInvoice hnew
  have hi := (createItems_spec a a.headerID payload.Items 0 db.invoice_item).2 j err hj
    (by simpa using hbefore) (by simpa using hat)
  have hmain : createInvoiceHandler db (.ok payload) Validate a =
      (⟨db.invoice ++ [{ payload.newInvoice with ID := a.headerID, CreatedAt := a.now }],
        db.invoice_item ++ createdRows a a.headerID (payload.Items.take j) 0⟩,
        .internalServerError err) := by
    simp only [createInvoiceHandler, hvalid, hstore, hc, hi]
  refine ⟨hmain, rfl, ?_, ?_⟩
  · rw [createdRows_length, List.length_take]
    omega
  · intro h0
    subst h0
    rw [hmain]
    simp [createdRows]

/-- A create request with two items whose second insert is refused: the header and the
first item stay. -/
theorem create_not_atomic_witness :
    createInvoiceHandler ⟨[], []⟩ (.ok examplePayload) (fun _ => none) secondItemRefused =
      (⟨[{ examplePayload.newInvoice with ID := 1, CreatedAt := 4 }],
        [⟨200, 1, 53, 5, 20⟩]⟩, .internalServerError (.pq "23503")) :=
  (create_not_atomic ⟨[], []⟩ examplePayload (fun _ => none) secondItemRefused 1
    (.pq "23503") rfl rfl (by decide) (by decide) (by intro i hi; interval_cases i; rfl)
    rfl).1

/-! ## Requests that are refused before the store is reached -/

/-- C24: in `createInvoiceHandler` and `updateInvoiceHandler` a payload that fails to
decode or fails validation is answered through `badRequestResponse` (400), whatever the
store would answer, and invoices and items are unchanged.  In particular, with a validator
that enforces the `required` tag the payload puts on the product id of every item, an
update whose item list holds an item without product reference is answered 400 with the
invoice header not updated. -/
theorem invalid_request_refused (db : DB) (Validate : InvoicePayload → Option Error) :
    (∀ err a, createInvoiceHandler db (.error err) Validate a =
      (db, .badRequestResponse err)) ∧
    (∀ err fu ft, updateInvoiceHandler db (.error err) Validate fu ft =
      (db, .badRequestResponse err)) ∧
    (∀ payload err, Validate payload = some err →
      (∀ a, createInvoiceHandler db (.ok payload) Validate a =
        (db, .badRequestResponse err)) ∧
      (∀ fu ft, updateInvoiceHandler db (.ok payload) Validate fu ft =
        (db, .badRequestResponse err))) ∧
    (∀ err, (Response.badRequestResponse err).status = 400) ∧
    ((∀ payload : InvoicePayload, (∃ it ∈ payload.Items, it.ProdID = uuidNil) →
        Validate payload ≠ none) →
      ∀ payload : InvoicePayload, (∃ it ∈ payload.Items, it.ProdID = uuidNil) →
        ∀ fu ft, ∃ err, updateInvoiceHandler db (.ok payload) Validate fu ft =
          (db, .badRequestResponse err)) := by
  refine ⟨fun _ _ => rfl, fun _ _ _ => rfl, ?_, fun _ => rfl, ?_⟩
  · intro payload err hv
    refine ⟨?_, ?_⟩
    · intro a; simp only [createInvoiceHandler, hv]
    · intro fu ft; simp only [updateInvoiceHandler, hv]
  · intro hreq payload hnil fu ft
    cases hv : Validate payload with
    | none => exact absurd hv (hreq payload hnil)
    | some err => exact ⟨err, by simp only [updateInvoiceHandler, hv]⟩

/-- An update whose second item has no product reference, with a validator that enforces
the tag: 400, and the stored header is not touched. -/
theorem invalid_request_refused_witness :
    updateInvoiceHandler exampleDB (.ok payloadWithNilProduct) requireProduct noFaults
        (noTxFaults exampleIDs) =
      (exampleDB, .badRequestResponse
        (.new "Key: 'InvoicePayload.Items.ProdID' failed on the 'required' tag")) ∧
    updateInvoiceHandler exampleDB (.error (.new "body must not be empty")) requireProduct
        noFaults (noTxFaults exampleIDs) =
      (exampleDB, .badRequestResponse (.new "body must not be empty")) :=
  ⟨((invalid_request_refused exampleDB requireProduct).2.2.1 payloadWithNilProduct _
      (by decide)).2 noFaults (noTxFaults exampleIDs),
    (invalid_request_refused exampleDB requireProduct).2.1 _ noFaults
      (noTxFaults exampleIDs)⟩

/-! ## The status handler -/

theorem UpdateStatus_missing (tbl : InvoiceTable) (now : Time) (invoiceID : UUID)
    (h : ∀ r ∈ tbl, r.ID ≠ invoiceID) :
    InvoiceStore.UpdateStatus tbl noFaults now invoiceID = (tbl, some .ErrNotFound) := by
  have h0 : (tbl.filter (fun r => r.ID = invoiceID)).length = 0 := by
    rw [List.length_eq_zero, List.filter_eq_nil_iff]
    intro r hr
    simpa using h r hr
  have hmap : tbl.map (fun r => if r.ID = invoiceID then toggleStatus now r else r) = tbl := by
    conv_rhs => rw [← List.map_id tbl]
    apply List.map_congr_left
    intro r hr
    simp [h r hr]
  simp only [InvoiceStore.UpdateStatus, noFaults, h0, if_true, hmap]

/-- C26, what the code does: for an id that parses, when `UpdateStatus` succeeds
`updateInvoiceStatusHandler` returns without writing a status, so the answer is the 200 of
`net/http`, not 204; when no invoice has the id, on a store that answers every call, it
calls `notFoundResponse` (404) and the tables are unchanged. -/
theorem status_handler_answers (db : DB) (invoiceID : UUID) (f : ExecFaults) (now : Time) :
    ((InvoiceStore.UpdateStatus db.invoice f now invoiceID).2 = none →
      (updateInvoiceStatusHandler db (.ok invoiceID) f now).2 = .noWrite ∧
      (updateInvoiceStatusHandler db (.ok invoiceID) f now).2.status = 200 ∧
      (updateInvoiceStatusHandler db (.ok invoiceID) f now).2.status ≠ 204) ∧
    ((∀ r ∈ db.invoice, r.ID ≠ invoiceID) →
      updateInvoiceStatusHandler db (.ok invoiceID) noFaults now =
        (db, .notFoundResponse .ErrNotFound) ∧
      (Response.notFoundResponse .ErrNotFound).status = 404) := by
  refine ⟨?_, ?_⟩
  · intro hok
    rcases hup : InvoiceStore.UpdateStatus db.invoice f now invoiceID with ⟨tbl, e⟩
    rw [hup] at hok
    simp only at hok
    subst hok
    simp [updateInvoiceStatusHandler, hup, Response.status]
  · intro hmiss
    have hup := UpdateStatus_missing db.invoice now invoiceID hmiss
    refine ⟨?_, rfl⟩
    simp only [updateInvoiceStatusHandler, hup, if_true]

/-- A toggle of invoice 1, which is stored, and of invoice 7, which is not. -/
theorem status_handler_answers_witness :
    updateInvoiceStatusHandler exampleDB (.ok 1) noFaults 50 =
      (⟨[{ unpaidInvoice with IsPaid := true, PaidDate := some 50 }], exampleItems⟩,
        .noWrite) ∧
    (updateInvoiceStatusHandler exampleDB (.ok 1) noFaults 50).2.status = 200 ∧
    updateInvoiceStatusHandler exampleDB (.ok 7) noFaults 50 =
      (exampleDB, .notFoundResponse .ErrNotFound) :=
  ⟨by decide,
    ((status_handler_answers exampleDB 1 noFaults 50).1 (by decide)).2.1,
    ((status_handler_answers exampleDB 7 noFaults 50).2 (by decide)).1⟩

/-! ## An update whose item replace fails -/

/-- C29: in `updateInvoiceHandler`, whenever `Update` succeeds and `UpdateAll` then fails,
the handler calls `internalServerError` (500), the rows of the invoice carry the newly
supplied header values, and the item table, hence the items of the invoice, is exactly as
before the request. -/
theorem update_not_atomic (db : DB) (payload : InvoicePayload)
    (Validate : InvoicePayload → Option Error) (fu : ExecFaults) (ft : TxFaults)
    (err : Error) (hvalid : Validate payload = none)
    (hupd : (InvoiceStore.Update db.invoice fu payload.invoice).2 = none)
    (hall : (InvoiceItemStore.UpdateAll db.invoice_item ft payload.ID payload.items).2 =
      some err) :
    (updateInvoiceHandler db (.ok payload) Validate fu ft).2 = .internalServerError err ∧
    (updateInvoiceHandler db (.ok payload) Validate fu ft).2.status = 500 ∧
    (updateInvoiceHandler db (.ok payload) Validate fu ft).1.invoice_item =
      db.invoice_item ∧
    (∀ fault, InvoiceItemStore.GetByInvoiceID
        (updateInvoiceHandler db (.ok payload) Validate fu ft).1.invoice_item fault
        payload.ID =
      InvoiceItemStore.GetByInvoiceID db.invoice_item fault payload.ID) ∧
    (∀ (i : Nat) (r : Invoice), db.invoice[i]? = some r → r.ID = payload.ID →
      ∃ r', (updateInvoiceHandler db (.ok payload) Validate fu ft).1.invoice[i]? = some r' ∧
        r'.CustID = payload.CustID ∧ r'.TotalAmount = payload.TotalAmount ∧
        r'.InvDate = payload.InvDate ∧ r'.DueDate = payload.DueDate ∧
        r'.IsPaid = payload.IsPaid ∧ r'.PaidDate = payload.PaidDate) := by
  have hid : payload.invoice.ID = payload.ID := rfl
  have hne : payload.items ≠ [] := by
    intro hnil
    rw [hnil] at hall
    simp [InvoiceItemStore.UpdateAll] at hall
  have hsame : (InvoiceItemStore.UpdateAll db.invoice_item ft payload.ID
      payload.items).1.committed = db.invoice_item :=
    ((UpdateAll_spec db.invoice_item ft payload.ID payload.items hne).1
      (by rw [hall]; simp)).1
  have hexec := ((Update_ok_iff db.invoice fu payload.invoice).1 hupd).1
  have htbl := Update_table_of_exec db.invoice fu payload.invoice hexec
  rcases hu : InvoiceStore.Update db.invoice fu payload.invoice with ⟨tbl, e⟩
  rw [hu] at hupd htbl
  simp only at hupd htbl
  subst hupd
  rcases hua : InvoiceItemStore.UpdateAll db.invoice_item ft payload.ID payload.items
    with ⟨sess, e⟩
  rw [hua] at hall hsame
  simp only at hall hsame
  subst hall
  have hres : updateInvoiceHandler db (.ok payload) Validate fu ft =
      (⟨tbl, db.invoice_item⟩, .internalServerError err) := by
    simp only [updateInvoiceHandler, hvalid, hu, hid, hua, hsame]
  rw [hres]
  refine ⟨rfl, rfl, rfl, fun _ => rfl, ?_⟩
  intro i r hi hrid
  refine ⟨{ r with CustID := payload.CustID, TotalAmount := payload.TotalAmount,
                   InvDate := payload.InvDate, DueDate := payload.DueDate,
                   IsPaid := payload.IsPaid, PaidDate := payload.PaidDate },
    ?_, rfl, rfl, rfl, rfl, rfl, rfl⟩
  simp only [htbl, List.getElem?_map, hi, Option.map_some', hid, hrid, if_true]
  rfl

/-- An update of invoice 1 whose item replace is refused at `Commit`: 500, the header
carries the new customer and total, the items A, B are still there. -/
theorem update_not_atomic_witness :
    updateInvoiceHandler exampleDB (.ok examplePayload) (fun _ => none) noFaults
        commitFails =
      (⟨[{ unpaidInvoice with CustID := 21, TotalAmount := 500 }], exampleItems⟩,
        .internalServerError (.driver "timeout")) ∧
    (updateInvoiceHandler exampleDB (.ok examplePayload) (fun _ => none) noFaults
        commitFails).1.invoice_item = exampleItems :=
  ⟨by decide,
    (update_not_atomic exampleDB examplePayload (fun _ => none) noFaults commitFails
      (.driver "timeout") rfl (by decide) (by decide)).2.2.1⟩

/-! ## The document handler -/

theorem notFoundIfNoRows_cases {α : Type} (r : Except Error α) :
    (∃ err, notFoundIfNoRows r = (none, some err)) ∨
      (∃ row, notFoundIfNoRows r = (some row, none)) := by
  cases r with
  | error err =>
    left
    simp only [notFoundIfNoRows]
    split_ifs
    · exact ⟨_, rfl⟩
    · exact ⟨_, rfl⟩
  | ok row => right; exact ⟨row, rfl⟩

theorem InvoiceGetByID_missing (tbl : InvoiceTable) (invoiceID : UUID)
    (h : ∀ r ∈ tbl, r.ID ≠ invoiceID) :
    InvoiceStore.GetByID tbl none invoiceID = (none, some .ErrNotFound) := by
  have hnil : tbl.filter (fun r => r.ID = invoiceID) = [] := by
    rw [List.filter_eq_nil_iff]
    intro r hr
    simpa using h r hr
  simp [InvoiceStore.GetByID, hnil, queryRowScan, notFoundIfNoRows]

theorem CustomerGetByID_missing (tbl : List Customer) (id : UUID)
    (h : ∀ r ∈ tbl, r.ID ≠ id) :
    CustomerStore.GetByID tbl none id = (none, some .ErrNotFound) := by
  have hnil : tbl.filter (fun r => r.ID = id) = [] := by
    rw [List.filter_eq_nil_iff]
    intro r hr
    simpa using h r hr
  simp [CustomerStore.GetByID, hnil, queryRowScan, notFoundIfNoRows]

theorem BusinessGetByID_missing (tbl : List Business) (id : UUID)
    (h : ∀ r ∈ tbl, r.ID ≠ id) :
    BusinessStore.GetByID tbl none id = (none, some .ErrNotFound) := by
  have hnil : tbl.filter (fun r => r.ID = id) = [] := by
    rw [List.filter_eq_nil_iff]
    intro r hr
    simpa using h r hr
  simp [BusinessStore.GetByID, hnil, queryRowScan, notFoundIfNoRows]

/-- The document handler calls `GenerateInvoicePDF` exactly when its five lookups have
returned without error, and then with what they returned. -/
theorem pdfHandler_view (lib : Gofpdf) (db : DB) (dirs : Directories) (invoiceID : UUID)
    (f : LookupFaults) (v : View)
    (h : (getInvoiceAsPDFHandler lib db dirs (.ok invoiceID) f).2 = some v) :
    InvoiceStore.GetByID db.invoice f.invoice invoiceID = (some v.invoice, none) ∧
    InvoiceItemStore.GetByInvoiceID db.invoice_item f.items invoiceID = (v.items, none) ∧
    CustomerStore.GetByID dirs.customer f.customer v.invoice.CustID =
      (some v.customer, none) ∧
    BusinessStore.GetByID dirs.business f.business v.invoice.BusID =
      (some v.business, none) ∧
    ProductStore.GetByBusID dirs.product f.products v.invoice.BusID = (v.products, none) ∧
    (getInvoiceAsPDFHandler lib db dirs (.ok invoiceID) f).1 =
      (match GenerateInvoicePDF lib v.business v.invoice v.customer v.items v.products with
        | .error err => .internalServerError err
        | .panic => .panic
        | .ok pdfData => .Write "application/pdf" 200 pdfData) := by
  rcases h1 : InvoiceStore.GetByID db.invoice f.invoice invoiceID with ⟨oi, e1⟩
  cases e1 with
  | some err =>
    simp only [getInvoiceAsPDFHandler, h1] at h
    split_ifs at h
  | none =>
    cases oi with
    | none => simp [getInvoiceAsPDFHandler, h1] at h
    | some invoice =>
      rcases h2 : InvoiceItemStore.GetByInvoiceID db.invoice_item f.items invoiceID
        with ⟨items, e2⟩
      cases e2 with
      | some err => simp [getInvoiceAsPDFHandler, h1, h2] at h
      | none =>
        rcases h3 : CustomerStore.GetByID dirs.customer f.customer invoice.CustID
          with ⟨oc, e3⟩
        cases e3 with
        | some err => simp [getInvoiceAsPDFHandler, h1, h2, h3] at h
        | none =>
          cases oc with
          | none => simp [getInvoiceAsPDFHandler, h1, h2, h3] at h
          | some customer =>
            rcases h4 : BusinessStore.GetByID dirs.business f.business invoice.BusID
              with ⟨ob, e4⟩
            cases e4 with
            | some err => simp [getInvoiceAsPDFHandler, h1, h2, h3, h4] at h
            | none =>
              cases ob with
              | none => simp [getInvoiceAsPDFHandler, h1, h2, h3, h4] at h
              | some business =>
                rcases h5 : ProductStore.GetByBusID dirs.product f.products invoice.BusID
                  with ⟨products, e5⟩
                cases e5 with
                | some err => simp [getInvoiceAsPDFHandler, h1, h2, h3, h4, h5] at h
                | none =>
                  cases hg : GenerateInvoicePDF lib business invoice customer items products
                    with
                  | error err =>
                    simp only [getInvoiceAsPDFHandler, h1, h2, h3, h4, h5, hg,
                      Option.some.injEq] at h ⊢
                    subst h
                    simp [h3, h4, h5, hg]
                  | panic =>
                    simp only [getInvoiceAsPDFHandler, h1, h2, h3, h4, h5, hg,
                      Option.some.injEq] at h ⊢
                    subst h
                    simp [h3, h4, h5, hg]
                  | ok pdfData =>
                    simp only [getInvoiceAsPDFHandler, h1, h2, h3, h4, h5, hg,
                      Option.some.injEq] at h ⊢
                    subst h
                    simp [h3, h4, h5, hg, StatusOK]

/-- Without a call of `GenerateInvoicePDF` the handler writes no body and no 200. -/
theorem pdfHandler_no_view (lib : Gofpdf) (db : DB) (dirs : Directories)
    (id : Except Error UUID) (f : LookupFaults)
    (h : (getInvoiceAsPDFHandler lib db dirs id f).2 = none) :
    (getInvoiceAsPDFHandler lib db dirs id f).1.body = none ∧
    (getInvoiceAsPDFHandler lib db dirs id f).1.status ≠ 200 := by
  cases id with
  | error err => simp [getInvoiceAsPDFHandler, Response.body, Response.status]
  | ok invoiceID =>
    rcases h1 : InvoiceStore.GetByID db.invoice f.invoice invoiceID with ⟨oi, e1⟩
    cases e1 with
    | some err =>
      simp only [getInvoiceAsPDFHandler, h1]
      split_ifs <;> simp [Response.body, Response.status]
    | none =>
      cases oi with
      | none => simp [getInvoiceAsPDFHandler, h1, Response.body, Response.status]
      | some invoice =>
        rcases h2 : InvoiceItemStore.GetByInvoiceID db.invoice_item f.items invoiceID
          with ⟨items, e2⟩
        cases e2 with
        | some err => simp [getInvoiceAsPDFHandler, h1, h2, Response.body, Response.status]
        | none =>
          rcases h3 : CustomerStore.GetByID dirs.customer f.customer invoice.CustID
            with ⟨oc, e3⟩
          cases e3 with
          | some err =>
            simp [getInvoiceAsPDFHandler, h1, h2, h3, Response.body, Response.status]
          | none =>
            cases oc with
            | none =>
              simp [getInvoiceAsPDFHandler, h1, h2, h3, Response.body, Response.status]
            | some customer =>
              rcases h4 : BusinessStore.GetByID dirs.business f.business invoice.BusID
                with ⟨ob, e4⟩
              cases e4 with
              | some err =>
                simp [getInvoiceAsPDFHandler, h1, h2, h3, h4, Response.body, Response.status]
              | none =>
                cases ob with
                | none =>
                  simp [getInvoiceAsPDFHandler, h1, h2, h3, h4, Response.body,
                    Response.status]
                | some business =>
                  rcases h5 : ProductStore.GetByBusID dirs.product f.products invoice.BusID
                    with ⟨products, e5⟩
                  cases e5 with
                  | some err =>
                    simp [getInvoiceAsPDFHandler, h1, h2, h3, h4, h5, Response.body,
                      Response.status]
                  | none =>
                    exfalso
                    simp only [getInvoiceAsPDFHandler, h1, h2, h3, h4, h5] at h
                    cases hg : GenerateInvoicePDF lib business invoice customer items
                      products <;> simp [hg] at h

/-- C22: `getInvoiceAsPDFHandler` never renders from incomplete data.  It calls
`notFoundResponse` (404) when no invoice has the id; it calls `internalServerError` (500)
when the item, customer, business or product lookup fails, a customer or business that is
not found included; in each of those cases, and whenever `GenerateInvoicePDF` is not
called, no body is written and the status is not 200.  When it is called, it is called with
what the five lookups returned without error.  The answer is 200 only as the response
with content type `application/pdf` whose body is the bytes the render returned. -/
theorem pdf_handler_complete_data (lib : Gofpdf) (db : DB) (dirs : Directories)
    (invoiceID : UUID) (f : LookupFaults) :
    (f.invoice = none → (∀ r ∈ db.invoice, r.ID ≠ invoiceID) →
      getInvoiceAsPDFHandler lib db dirs (.ok invoiceID) f =
        (.notFoundResponse .ErrNotFound, none) ∧
      (Response.notFoundResponse .ErrNotFound).status = 404) ∧
    (∀ invoice, InvoiceStore.GetByID db.invoice f.invoice invoiceID = (some invoice, none) →
      (∀ err, (InvoiceItemStore.GetByInvoiceID db.invoice_item f.items invoiceID).2 =
          some err →
        getInvoiceAsPDFHandler lib db dirs (.ok invoiceID) f =
          (.internalServerError err, none)) ∧
      ((InvoiceItemStore.GetByInvoiceID db.invoice_item f.items invoiceID).2 = none →
        (∀ err, (CustomerStore.GetByID dirs.customer f.customer invoice.CustID).2 =
            some err →
          getInvoiceAsPDFHandler lib db dirs (.ok invoiceID) f =
            (.internalServerError err, none)) ∧
        (∀ customer, CustomerStore.GetByID dirs.customer f.customer invoice.CustID =
            (some customer, none) →
          (∀ err, (BusinessStore.GetByID dirs.business f.business invoice.BusID).2 =
              some err →
            getInvoiceAsPDFHandler lib db dirs (.ok invoiceID) f =
              (.internalServerError err, none)) ∧
          (∀ business, BusinessStore.GetByID dirs.business f.business invoice.BusID =
              (some business, none) →
            ∀ err, (ProductStore.GetByBusID dirs.product f.products invoice.BusID).2 =
                some err →
              getInvoiceAsPDFHandler lib db dirs (.ok invoiceID) f =
                (.internalServerError err, none))))) ∧
    (∀ err, (Response.internalServerError err).status = 500) ∧
    (∀ id, (∀ r ∈ dirs.customer, r.ID ≠ id) →
      CustomerStore.GetByID dirs.customer none id = (none, some .ErrNotFound)) ∧
    (∀ id, (∀ r ∈ dirs.business, r.ID ≠ id) →
      BusinessStore.GetByID dirs.business none id = (none, some .ErrNotFound)) ∧
    ((getInvoiceAsPDFHandler lib db dirs (.ok invoiceID) f).2 = none →
      (getInvoiceAsPDFHandler lib db dirs (.ok invoiceID) f).1.body = none ∧
      (getInvoiceAsPDFHandler lib db dirs (.ok invoiceID) f).1.status ≠ 200) ∧
    (∀ v, (getInvoiceAsPDFHandler lib db dirs (.ok invoiceID) f).2 = some v →
      InvoiceStore.GetByID db.invoice f.invoice invoiceID = (some v.invoice, none) ∧
      InvoiceItemStore.GetByInvoiceID db.invoice_item f.items invoiceID = (v.items, none) ∧
      CustomerStore.GetByID dirs.customer f.customer v.invoice.CustID =
        (some v.customer, none) ∧
      BusinessStore.GetByID dirs.business f.business v.invoice.BusID =
        (some v.business, none) ∧
      ProductStore.GetByBusID dirs.product f.products v.invoice.BusID =
        (v.products, none)) ∧
    ((getInvoiceAsPDFHandler lib db dirs (.ok invoiceID) f).1.status = 200 →
      ∃ v pdfData, (getInvoiceAsPDFHandler lib db dirs (.ok invoiceID) f).2 = some v ∧
        GenerateInvoicePDF lib v.business v.invoice v.customer v.items v.products =
          .ok pdfData ∧
        (getInvoiceAsPDFHandler lib db dirs (.ok invoiceID) f).1 =
          .Write "application/pdf" 200 pdfData) := by
  refine ⟨?_, ?_, fun _ => rfl, CustomerGetByID_missing dirs.customer,
    BusinessGetByID_missing dirs.business,
    pdfHandler_no_view lib db dirs (.ok invoiceID) f, ?_, ?_⟩
  · intro hf hmiss
    have h1 := InvoiceGetByID_missing db.invoice invoiceID hmiss
    rw [← hf] at h1
    refine ⟨?_, rfl⟩
    simp only [getInvoiceAsPDFHandler, h1, if_true]
  · intro invoice h1
    refine ⟨?_, ?_⟩
    · intro err h2
      rcases h2' : InvoiceItemStore.GetByInvoiceID db.invoice_item f.items invoiceID
        with ⟨items, e2⟩
      rw [h2'] at h2
      simp only at h2
      subst h2
      simp only [getInvoiceAsPDFHandler, h1, h2']
    · intro h2
      rcases h2' : InvoiceItemStore.GetByInvoiceID db.invoice_item f.items invoiceID
        with ⟨items, e2⟩
      rw [h2'] at h2
      simp only at h2
      subst h2
      refine ⟨?_, ?_⟩
      · intro err h3
        rcases h3' : CustomerStore.GetByID dirs.customer f.customer invoice.CustID
          with ⟨oc, e3⟩
        rw [h3'] at h3
        simp only at h3
        subst h3
        simp only [getInvoiceAsPDFHandler, h1, h2', h3']
      · intro customer h3
        refine ⟨?_, ?_⟩
        · intro err h4
          rcases h4' : BusinessStore.GetByID dirs.business f.business invoice.BusID
            with ⟨ob, e4⟩
          rw [h4'] at h4
          simp only at h4
          subst h4
          simp only [getInvoiceAsPDFHandler, h1, h2', h3, h4']
        · intro business h4 err h5
          rcases h5' : ProductStore.GetByBusID dirs.product f.products invoice.BusID
            with ⟨products, e5⟩
          rw [h5'] at h5
          simp only at h5
          subst h5
          simp only [getInvoiceAsPDFHandler, h1, h2', h3, h4, h5']
  · intro v hv
    obtain ⟨h1, h2, h3, h4, h5, -⟩ := pdfHandler_view lib db dirs invoiceID f v hv
    exact ⟨h1, h2, h3, h4, h5⟩
  · intro h200
    cases hv : (getInvoiceAsPDFHandler lib db dirs (.ok invoiceID) f).2 with
    | none => exact absurd h200 (pdfHandler_no_view lib db dirs (.ok invoiceID) f hv).2
    | some v =>
      obtain ⟨-, -, -, -, -, hresp⟩ := pdfHandler_view lib db dirs invoiceID f v hv
      cases hg : GenerateInvoicePDF lib v.business v.invoice v.customer v.items v.products
        with
      | error err =>
        rw [hg] at hresp
        rw [hresp] at h200
        simp [Response.status] at h200
      | panic =>
        rw [hg] at hresp
        rw [hresp] at h200
        simp [Response.status] at h200
      | ok pdfData =>
        rw [hg] at hresp
        exact ⟨v, pdfData, rfl, hg, hresp⟩

/-- Invoice 7 is not stored: 404.  Invoice 1 with its customer missing from the
directory: 500 and no render.  Invoice 1 with everything in place: 200 with the document. -/
theorem pdf_handler_complete_data_witness :
    getInvoiceAsPDFHandler exampleLib documentDB exampleDirs (.ok 7) noLookupFaults =
      (.notFoundResponse .ErrNotFound, none) ∧
    getInvoiceAsPDFHandler exampleLib documentDB ⟨[], [exampleBusiness], exampleProducts⟩
        (.ok 1) noLookupFaults = (.internalServerError .ErrNotFound, none) ∧
    (getInvoiceAsPDFHandler exampleLib documentDB exampleDirs (.ok 1)
      noLookupFaults).1.status = 200 ∧
    (getInvoiceAsPDFHandler exampleLib documentDB exampleDirs (.ok 1) noLookupFaults).2 =
      some ⟨exampleBusiness, invoiceTotal500, exampleCustomer,
        [⟨101, 1, 51, 2, 100⟩, ⟨102, 1, 52, 1, 30⟩], exampleProducts⟩ :=
  ⟨((pdf_handler_complete_data exampleLib documentDB exampleDirs 7 noLookupFaults).1 rfl
      (by decide)).1,
    by decide, by decide, by decide⟩

end Billify
